import Mathlib

/-!
Verification development for the `df::DataFrame` in-memory tabular data engine
(src/dataframe.h, src/stats.h/.cpp, src/date_utils.h).

Modelling conventions for the shallow embedding:
* A cell value (`double`) is a `Val := Option ℚ`: `none` models the IEEE-754
  NaN "missing" sentinel, `some q` a finite double, with exact rational
  arithmetic standing in for floating-point arithmetic.  Infinities are
  outside the model.
* `std::string` is modelled as `Str := List Char`.
* Functions that `throw` are modelled in `Except String`, carrying the
  source's error message; exception propagation through loops is modelled by
  the error-propagating list traversal `mapE`.
* Irrational primitives (`std::sqrt`, `std::log`, `std::pow`) have no exact
  rational counterpart; the operations that use them take the primitive as an
  explicit function argument, and theorems that need a property of it (e.g.
  positivity of `sqrt` on positives) take that property as a hypothesis.
* The Mersenne-twister random generator is modelled as an explicit stream of
  draws passed as a function argument.
-/

set_option maxHeartbeats 1000000

deriving instance DecidableEq for Except

namespace df

/-- A cell value: `none` models the NaN "missing" sentinel, `some q` a finite
double under exact rational arithmetic. -/
abbrev Val := Option ℚ

/-- `std::string`, modelled as a list of characters. -/
abbrev Str := List Char

/-- The table `df::DataFrame<IndexT>` (src/dataframe.h, data members at lines
300-304): ordered column names, row index values parallel to the rows, the
row-major cell matrix, and the display label of the index axis. -/
structure DataFrame (ι : Type) where
  columns : List Str
  index : List ι
  data : List (List Val)
  index_name : Str
deriving DecidableEq

variable {ι : Type}

/-- `DataFrame::rows()`: the number of rows of the cell matrix. -/
def DataFrame.rows (df : DataFrame ι) : ℕ := df.data.length

/-- `DataFrame::cols()`: the number of column names. -/
def DataFrame.cols (df : DataFrame ι) : ℕ := df.columns.length

/-- The structural invariant of §3 of the specification: the index is
parallel to the rows and every row has exactly one cell per column. -/
def WF (df : DataFrame ι) : Prop :=
  df.index.length = df.data.length ∧
    ∀ row ∈ df.data, row.length = df.columns.length

instance (df : DataFrame ι) : Decidable (WF df) := by
  unfold WF; infer_instance

/-- Error-propagating traversal of a list: models a C++ loop whose body may
`throw`, aborting the whole operation at the first failure. -/
def mapE (f : α → Except String β) : List α → Except String (List β)
  | [] => .ok []
  | x :: xs =>
    match f x with
    | .error e => .error e
    | .ok y =>
      match mapE f xs with
      | .error e => .error e
      | .ok ys => .ok (y :: ys)

/-- `DataFrame::apply_scalar` (src/dataframe.h:1802-1816): apply a pure
cell function to every cell, preserving columns, index and index label. -/
def DataFrame.apply_scalar (df : DataFrame ι) (f : Val → Val) : DataFrame ι :=
  { df with data := df.data.map (fun row => row.map f) }

/-- `DataFrame::apply_unary` (src/dataframe.h:1818-1822) with a cell function
that may throw (as `log_elements` does): apply it to every cell, aborting on
the first failure. -/
def DataFrame.apply_unaryE (df : DataFrame ι) (f : Val → Except String Val) :
    Except String (DataFrame ι) :=
  match mapE (fun row => mapE f row) df.data with
  | .error e => .error e
  | .ok data => .ok { df with data := data }

/-- `DataFrame::apply_binary` (src/dataframe.h:1824-1849): elementwise
combination of two tables after the shape, column-sequence and
index-sequence checks, in that order.  The element traversal pairs the cells
positionally, as the C++ double loop over `rows() × cols()` does. -/
def DataFrame.apply_binary [DecidableEq ι] (df other : DataFrame ι)
    (f : Val → Val → Except String Val) (name : String) :
    Except String (DataFrame ι) :=
  if df.rows ≠ other.rows ∨ df.cols ≠ other.cols then
    .error ("dataframe::" ++ name ++ ": shape mismatch")
  else if df.columns ≠ other.columns then
    .error ("dataframe::" ++ name ++ ": column mismatch")
  else if df.index ≠ other.index then
    .error ("dataframe::" ++ name ++ ": index mismatch")
  else
    match mapE (fun rc => mapE (fun ab => f ab.1 ab.2) (rc.1.zip rc.2))
      (df.data.zip other.data) with
    | .error e => .error e
    | .ok data => .ok { df with data := data }

/-- Addition of two cells: NaN propagates (any IEEE arithmetic with a NaN
operand yields NaN). -/
def addV (a b : Val) : Val :=
  match a, b with
  | some x, some y => some (x + y)
  | _, _ => none

/-- Subtraction of two cells with NaN propagation. -/
def subV (a b : Val) : Val :=
  match a, b with
  | some x, some y => some (x - y)
  | _, _ => none

/-- Multiplication of two cells with NaN propagation. -/
def mulV (a b : Val) : Val :=
  match a, b with
  | some x, some y => some (x * y)
  | _, _ => none

/-- `DataFrame::add(double)` (src/dataframe.h:1091-1094). -/
def DataFrame.add_scalar (df : DataFrame ι) (s : ℚ) : DataFrame ι :=
  df.apply_scalar (fun v => v.map (· + s))

/-- `DataFrame::subtract(double)` (src/dataframe.h:1096-1099). -/
def DataFrame.subtract_scalar (df : DataFrame ι) (s : ℚ) : DataFrame ι :=
  df.apply_scalar (fun v => v.map (· - s))

/-- `DataFrame::multiply(double)` (src/dataframe.h:1101-1104). -/
def DataFrame.multiply_scalar (df : DataFrame ι) (s : ℚ) : DataFrame ι :=
  df.apply_scalar (fun v => v.map (· * s))

/-- `DataFrame::divide(double)` (src/dataframe.h:1106-1112): a zero scalar
divisor is rejected before any cell is touched. -/
def DataFrame.divide_scalar (df : DataFrame ι) (s : ℚ) :
    Except String (DataFrame ι) :=
  if s = 0 then .error "dataframe::divide: division by zero"
  else .ok (df.apply_scalar (fun v => v.map (· / s)))

/-- `DataFrame::add(const DataFrame&)` (src/dataframe.h:1114-1117). -/
def DataFrame.add [DecidableEq ι] (df other : DataFrame ι) :
    Except String (DataFrame ι) :=
  df.apply_binary other (fun a b => .ok (addV a b)) "add"

/-- `DataFrame::subtract(const DataFrame&)` (src/dataframe.h:1119-1122). -/
def DataFrame.subtract [DecidableEq ι] (df other : DataFrame ι) :
    Except String (DataFrame ι) :=
  df.apply_binary other (fun a b => .ok (subV a b)) "subtract"

/-- `DataFrame::multiply(const DataFrame&)` (src/dataframe.h:1124-1127). -/
def DataFrame.multiply [DecidableEq ι] (df other : DataFrame ι) :
    Except String (DataFrame ι) :=
  df.apply_binary other (fun a b => .ok (mulV a b)) "multiply"

/-- The cell function of `DataFrame::divide(const DataFrame&)`
(src/dataframe.h:1129-1139): it first tests the divisor against zero (a NaN
divisor compares unequal to zero, so it does not throw and the quotient is
NaN). -/
def divCell (a b : Val) : Except String Val :=
  match b with
  | some y =>
      if y = 0 then .error "dataframe::divide: division by zero element"
      else .ok (a.map (· / y))
  | none => .ok none

/-- `DataFrame::divide(const DataFrame&)` (src/dataframe.h:1129-1139). -/
def DataFrame.divide [DecidableEq ι] (df other : DataFrame ι) :
    Except String (DataFrame ι) :=
  df.apply_binary other divCell "divide"

/-- The cell function of `DataFrame::log_elements`
(src/dataframe.h:1141-1152): NaN propagates, a non-positive non-NaN cell is
a hard failure.  `logQ` models `std::log` on positive arguments. -/
def logCell (logQ : ℚ → ℚ) (v : Val) : Except String Val :=
  match v with
  | none => .ok none
  | some q =>
      if 0 < q then .ok (some (logQ q))
      else .error "dataframe::log_elements: non-positive value encountered"

/-- `DataFrame::log_elements` (src/dataframe.h:1141-1152). -/
def DataFrame.log_elements (logQ : ℚ → ℚ) (df : DataFrame ι) :
    Except String (DataFrame ι) :=
  df.apply_unaryE (logCell logQ)

/-- `DataFrame::exp_elements` (src/dataframe.h:1154-1157); `std::exp` maps
NaN to NaN, `expQ` models it on finite arguments. -/
def DataFrame.exp_elements (expQ : ℚ → ℚ) (df : DataFrame ι) : DataFrame ι :=
  df.apply_scalar (fun v => v.map expQ)

/-- `std::pow(v, e)`: `pow` of anything to exponent zero is `1.0` (even for a
NaN base); otherwise a NaN base yields NaN.  `powQ` models `std::pow` on
finite non-NaN results. -/
def powV (powQ : ℚ → ℚ → ℚ) (e : ℚ) (v : Val) : Val :=
  if e = 0 then some 1 else v.map (powQ · e)

/-- `DataFrame::power` (src/dataframe.h:1159-1162). -/
def DataFrame.power (powQ : ℚ → ℚ → ℚ) (df : DataFrame ι) (e : ℚ) : DataFrame ι :=
  df.apply_scalar (powV powQ e)

/-- `DataFrame::power_int` (src/dataframe.h:1164-1167). -/
def DataFrame.power_int (powQ : ℚ → ℚ → ℚ) (df : DataFrame ι) (e : ℤ) : DataFrame ι :=
  df.apply_scalar (powV powQ (e : ℚ))

/-- `DataFrame::differences` (src/dataframe.h:698-714): output row `r-1` is
input row `r` minus input row `r-1`; the index drops its first entry. -/
def DataFrame.differences (df : DataFrame ι) : Except String (DataFrame ι) :=
  if df.data.length < 2 then
    .error "dataframe::differences: need at least two rows"
  else
    .ok { df with
      index := df.index.drop 1,
      data := (df.data.zip (df.data.drop 1)).map
        (fun pr => (pr.1.zip pr.2).map (fun ab => subV ab.2 ab.1)) }

/-- The per-pair cell computation of `DataFrame::log_changes`
(src/dataframe.h:726-734): both the previous and the current cell must test
`> 0.0` (a NaN cell fails that test exactly like a non-positive one, since
every comparison with NaN is false), else the operation throws. -/
def logChangeCell (logQ : ℚ → ℚ) (ab : Val × Val) : Except String Val :=
  match ab.1, ab.2 with
  | some p, some c =>
      if 0 < p ∧ 0 < c then .ok (some (logQ c - logQ p))
      else .error "dataframe::log_changes: non-positive value encountered"
  | _, _ => .error "dataframe::log_changes: non-positive value encountered"

/-- `DataFrame::log_changes` (src/dataframe.h:716-737): output row `r-1`
computed from input rows `r-1, r`; the index drops its first entry. -/
def DataFrame.log_changes (logQ : ℚ → ℚ) (df : DataFrame ι) :
    Except String (DataFrame ι) :=
  if df.data.length < 2 then
    .error "dataframe::log_changes: need at least two rows"
  else
    match mapE (fun pr => mapE (logChangeCell logQ) (pr.1.zip pr.2))
      (df.data.zip (df.data.drop 1)) with
    | .error e => .error e
    | .ok data => .ok { df with index := df.index.drop 1, data := data }

/-- `DataFrame::proportional_changes` (src/dataframe.h:739-760): only an
exactly-zero previous cell throws (a NaN previous cell compares unequal to
zero and yields a NaN change). -/
def DataFrame.proportional_changes (df : DataFrame ι) :
    Except String (DataFrame ι) :=
  if df.data.length < 2 then
    .error "dataframe::proportional_changes: need at least two rows"
  else
    match mapE (fun pr => mapE (fun ab =>
        match ab.1 with
        | some p =>
            if p = 0 then
              .error "dataframe::proportional_changes: zero value encountered"
            else .ok (ab.2.map (fun c => (c - p) / p))
        | none => .ok none)
        (pr.1.zip pr.2))
      (df.data.zip (df.data.drop 1)) with
    | .error e => .error e
    | .ok data => .ok { df with index := df.index.drop 1, data := data }

/-- Does a row contain the NaN sentinel? -/
def rowHasNaN (row : List Val) : Bool := row.any (·.isNone)

/-- `std::isspace` in the default locale. -/
def isWS (c : Char) : Bool :=
  c = ' ' || c = '\t' || c = '\n' || c = '\x0b' || c = '\x0c' || c = '\r'

/-- `detail::trim` (src/dataframe.h:30-36): strip leading and trailing
whitespace. -/
def trimC (s : Str) : Str :=
  ((s.dropWhile isWS).reverse.dropWhile isWS).reverse

/-- Remove trailing `'0'` characters (of a decimal fraction). -/
def stripTrailingZeros (s : Str) : Str :=
  (s.reverse.dropWhile (· = '0')).reverse

/-- The decimal exponent of a positive rational: the unique `e` with
`10^e ≤ a < 10^(e+1)`, computed from decimal digit counts. -/
def qExp10 (a : ℚ) : ℤ :=
  if 1 ≤ a then ((Nat.toDigits 10 ⌊a⌋₊).length : ℤ) - 1
  else
    let c := ⌈a⁻¹⌉₊
    let d := (Nat.toDigits 10 c).length
    if c ≤ 10 ^ (d - 1) then -((d : ℤ) - 1) else -(d : ℤ)

/-- The exponent suffix of scientific notation as printed by `operator<<`:
`e`, an explicit sign, and at least two exponent digits. -/
def expChars (e : ℤ) : Str :=
  let ds := Nat.toDigits 10 e.natAbs
  'e' :: (if e < 0 then '-' else '+') :: (if ds.length < 2 then '0' :: ds else ds)

/-- `operator<<(std::ostream&, double)` under the stream's default flags
(`%g` with precision 6), as used by `to_csv` for cell values and by
`column_percentiles` for its labels: the value is rounded to six significant
digits, printed in fixed notation when the decimal exponent lies in
`[-4, 5]` and in scientific notation otherwise, with trailing fractional
zeros removed.  Ties of the decimal rounding (essentially absent for values
arising from binary doubles) round half away from zero. -/
def formatQ (q : ℚ) : Str :=
  if q = 0 then ['0']
  else
    let sign : Str := if q < 0 then ['-'] else []
    let a := |q|
    let e0 := qExp10 a
    let n0 := (round (a * (10 : ℚ) ^ ((5 : ℤ) - e0))).toNat
    let n := if n0 = 1000000 then 100000 else n0
    let e := if n0 = 1000000 then e0 + 1 else e0
    let ds := Nat.toDigits 10 n
    if e < -4 ∨ 6 ≤ e then
      let frac := stripTrailingZeros ds.tail
      sign ++ [ds.headD '0'] ++ (if frac = [] then [] else '.' :: frac) ++ expChars e
    else if 0 ≤ e then
      let ip := ds.take (e.toNat + 1)
      let frac := stripTrailingZeros (ds.drop (e.toNat + 1))
      sign ++ ip ++ (if frac = [] then [] else '.' :: frac)
    else
      let frac := stripTrailingZeros (List.replicate (-(e + 1)).toNat '0' ++ ds)
      sign ++ '0' :: '.' :: frac

/-- `operator<<` on an integral value (`detail::index_to_string` for the
integral index types). -/
def formatZ (z : ℤ) : Str :=
  (if z < 0 then ['-'] else []) ++ Nat.toDigits 10 z.natAbs

/-- The numeric value of a string of decimal digits. -/
def digitsToNat (l : Str) : ℕ :=
  l.foldl (fun acc c => 10 * acc + (c.toNat - '0'.toNat)) 0

/-- `std::stod` as used by `from_csv` (src/dataframe.h:386): skip leading
whitespace, parse the longest valid decimal floating-point prefix (optional
sign; integer and/or fractional digits; an exponent only when well-formed),
ignore any trailing characters, and fail (`none`) when no conversion is
possible.  A signed `"nan"` of any case parses to the NaN sentinel.
Hexadecimal floats and infinities are outside this finite-value model. -/
def parse_double (s : Str) : Option Val :=
  let s0 := s.dropWhile isWS
  let (neg, s1) :=
    match s0 with
    | '-' :: t => (true, t)
    | '+' :: t => (false, t)
    | _ => (false, s0)
  if (s1.take 3).map Char.toLower = ['n', 'a', 'n'] then some none
  else
    let ip := s1.takeWhile Char.isDigit
    let r1 := s1.dropWhile Char.isDigit
    let (fp, r2) :=
      match r1 with
      | '.' :: t => (t.takeWhile Char.isDigit, t.dropWhile Char.isDigit)
      | _ => ([], r1)
    if ip = [] ∧ fp = [] then none
    else
      let mant : ℚ :=
        (digitsToNat ip : ℚ) + (digitsToNat fp : ℚ) / (10 : ℚ) ^ fp.length
      let ex : ℤ :=
        match r2 with
        | 'e' :: t | 'E' :: t =>
          let (eneg, t1) :=
            match t with
            | '-' :: u => (true, u)
            | '+' :: u => (false, u)
            | _ => (false, t)
          let ed := t1.takeWhile Char.isDigit
          if ed = [] then 0
          else if eneg then -(digitsToNat ed : ℤ) else (digitsToNat ed : ℤ)
        | _ => 0
      some (some ((if neg then -mant else mant) * (10 : ℚ) ^ ex))

/-- `detail::parse_token` (src/dataframe.h:51-68) for an integral index
type: stream extraction of an optional sign and digits, then the check that
only whitespace remains.  Overflow clamping of the C++ extraction is outside
the model. -/
def parse_int (s : Str) : Except String ℤ :=
  let s0 := s.dropWhile isWS
  let (neg, s1) :=
    match s0 with
    | '-' :: t => (true, t)
    | '+' :: t => (false, t)
    | _ => (false, s0)
  let ds := s1.takeWhile Char.isDigit
  let rest := s1.dropWhile Char.isDigit
  if ds = [] then .error "failed to parse token"
  else if rest.dropWhile isWS ≠ [] then .error "failed to parse token"
  else .ok (if neg then -(digitsToNat ds : ℤ) else (digitsToNat ds : ℤ))

/-- The index-type-specific text conversions used by the CSV codec:
`detail::index_to_string` (src/dataframe.h:178-189) and
`detail::parse_token` (src/dataframe.h:51-68), packaged per index type. -/
structure IndexCodec (ι : Type) where
  toChars : ι → Str
  parseToken : Str → Except String ι

/-- The text codec of the integral index types (`DataFrame<int>` etc.). -/
def intCodec : IndexCodec ℤ := ⟨formatZ, parse_int⟩

/-- Split a character list at every occurrence of `sep` (the repeated
`std::getline(stream, field, sep)` of `detail::split_csv`, including the
empty final segment after a trailing separator). -/
def splitSep (sep : Char) : Str → List Str
  | [] => [[]]
  | c :: rest =>
    if c = sep then [] :: splitSep sep rest
    else
      match splitSep sep rest with
      | f :: fs => (c :: f) :: fs
      | [] => [[c]]

/-- `detail::split_csv` (src/dataframe.h:38-49): comma-separated,
whitespace-trimmed fields; an empty line has no fields; a trailing comma
contributes a final empty field. -/
def split_csv (line : Str) : List Str :=
  if line = [] then [] else (splitSep ',' line).map trimC

/-- The lines delivered by repeated `std::getline` over a character stream:
segments between newlines, without a phantom final line after a trailing
newline. -/
def getlines (s : Str) : List Str :=
  if s = [] then []
  else if s.getLast? = some '\n' then (splitSep '\n' s).dropLast
  else splitSep '\n' s

/-- Join fields with commas (the `','`-separated field emission of
`to_csv`). -/
def joinFields (fields : List Str) : Str := List.intercalate [','] fields

/-- Join lines, terminating each with `'\n'` (as `to_csv` emits them). -/
def joinLines (lines : List Str) : Str :=
  (lines.map (· ++ ['\n'])).flatten

/-- The field `to_csv` writes for a cell (src/dataframe.h:523-530): NaN
cells are left empty, other values use the stream's default formatting. -/
def fieldOfVal (v : Val) : Str :=
  match v with
  | none => []
  | some q => formatQ q

/-- `DataFrame::to_csv` (src/dataframe.h:486-537) with `include_header` and
`include_index` both true (their defaults): the header line is the index
label followed by the column names; each row line is the formatted index
value followed by one field per cell.  The index-size and row-size checks
of the source throw on malformed tables. -/
def DataFrame.to_csv (cdc : IndexCodec ι) (df : DataFrame ι) :
    Except String Str :=
  if df.index.length ≠ df.data.length then
    .error "dataframe::to_csv: index size mismatch"
  else
    match mapE (fun ir =>
      if ir.2.length ≠ df.columns.length then
        .error "dataframe::to_csv: row has unexpected number of columns"
      else
        .ok (joinFields (cdc.toChars ir.1 :: ir.2.map fieldOfVal)))
      (df.index.zip df.data) with
    | .error e => .error e
    | .ok rows =>
      .ok (joinLines (joinFields (df.index_name :: df.columns) :: rows))

/-- The per-cell parse of the `from_csv` data loop (src/dataframe.h:379-390):
an empty token is NaN, a non-empty one must parse under `std::stod`. -/
def parse_cell_field (f : Str) : Except String Val :=
  if f = [] then .ok (none : Val)
  else
    match parse_double f with
    | some v => .ok v
    | none => .error "dataframe::from_csv: invalid numeric value"

/-- The per-row index determination of the `from_csv` data loop
(src/dataframe.h:360-375): parse field 0 when an index is read, otherwise
auto-generate from the running row count when the index type allows it. -/
def parse_index_field (cdc : IndexCodec ι) (has_index : Bool)
    (auto_index : Option (ℕ → ι)) (fields : List Str) (autopos : ℕ) :
    Except String ι :=
  if has_index then
    match cdc.parseToken (fields.headD []) with
    | .ok i => .ok i
    | .error _ => .error "dataframe::from_csv: invalid index value"
  else
    match auto_index with
    | some f => .ok (f autopos)
    | none => .error "dataframe::from_csv: index type cannot be auto-generated"

/-- The data-line loop of `from_csv` (src/dataframe.h:351-394): blank lines
are skipped; a line must split into one index field plus one field per
column (for `has_index = true`) or exactly one field per column otherwise;
the index field is parsed by the index codec (with `auto_index = some f`
standing for the integral auto-generated index of `has_index = false`, and
`none` for an index type that cannot be auto-generated); an empty cell
field is NaN and a non-empty one must parse as a double. -/
def from_csv_rows (cdc : IndexCodec ι) (has_index : Bool)
    (auto_index : Option (ℕ → ι)) (ncols : ℕ) :
    List Str → DataFrame ι → Except String (DataFrame ι)
  | [], df => .ok df
  | line :: rest, df =>
    if trimC line = [] then from_csv_rows cdc has_index auto_index ncols rest df
    else
      if (split_csv line).length ≠ ncols + (if has_index then 1 else 0) then
        .error "dataframe::from_csv: row has unexpected number of columns"
      else
        match parse_index_field cdc has_index auto_index (split_csv line)
          df.index.length with
        | .error e => .error e
        | .ok idx =>
          match mapE parse_cell_field
            ((split_csv line).drop (if has_index then 1 else 0)) with
          | .error e => .error e
          | .ok row =>
            from_csv_rows cdc has_index auto_index ncols rest
              { df with index := df.index ++ [idx], data := df.data ++ [row] }

/-- `DataFrame::from_csv` (src/dataframe.h:328-397). -/
def from_csv (cdc : IndexCodec ι) (auto_index : Option (ℕ → ι))
    (input : Str) (has_index : Bool) : Except String (DataFrame ι) :=
  match getlines input with
  | [] => .error "dataframe::from_csv: missing header row"
  | header :: rest =>
    let hf := split_csv header
    if hf = [] then .error "dataframe::from_csv: header has no columns"
    else if has_index ∧ hf.length < 2 then
      .error "dataframe::from_csv: need at least one data column when reading indices"
    else
      let columns := if has_index then hf.drop 1 else hf
      let iname := if has_index then hf.headD [] else "index".toList
      if columns = [] then .error "dataframe::from_csv: no data columns found"
      else
        from_csv_rows cdc has_index auto_index columns.length rest
          { columns := columns, index := [], data := [], index_name := iname }

/-- One item of the binary stream, at the granularity of the write
primitives of `to_binary` / `from_binary` (src/dataframe.h:74-165): the
6-byte magic tag, an 8-byte unsigned integer, a length-prefixed string, an
8-byte IEEE-754 double, or one index value (written by the type-dispatched
`write_index_value`).  Each item's byte encoding is injective, and a decode
of a well-formed stream reads items exactly where they were written, so the
byte level is abstracted to items. -/
inductive BinItem (ι : Type) where
  | tag : BinItem ι
  | u64 : ℕ → BinItem ι
  | str : Str → BinItem ι
  | f64 : Val → BinItem ι
  | ival : ι → BinItem ι
deriving DecidableEq

/-- `DataFrame::to_binary` (src/dataframe.h:553-582): magic tag, row count,
column count, index label, the redundant column count, the column names,
the index values, then the cell matrix row-major.  The `size_t → uint64_t`
casts reduce modulo 2^64. -/
def DataFrame.to_binary (df : DataFrame ι) : List (BinItem ι) :=
  [BinItem.tag, BinItem.u64 (df.rows % 2 ^ 64), BinItem.u64 (df.cols % 2 ^ 64),
   BinItem.str df.index_name, BinItem.u64 (df.cols % 2 ^ 64)] ++
  df.columns.map BinItem.str ++
  df.index.map BinItem.ival ++
  (df.data.map (fun row => row.map BinItem.f64)).flatten

/-- `detail::read_pod<uint64_t>`: a short read (or an item of another kind,
which at byte level could not arise from a well-formed stream at this
offset) is a fatal decode error. -/
def readU64 : List (BinItem ι) → Except String (ℕ × List (BinItem ι))
  | .u64 n :: rest => .ok (n, rest)
  | _ => .error "dataframe::binary_read: failed to read data"

/-- `detail::read_string` (src/dataframe.h:102-115). -/
def readStr : List (BinItem ι) → Except String (Str × List (BinItem ι))
  | .str s :: rest => .ok (s, rest)
  | _ => .error "dataframe::binary_read: failed to read string"

/-- `detail::read_pod<double>` for one cell. -/
def readF64 : List (BinItem ι) → Except String (Val × List (BinItem ι))
  | .f64 v :: rest => .ok (v, rest)
  | _ => .error "dataframe::binary_read: failed to read data"

/-- `detail::read_index_value` (src/dataframe.h:140-165). -/
def readIval : List (BinItem ι) → Except String (ι × List (BinItem ι))
  | .ival i :: rest => .ok (i, rest)
  | _ => .error "dataframe::binary_read: failed to read data"

/-- Prepend one item to the result of a fixed-count read. -/
def readNCons (x : α) :
    Except String (List α × List (BinItem ι)) →
      Except String (List α × List (BinItem ι))
  | .error e => .error e
  | .ok (xs, s2) => .ok (x :: xs, s2)

/-- Read `n` consecutive items with the given reader (the fixed-count read
loops of `from_binary`). -/
def readN (reader : List (BinItem ι) → Except String (α × List (BinItem ι))) :
    ℕ → List (BinItem ι) → Except String (List α × List (BinItem ι))
  | 0, s => .ok ([], s)
  | n + 1, s =>
    match reader s with
    | .error e => .error e
    | .ok (x, s1) => readNCons x (readN reader n s1)

/-- The cell-matrix stage of `from_binary` (src/dataframe.h:465-472): read
`row_count` rows of `col_count` doubles and assemble the table. -/
def fb_cells (col_count row_count : ℕ) (cols : List Str) (iname : Str)
    (idxs : List ι) (s : List (BinItem ι)) : Except String (DataFrame ι) :=
  match readN (readN readF64 col_count) row_count s with
  | .error e => .error e
  | .ok (data, _) =>
      .ok { columns := cols, index := idxs, data := data,
            index_name := iname }

/-- The index stage of `from_binary` (src/dataframe.h:459-463). -/
def fb_index (col_count row_count : ℕ) (cols : List Str) (iname : Str)
    (s : List (BinItem ι)) : Except String (DataFrame ι) :=
  match readN readIval row_count s with
  | .error e => .error e
  | .ok (idxs, s6) => fb_cells col_count row_count cols iname idxs s6

/-- The column-name stage of `from_binary` (src/dataframe.h:453-457). -/
def fb_names (col_count row_count : ℕ) (iname : Str)
    (s : List (BinItem ι)) : Except String (DataFrame ι) :=
  match readN readStr col_count s with
  | .error e => .error e
  | .ok (cols, s5) => fb_index col_count row_count cols iname s5

/-- The redundant-column-count check of `from_binary`
(src/dataframe.h:448-451). -/
def fb_check (col_count row_count : ℕ) (iname : Str) (column_names : ℕ)
    (s : List (BinItem ι)) : Except String (DataFrame ι) :=
  if column_names ≠ col_count then
    .error "dataframe::from_binary: column metadata mismatch"
  else fb_names col_count row_count iname s

/-- Read the redundant column count (src/dataframe.h:447). -/
def fb_count (col_count row_count : ℕ) (iname : Str)
    (s : List (BinItem ι)) : Except String (DataFrame ι) :=
  match readU64 s with
  | .error e => .error e
  | .ok (column_names, s4) =>
      fb_check col_count row_count iname column_names s4

/-- Read the index label (src/dataframe.h:445). -/
def fb_label (col_count row_count : ℕ) (s : List (BinItem ι)) :
    Except String (DataFrame ι) :=
  match readStr s with
  | .error e => .error e
  | .ok (iname, s3) => fb_count col_count row_count iname s3

/-- Read the column count (src/dataframe.h:441-443). -/
def fb_cols (row_count : ℕ) (s : List (BinItem ι)) :
    Except String (DataFrame ι) :=
  match readU64 s with
  | .error e => .error e
  | .ok (col_count, s2) => fb_label col_count row_count s2

/-- `DataFrame::from_binary` (src/dataframe.h:432-475): validate the magic
tag, read the dimensions, the index label, the redundant column count
(which must match), the column names, the index values and the cells.  The
`size_t` overflow guard of the source is vacuous for 64-bit `size_t` and is
omitted; trailing stream content is ignored, as in the source. -/
def from_binary : List (BinItem ι) → Except String (DataFrame ι)
  | .tag :: s0 =>
    (match readU64 s0 with
     | .error e => .error e
     | .ok (row_count, s1) => fb_cols row_count s1)
  | _ => .error "dataframe::from_binary: invalid file header"

/-- `DataFrame::remove_rows_with_nan` (src/dataframe.h:1766-1782): keeps
exactly the rows without NaN, with their index values; modelled by filtering
the parallel index/data pairs (the in-bounds position selection of the
source). -/
def DataFrame.remove_rows_with_nan (df : DataFrame ι) : DataFrame ι :=
  let kept := (df.index.zip df.data).filter (fun p => !rowHasNaN p.2)
  { df with index := kept.map Prod.fst, data := kept.map Prod.snd }

/-- Column `c` of the cell matrix, as read by the source's
`data_[r][c]` loops. -/
def colCells (df : DataFrame ι) (c : ℕ) : List Val :=
  df.data.map (fun row => row.getD c none)

/-- `DataFrame::select_columns_by_positions` (src/dataframe.h:1869-1889):
bounds-checks every position, then gathers the named columns and the cells
at those positions from every row. -/
def DataFrame.select_columns_by_positions (df : DataFrame ι)
    (positions : List ℕ) : Except String (DataFrame ι) :=
  if positions.all (· < df.cols) then
    .ok { df with
      columns := positions.filterMap (df.columns.get? ·),
      data := df.data.map (fun row => positions.map (fun p => row.getD p none)) }
  else .error "dataframe::select_columns: position out of bounds"

/-- `DataFrame::select_rows_by_positions` (src/dataframe.h:1851-1867):
bounds-checks every position against the row count, then gathers index
values and rows. -/
def DataFrame.select_rows_by_positions (df : DataFrame ι)
    (positions : List ℕ) : Except String (DataFrame ι) :=
  if positions.all (· < df.rows) then
    .ok { df with
      index := positions.filterMap (df.index.get? ·),
      data := positions.filterMap (df.data.get? ·) }
  else .error "dataframe::select_rows: position out of bounds"

/-- `DataFrame::remove_columns_with_nan` (src/dataframe.h:1784-1800). -/
def DataFrame.remove_columns_with_nan (df : DataFrame ι) :
    Except String (DataFrame ι) :=
  df.select_columns_by_positions
    ((List.range df.cols).filter (fun c => !(colCells df c).any (·.isNone)))

/-- `DataFrame::find_column_index` (src/dataframe.h:1911-1919): position of
the first column with the given name. -/
def DataFrame.find_column_index (df : DataFrame ι) (name : Str) :
    Except String ℕ :=
  match df.columns.findIdx? (· = name) with
  | some i => .ok i
  | none => .error "dataframe::select_columns: column not found"

/-- `DataFrame::find_row_position` (src/dataframe.h:1921-1929): position of
the first index entry equal to the given value (linear scan, first match
wins). -/
def DataFrame.find_row_position [DecidableEq ι] (df : DataFrame ι) (v : ι) :
    Except String ℕ :=
  match df.index.findIdx? (· = v) with
  | some i => .ok i
  | none => .error "dataframe::select_rows: index not found"

/-- `DataFrame::select_rows` (src/dataframe.h:1287-1299): every requested
index value must exist. -/
def DataFrame.select_rows [DecidableEq ι] (df : DataFrame ι)
    (values : List ι) : Except String (DataFrame ι) :=
  match mapE (fun v =>
    match df.index.findIdx? (· = v) with
    | some p => .ok p
    | none => .error "dataframe::select_rows: requested index not found") values with
  | .error e => .error e
  | .ok positions => df.select_rows_by_positions positions

/-- `DataFrame::select_columns` (src/dataframe.h:1301-1309). -/
def DataFrame.select_columns (df : DataFrame ι) (names : List Str) :
    Except String (DataFrame ι) :=
  match mapE (fun n => df.find_column_index n) names with
  | .error e => .error e
  | .ok positions => df.select_columns_by_positions positions

/-- `DataFrame::head_rows` (src/dataframe.h:1344-1356): count 0 empties the
rows, count ≥ rows returns the table unchanged, else the first `count`
rows (the source gathers positions `0..count-1`). -/
def DataFrame.head_rows (df : DataFrame ι) (count : ℕ) : DataFrame ι :=
  if count = 0 then { df with index := [], data := [] }
  else if df.rows ≤ count then df
  else { df with index := df.index.take count, data := df.data.take count }

/-- `DataFrame::tail_rows` (src/dataframe.h:1358-1371): the last `count`
rows (positions `rows-count..rows-1`). -/
def DataFrame.tail_rows (df : DataFrame ι) (count : ℕ) : DataFrame ι :=
  if count = 0 then { df with index := [], data := [] }
  else if df.rows ≤ count then df
  else { df with index := df.index.drop (df.rows - count),
                 data := df.data.drop (df.rows - count) }

/-- `DataFrame::head_columns` (src/dataframe.h:1373-1385). -/
def DataFrame.head_columns (df : DataFrame ι) (count : ℕ) : DataFrame ι :=
  if count = 0 then { df with columns := [], data := df.data.map (fun _ => []) }
  else if df.cols ≤ count then df
  else { df with columns := df.columns.take count,
                 data := df.data.map (·.take count) }

/-- `DataFrame::tail_columns` (src/dataframe.h:1387-1400). -/
def DataFrame.tail_columns (df : DataFrame ι) (count : ℕ) : DataFrame ι :=
  if count = 0 then { df with columns := [], data := df.data.map (fun _ => []) }
  else if df.cols ≤ count then df
  else { df with columns := df.columns.drop (df.cols - count),
                 data := df.data.map (·.drop (df.cols - count)) }

/-- `DataFrame::slice_rows_range` (src/dataframe.h:1335-1342 and
1891-1909): start/end are normalized if reversed, then all rows whose index
lies in the range are kept in original order. -/
def DataFrame.slice_rows_range [LinearOrder ι] (df : DataFrame ι)
    (start end_ : ι) (inclusive_end : Bool) : DataFrame ι :=
  let lo := min start end_
  let hi := max start end_
  let kept := (df.index.zip df.data).filter (fun p =>
    decide (lo ≤ p.1) &&
      (if inclusive_end then decide (p.1 ≤ hi) else decide (p.1 < hi)))
  { df with index := kept.map Prod.fst, data := kept.map Prod.snd }

/-- The comparator of `sort_rows_by_column` / `sort_columns_by_row`
(src/dataframe.h:1469-1483 and 1510-1524), on the keys of two positions;
if both keys are NaN it compares the original positions. -/
def sort_comp (keys : ℕ → Val) (ascending : Bool) (l r : ℕ) : Bool :=
  match keys l, keys r with
  | none, none => decide (l < r)
  | none, some _ => !ascending
  | some _, none => ascending
  | some x, some y => if ascending then decide (x < y) else decide (y < x)

/-- The total order that `std::stable_sort` realizes for the comparator
above: the strict comparator first, the original position as tie-break.
The comparator is a strict weak order, so the stable-sort result is the
unique permutation sorted by this total order. -/
def sort_le (keys : ℕ → Val) (ascending : Bool) (l r : ℕ) : Prop :=
  sort_comp keys ascending l r = true ∨
    (sort_comp keys ascending r l = false ∧ l ≤ r)

instance (keys : ℕ → Val) (asc : Bool) : DecidableRel (sort_le keys asc) :=
  fun _ _ => by unfold sort_le; infer_instance

/-- The permutation of positions `0..n-1` produced by the stable sort. -/
def sort_positions (keys : ℕ → Val) (ascending : Bool) (n : ℕ) : List ℕ :=
  (List.range n).insertionSort (sort_le keys ascending)

/-- Gather the entries of `l` at the given (in-bounds) positions. -/
def gather (l : List α) (positions : List ℕ) : List α :=
  positions.filterMap (l.get? ·)

/-- The sort keys of `sort_rows_by_column`: cell `ci` of each row. -/
def rowKeys (df : DataFrame ι) (ci : ℕ) : ℕ → Val :=
  fun r => (df.data.getD r []).getD ci none

/-- The sort keys of `sort_columns_by_row`: the cells of row `rp`. -/
def colKeys (df : DataFrame ι) (rp : ℕ) : ℕ → Val :=
  fun c => (df.data.getD rp []).getD c none

/-- The stability and NaN-placement contract of a sorted position list: for
any two positions in output order, ascending keeps NaN keys after all
non-NaN keys, descending before them, non-NaN keys appear in key order, and
two positions with equal keys (including two NaNs) keep their original
relative order. -/
def stablePairwise (keys : ℕ → Val) (asc : Bool) (order : List ℕ) : Prop :=
  List.Pairwise (fun p q =>
    (asc = true → keys p = none → keys q = none) ∧
    (asc = false → keys q = none → keys p = none) ∧
    (∀ x y, asc = true → keys p = some x → keys q = some y → x ≤ y) ∧
    (∀ x y, asc = false → keys p = some x → keys q = some y → y ≤ x) ∧
    (keys p = keys q → p < q)) order

/-- `DataFrame::sort_rows_by_column` (src/dataframe.h:1460-1496). -/
def DataFrame.sort_rows_by_column (df : DataFrame ι) (column_name : Str)
    (ascending : Bool) : Except String (DataFrame ι) :=
  if df.cols = 0 then
    .error "dataframe::sort_rows_by_column: no columns to sort by"
  else
    match df.find_column_index column_name with
    | .error e => .error e
    | .ok ci =>
      let keys := fun r => (df.data.getD r []).getD ci none
      let order := sort_positions keys ascending df.rows
      .ok { df with index := gather df.index order, data := gather df.data order }

/-- `DataFrame::sort_columns_by_row` (src/dataframe.h:1498-1541). -/
def DataFrame.sort_columns_by_row [DecidableEq ι] (df : DataFrame ι)
    (index_value : ι) (ascending : Bool) : Except String (DataFrame ι) :=
  if df.cols = 0 then
    .error "dataframe::sort_columns_by_row: no columns to sort"
  else if df.rows = 0 then
    .error "dataframe::sort_columns_by_row: no rows available"
  else
    match df.find_row_position index_value with
    | .error e => .error e
    | .ok rp =>
      let keys := fun c => (df.data.getD rp []).getD c none
      let order := sort_positions keys ascending df.cols
      .ok { df with
        columns := gather df.columns order,
        data := df.data.map (fun row => order.map (fun c => row.getD c none)) }

/-- One column of `rolling_mean` (src/dataframe.h:1543-1587): the running
sum and count of non-missing values over the sliding window, updated
incrementally at each row, emitting an output once the window is full.  The
source interleaves all columns in a single pass over the rows with
per-column state arrays; the columns do not interact, so the per-column
iteration performs the same updates in the same order.  `rmUpdate` performs
the two conditional state updates of rows `r` and `r - w`. -/
def rmUpdate (w : ℕ) (xs : List Val) (r : ℕ) (sum : ℚ) (cnt : ℤ) : ℚ × ℤ :=
  match xs.getD r none, (if w ≤ r then xs.getD (r - w) none else none) with
  | some q, some p => (sum + q - p, cnt)
  | some q, none => (sum + q, cnt + 1)
  | none, some p => (sum - p, cnt - 1)
  | none, none => (sum, cnt)

/-- One row step of the `rolling_mean` loop: after adding the new cell and
retiring the cell that left the window (`rmUpdate` above), a full window
emits `sum / w` and a deficient one emits NaN. -/
def rmIter (w : ℕ) (xs : List Val) (r : ℕ) (sum : ℚ) (cnt : ℤ) : List Val :=
  if _h : r < xs.length then
    let s := rmUpdate w xs r sum cnt
    (if w ≤ r + 1 then
      [if s.2 = (w : ℤ) then some (s.1 / (w : ℚ)) else none]
     else []) ++ rmIter w xs (r + 1) s.1 s.2
  else []
termination_by xs.length - r
decreasing_by simp_wf; omega

/-- `DataFrame::rolling_mean` (src/dataframe.h:1543-1587). -/
def DataFrame.rolling_mean (df : DataFrame ι) (window : ℕ) :
    Except String (DataFrame ι) :=
  if window = 0 then .error "dataframe::rolling_mean: window must be positive"
  else if df.rows < window then
    .error "dataframe::rolling_mean: window exceeds row count"
  else .ok { df with
    index := df.index.drop (window - 1),
    data := (List.range (df.rows - window + 1)).map (fun k =>
      (List.range df.cols).map (fun c =>
        (rmIter window (colCells df c) 0 0 0).getD k none)) }

/-- One column of `rolling_std` (src/dataframe.h:1589-1646): running sum,
sum of squares and count, with the sample (n−1) divisor and the 1e-12
negative-residue clamp before the square root. -/
def rsIter (sqrtQ : ℚ → ℚ) (w : ℕ) (xs : List Val) (r : ℕ)
    (sum sum_sq : ℚ) (cnt : ℤ) : List Val :=
  if _h : r < xs.length then
    let v := xs.getD r none
    let sum1 := match v with | some q => sum + q | none => sum
    let sq1 := match v with | some q => sum_sq + q * q | none => sum_sq
    let cnt1 := match v with | some _ => cnt + 1 | none => cnt
    let old := if w ≤ r then xs.getD (r - w) none else none
    let sum2 := match old with | some q => sum1 - q | none => sum1
    let sq2 := match old with | some q => sq1 - q * q | none => sq1
    let cnt2 := match old with | some _ => cnt1 - 1 | none => cnt1
    (if w ≤ r + 1 then
      [if cnt2 = (w : ℤ) then
        (if w = 1 then some 0 else
          let mean := sum2 / (w : ℚ)
          let numerator := sq2 - sum2 * mean
          let variance0 := numerator / ((w : ℚ) - 1)
          let variance :=
            if variance0 < 0 ∧ -(1 / 1000000000000 : ℚ) < variance0 then 0
            else variance0
          some (if 0 < variance then sqrtQ variance else 0))
       else none]
     else []) ++ rsIter sqrtQ w xs (r + 1) sum2 sq2 cnt2
  else []
termination_by xs.length - r
decreasing_by simp_wf; omega

/-- `DataFrame::rolling_std` (src/dataframe.h:1589-1646). -/
def DataFrame.rolling_std (sqrtQ : ℚ → ℚ) (df : DataFrame ι) (window : ℕ) :
    Except String (DataFrame ι) :=
  if window = 0 then .error "dataframe::rolling_std: window must be positive"
  else if df.rows < window then
    .error "dataframe::rolling_std: window exceeds row count"
  else .ok { df with
    index := df.index.drop (window - 1),
    data := (List.range (df.rows - window + 1)).map (fun k =>
      (List.range df.cols).map (fun c =>
        (rsIter sqrtQ window (colCells df c) 0 0 0 0).getD k none)) }

/-- One column of `rolling_rms` (src/dataframe.h:1648-1691): running sum of
squares and count; a full window emits `sqrt(sum_sq / w)`. -/
def rrIter (sqrtQ : ℚ → ℚ) (w : ℕ) (xs : List Val) (r : ℕ)
    (sum_sq : ℚ) (cnt : ℤ) : List Val :=
  if _h : r < xs.length then
    let v := xs.getD r none
    let sq1 := match v with | some q => sum_sq + q * q | none => sum_sq
    let cnt1 := match v with | some _ => cnt + 1 | none => cnt
    let old := if w ≤ r then xs.getD (r - w) none else none
    let sq2 := match old with | some q => sq1 - q * q | none => sq1
    let cnt2 := match old with | some _ => cnt1 - 1 | none => cnt1
    (if w ≤ r + 1 then
      [if cnt2 = (w : ℤ) then some (sqrtQ (sq2 / (w : ℚ))) else none]
     else []) ++ rrIter sqrtQ w xs (r + 1) sq2 cnt2
  else []
termination_by xs.length - r
decreasing_by simp_wf; omega

/-- `DataFrame::rolling_rms` (src/dataframe.h:1648-1691). -/
def DataFrame.rolling_rms (sqrtQ : ℚ → ℚ) (df : DataFrame ι) (window : ℕ) :
    Except String (DataFrame ι) :=
  if window = 0 then .error "dataframe::rolling_rms: window must be positive"
  else if df.rows < window then
    .error "dataframe::rolling_rms: window exceeds row count"
  else .ok { df with
    index := df.index.drop (window - 1),
    data := (List.range (df.rows - window + 1)).map (fun k =>
      (List.range df.cols).map (fun c =>
        (rrIter sqrtQ window (colCells df c) 0 0 0).getD k none)) }

/-- One column of `exponential_moving_average` (src/dataframe.h:1693-1726):
seeds on the first non-missing value, a missing value emits NaN and leaves
the running EMA unchanged. -/
def emaIter (alpha : ℚ) : List Val → Option ℚ → List Val
  | [], _ => []
  | v :: rest, st =>
    match v with
    | none => none :: emaIter alpha rest st
    | some q =>
        let e := match st with
          | none => q
          | some prev => alpha * q + (1 - alpha) * prev
        some e :: emaIter alpha rest (some e)

/-- `DataFrame::exponential_moving_average` (src/dataframe.h:1693-1726). -/
def DataFrame.exponential_moving_average (df : DataFrame ι) (alpha : ℚ) :
    Except String (DataFrame ι) :=
  if ¬(0 < alpha ∧ alpha < 1) then
    .error "dataframe::exponential_moving_average: alpha must be in (0,1)"
  else .ok { df with
    data := (List.range df.rows).map (fun r =>
      (List.range df.cols).map (fun c =>
        (emaIter alpha (colCells df c) none).getD r none)) }

/-- `DataFrame::resample_rows` (src/dataframe.h:1728-1764): draws
`sample_size` rows with replacement.  `picks` models the stream of values
drawn from `uniform_int_distribution(0, rows-1)` (reduced mod the row count
to stay in its range); `int_cast` is `some` exactly when `IndexT` is an
integral type, carrying the cast from a position to an index value. -/
def DataFrame.resample_rows [Inhabited ι] (df : DataFrame ι)
    (picks : ℕ → ℕ) (sample_size : ℕ) (reset_index : Bool)
    (int_cast : Option (ℕ → ι)) : Except String (DataFrame ι) :=
  if df.rows = 0 then .error "dataframe::resample_rows: no rows to sample"
  else
    let n := if sample_size = 0 then df.rows else sample_size
    .ok { df with
      index_name :=
        if reset_index ∧ int_cast.isSome then "resample_index".toList
        else df.index_name,
      index := (List.range n).map (fun i =>
        match reset_index, int_cast with
        | true, some cast => cast i
        | _, _ => df.index.getD (picks i % df.rows) default),
      data := (List.range n).map (fun i => df.data.getD (picks i % df.rows) []) }

/-- `DataFrame::from_vectors` (src/dataframe.h:399-430). -/
def DataFrame.from_vectors (indices : List ι) (columns : List Str)
    (data : List (List Val)) : Except String (DataFrame ι) :=
  if columns = [] then .error "dataframe::from_vectors: no columns provided"
  else if indices.length ≠ data.length then
    .error "dataframe::from_vectors: index count must match row count"
  else if columns.any (· = []) then
    .error "dataframe::from_vectors: column name cannot be empty"
  else if data.any (fun row => row.length ≠ columns.length) then
    .error "dataframe::from_vectors: row size does not match column count"
  else .ok { columns := columns, index := indices, data := data,
             index_name := "index".toList }

/-- `DataFrame::random_normal` (src/dataframe.h:596-657): `draws` models the
successive outputs of `normal_distribution(mean, stddev)` applied to the
seeded generator, consumed in program order; `cast`/`capacity` model the
integral index type's cast from a row number and its maximal value. -/
def DataFrame.random_normal (cast : ℕ → ι) (capacity : ℕ) (rows : ℕ)
    (columns : List Str) (stddev : ℚ) (draws : ℕ → ℚ) (sqrtQ : ℚ → ℚ)
    (target_corr : ℚ) : Except String (DataFrame ι) :=
  if columns = [] then
    .error "random_normal: at least one column is required"
  else if stddev ≤ 0 then
    .error "random_normal: standard deviation must be positive"
  else if target_corr < 0 ∨ 1 < target_corr then
    .error "random_normal: target correlation must be in [0, 1]"
  else if capacity < rows then
    .error "random_normal: row count exceeds index capacity"
  else
    let nc := columns.length
    .ok { columns := columns,
          index := (List.range rows).map cast,
          index_name := "index".toList,
          data :=
            if nc ≤ 1 ∨ target_corr = 0 then
              (List.range rows).map (fun r =>
                (List.range nc).map (fun c => some (draws (r * nc + c))))
            else
              let coeff1 := sqrtQ target_corr
              let coeff2 := sqrtQ (1 - target_corr)
              (List.range rows).map (fun r =>
                let common := draws (r * nc)
                (List.range nc).map (fun c =>
                  if c = 0 then some common
                  else some (coeff1 * common + coeff2 * draws (r * nc + c)))) }

/-- `DataFrame::random_uniform` (src/dataframe.h:659-696): `draws` models
the outputs of `uniform_real_distribution(min, max)`. -/
def DataFrame.random_uniform (cast : ℕ → ι) (capacity : ℕ) (rows : ℕ)
    (columns : List Str) (min max : ℚ) (draws : ℕ → ℚ) :
    Except String (DataFrame ι) :=
  if columns = [] then
    .error "random_uniform: at least one column is required"
  else if max ≤ min then
    .error "random_uniform: min must be less than max"
  else if capacity < rows then
    .error "random_uniform: row count exceeds index capacity"
  else
    .ok { columns := columns,
          index := (List.range rows).map cast,
          index_name := "index".toList,
          data := (List.range rows).map (fun r =>
            (List.range columns.length).map (fun c =>
              some (draws (r * columns.length + c)))) }

/-- `DataFrame::add_column` (src/dataframe.h:1311-1333), the sole in-place
mutator, modelled functionally: returns the mutated table or the error. -/
def DataFrame.add_column (df : DataFrame ι) (name : Str) (values : List Val) :
    Except String (DataFrame ι) :=
  if name ∈ df.columns then
    .error "dataframe::add_column: column already exists"
  else if df.rows = 0 then
    if values ≠ [] then
      .error "dataframe::add_column: cannot add data to an empty dataframe"
    else .ok { df with columns := df.columns ++ [name] }
  else if values.length ≠ df.rows then
    .error "dataframe::add_column: value count mismatch"
  else
    .ok { df with columns := df.columns ++ [name],
                  data := df.data.zipWith (fun row v => row ++ [v]) values }

/-- The non-missing values of column `c`, in row order (the per-column NaN
filters of the aggregation methods). -/
def validCol (df : DataFrame ι) (c : ℕ) : List ℚ :=
  (colCells df c).filterMap id

/-- The arithmetic mean as a rational (the `stats::mean` value for a
non-empty list). -/
def meanQ (x : List ℚ) : ℚ := x.sum / (x.length : ℚ)

/-- `stats::mean` (src/stats.cpp:14-21). -/
def statsMean (x : List ℚ) : Val :=
  if x.length = 0 then none else some (meanQ x)

/-- `stats::stdev` (src/stats.cpp:23-36): sample standard deviation with
divisor n−1; NaN when n ≤ 1. -/
def statsStdev (sqrtQ : ℚ → ℚ) (x : List ℚ) : Val :=
  if x.length ≤ 1 then none
  else
    let m := meanQ x
    let v := (x.map (fun a => (a - m) * (a - m))).sum / ((x.length : ℚ) - 1)
    if v < 0 then none else some (sqrtQ v)

/-- `stats::skew` (src/stats.cpp:38-56); `pow15` models `std::pow(·, 1.5)`. -/
def statsSkew (pow15 : ℚ → ℚ) (x : List ℚ) : Val :=
  if x.length ≤ 2 then none
  else
    let m := meanQ x
    let m2 := (x.map (fun a => (a - m) * (a - m))).sum / (x.length : ℚ)
    let m3 := (x.map (fun a => (a - m) * (a - m) * (a - m))).sum / (x.length : ℚ)
    if 0 < m2 then some (m3 / pow15 m2) else none

/-- `stats::excess_kurtosis` (src/stats.cpp:58-76). -/
def statsExKurtosis (x : List ℚ) : Val :=
  if x.length ≤ 3 then none
  else
    let m := meanQ x
    let m2 := (x.map (fun a => (a - m) * (a - m))).sum / (x.length : ℚ)
    let m4 := (x.map (fun a => (a - m) * (a - m) * ((a - m) * (a - m)))).sum /
      (x.length : ℚ)
    if 0 < m2 then some (m4 / (m2 * m2) - 3) else none

/-- The running minimum of `stats::summary_stats` (src/stats.cpp:175-182). -/
def statsMin (x : List ℚ) : Val :=
  match x with
  | [] => none
  | h :: t => some (t.foldl min h)

/-- The running maximum of `stats::summary_stats` (src/stats.cpp:175-183). -/
def statsMax (x : List ℚ) : Val :=
  match x with
  | [] => none
  | h :: t => some (t.foldl max h)

/-- `detail::compute_median` (src/dataframe.h:191-203): the
`nth_element` / `max_element` pair reads the `mid` and `mid−1` order
statistics, i.e. those entries of the sorted values. -/
def compute_median (values : List ℚ) : Val :=
  if values = [] then none
  else
    let sorted := values.insertionSort (· ≤ ·)
    let mid := values.length / 2
    let m := sorted.getD mid 0
    if values.length % 2 = 0 then some ((m + sorted.getD (mid - 1) 0) / 2)
    else some m

/-- `DataFrame::column_stats_dataframe` (src/dataframe.h:762-794): one
column per input column, one labelled row per statistic. -/
def DataFrame.column_stats_dataframe (sqrtQ pow15 : ℚ → ℚ)
    (df : DataFrame ι) : DataFrame Str :=
  let cs := (List.range df.cols).map (fun c => validCol df c)
  { columns := df.columns,
    index := ["n".toList, "median".toList, "mean".toList, "sd".toList,
      "skew".toList, "ex_kurtosis".toList, "min".toList, "max".toList],
    index_name := "statistic".toList,
    data := [cs.map (fun v => some (v.length : ℚ)),
      cs.map compute_median,
      cs.map statsMean,
      cs.map (statsStdev sqrtQ),
      cs.map (statsSkew pow15),
      cs.map statsExKurtosis,
      cs.map statsMin,
      cs.map statsMax] }

/-- The fully non-missing rows, as gathered through the `valid_rows`
position scan of `correlation_matrix` / `covariance_matrix`
(src/dataframe.h:804-816 and 1047-1059). -/
def validData (df : DataFrame ι) : List (List Val) :=
  df.data.filter (fun row => !rowHasNaN row)

/-- Read cell `c` of a row as a rational (`data_[r][c]`; on the rows these
aggregations touch the cell is present and non-missing). -/
def cellQ (row : List Val) (c : ℕ) : ℚ := ((row.getD c none).getD 0)

/-- Per-column mean over a set of rows (src/dataframe.h:826-832). -/
def colMeanOn (rows : List (List Val)) (c : ℕ) : ℚ :=
  (rows.map (fun row => cellQ row c)).sum / (rows.length : ℚ)

/-- The sample variance of a column over a set of rows
(src/dataframe.h:836-841): the accumulated squared deviations from the
column mean divided by one less than the row count. -/
def colVarOn (rows : List (List Val)) (c : ℕ) : ℚ :=
  (rows.map (fun row => (cellQ row c - colMeanOn rows c) *
    (cellQ row c - colMeanOn rows c))).sum / ((rows.length : ℚ) - 1)

/-- Per-column standard deviation over a set of rows
(src/dataframe.h:834-843): zero when the variance is not positive, else the
square root of the sample variance. -/
def colSdOn (sqrtQ : ℚ → ℚ) (rows : List (List Val)) (c : ℕ) : ℚ :=
  if 0 < colVarOn rows c then sqrtQ (colVarOn rows c) else 0

/-- Pairwise sample covariance over a set of rows
(src/dataframe.h:852-856 and 1078-1086). -/
def covOn (rows : List (List Val)) (i j : ℕ) : ℚ :=
  (rows.map (fun row =>
    (cellQ row i - colMeanOn rows i) * (cellQ row j - colMeanOn rows j))).sum /
    ((rows.length : ℚ) - 1)

/-- The cell matrix `correlation_matrix` fills in (src/dataframe.h:846-863):
1 on the diagonal, NaN when either column has a non-positive standard
deviation over the valid rows, the normalized covariance otherwise. -/
def corrData (sqrtQ : ℚ → ℚ) (df : DataFrame ι) : List (List Val) :=
  (List.range df.cols).map (fun i =>
    (List.range df.cols).map (fun j =>
      if i = j then some 1
      else if colSdOn sqrtQ (validData df) i ≤ 0 ∨
          colSdOn sqrtQ (validData df) j ≤ 0 then
        none
      else some (covOn (validData df) i j /
        (colSdOn sqrtQ (validData df) i *
          colSdOn sqrtQ (validData df) j))))

/-- The cell matrix `covariance_matrix` fills in (src/dataframe.h:1074-1086). -/
def covData (df : DataFrame ι) : List (List Val) :=
  (List.range df.cols).map (fun i =>
    (List.range df.cols).map (fun j =>
      some (covOn (validData df) i j)))

/-- `DataFrame::correlation_matrix` (src/dataframe.h:796-866). -/
def DataFrame.correlation_matrix (sqrtQ : ℚ → ℚ) (df : DataFrame ι) :
    Except String (DataFrame Str) :=
  if df.columns = [] then .error "dataframe::correlation_matrix: no columns"
  else if df.rows < 2 then
    .error "dataframe::correlation_matrix: need at least two rows"
  else if (validData df).length < 2 then
    .error "dataframe::correlation_matrix: need at least two non-NaN rows"
  else .ok
    { columns := df.columns, index := df.columns,
      index_name := "column".toList,
      data := corrData sqrtQ df }

/-- `DataFrame::covariance_matrix` (src/dataframe.h:1039-1089). -/
def DataFrame.covariance_matrix (df : DataFrame ι) :
    Except String (DataFrame Str) :=
  if df.columns = [] then .error "dataframe::covariance_matrix: no columns"
  else if df.rows < 2 then
    .error "dataframe::covariance_matrix: need at least two rows"
  else if (validData df).length < 2 then
    .error "dataframe::covariance_matrix: need at least two non-NaN rows"
  else .ok
    { columns := df.columns, index := df.columns,
      index_name := "column".toList,
      data := covData df }

/-- The ordering of `(value, original position)` pairs used by the Spearman
rank transform's `std::sort` (src/dataframe.h:887-890), as a total order. -/
def rankPairLe (a b : ℚ × ℕ) : Prop := a.1 < b.1 ∨ (a.1 = b.1 ∧ a.2 ≤ b.2)

instance : DecidableRel rankPairLe := fun _ _ => by unfold rankPairLe; infer_instance

/-- The tie-averaged 1-based ranks of `spearman_correlation_matrix`
(src/dataframe.h:891-904): each maximal run of equal values receives the
mean of the ranks it occupies; returns `(original position, rank)` pairs.
`start` is the 0-based sorted position of the head of the list. -/
def assignRanks : List (ℚ × ℕ) → ℕ → List (ℕ × ℚ)
  | [], _ => []
  | p :: rest, start =>
    let run := rest.takeWhile (fun x => x.1 = p.1)
    let rest2 := rest.dropWhile (fun x => x.1 = p.1)
    let len := run.length + 1
    let avg : ℚ :=
      ((List.range len).map (fun k => ((start + k + 1 : ℕ) : ℚ))).sum / (len : ℚ)
    (p :: run).map (fun x => (x.2, avg)) ++ assignRanks rest2 (start + len)
termination_by l _ => l.length
decreasing_by
  simp_wf
  have h := (List.dropWhile_sublist (l := rest) (fun x => decide (x.1 = p.1))).length_le
  omega

/-- The rank assignment of column `c`: non-missing `(value, position)` pairs
sorted by value (position as tie-break), then tie-averaged ranks. -/
def spearmanRanks (df : DataFrame ι) (c : ℕ) : List (ℕ × ℚ) :=
  let pairs := (colCells df c).enum.filterMap
    (fun p => p.2.map (fun q => (q, p.1)))
  assignRanks (pairs.insertionSort rankPairLe) 0

/-- `DataFrame::spearman_correlation_matrix` (src/dataframe.h:868-912):
rank-transform each column (NaN stays NaN), then Pearson correlation. -/
def DataFrame.spearman_correlation_matrix (sqrtQ : ℚ → ℚ)
    (df : DataFrame ι) : Except String (DataFrame Str) :=
  if df.columns = [] then
    .error "dataframe::spearman_correlation_matrix: no columns"
  else if df.rows < 2 then
    .error "dataframe::spearman_correlation_matrix: need at least two rows"
  else
    match (List.range df.cols).find? (fun c => (validCol df c).length < 2) with
    | some c =>
        .error ("dataframe::spearman_correlation_matrix: insufficient data in column "
          ++ String.mk (df.columns.getD c []))
    | none =>
        let ranked : DataFrame ι :=
          { df with data := (List.range df.rows).map (fun r =>
              (List.range df.cols).map (fun c =>
                match (df.data.getD r []).getD c none with
                | none => none
                | some _ => some (((spearmanRanks df c).lookup r).getD 0))) }
        ranked.correlation_matrix sqrtQ

/-- The concordant/discordant counts of `kendall_tau_matrix`
(src/dataframe.h:945-960) over all unordered pairs of usable rows, skipping
pairs tied in either dimension. -/
def kendallCounts : List (ℚ × ℚ) → ℤ × ℤ
  | [] => (0, 0)
  | p :: rst =>
    let here := rst.foldl (fun acc q =>
      let di := p.1 - q.1
      let dj := p.2 - q.2
      if di = 0 ∨ dj = 0 then acc
      else if (0 < di ∧ 0 < dj) ∨ (di < 0 ∧ dj < 0) then (acc.1 + 1, acc.2)
      else (acc.1, acc.2 + 1)) ((0 : ℤ), (0 : ℤ))
    let rst' := kendallCounts rst
    (here.1 + rst'.1, here.2 + rst'.2)

/-- The rows where both columns are non-missing (src/dataframe.h:932-940). -/
def kendallPairs (df : DataFrame ι) (i j : ℕ) : List (ℚ × ℚ) :=
  df.data.filterMap (fun row =>
    match row.getD i none, row.getD j none with
    | some a, some b => some (a, b)
    | _, _ => none)

/-- One off-diagonal entry of the Kendall tau matrix
(src/dataframe.h:941-967). -/
def kendallCell (df : DataFrame ι) (i j : ℕ) : Val :=
  let pairs := kendallPairs df i j
  if pairs.length < 2 then none
  else
    let cd := kendallCounts pairs
    if cd.1 + cd.2 = 0 then none
    else some (((cd.1 - cd.2 : ℤ) : ℚ) / ((cd.1 + cd.2 : ℤ) : ℚ))

/-- `DataFrame::kendall_tau_matrix` (src/dataframe.h:914-972): the source
fills each unordered pair once and mirrors it. -/
def DataFrame.kendall_tau_matrix (df : DataFrame ι) :
    Except String (DataFrame Str) :=
  if df.columns = [] then .error "dataframe::kendall_tau_matrix: no columns"
  else if df.rows < 2 then
    .error "dataframe::kendall_tau_matrix: need at least two rows"
  else .ok
    { columns := df.columns, index := df.columns,
      index_name := "column".toList,
      data := (List.range df.cols).map (fun i =>
        (List.range df.cols).map (fun j =>
          if i = j then some 1
          else if i < j then kendallCell df i j else kendallCell df j i)) }

/-- `DataFrame::column_percentiles` (src/dataframe.h:974-1037). -/
def DataFrame.column_percentiles (df : DataFrame ι) (percentiles : List ℚ) :
    Except String (DataFrame Str) :=
  if df.columns = [] then .error "dataframe::column_percentiles: no columns"
  else if percentiles = [] then
    .error "dataframe::column_percentiles: no percentiles specified"
  else if percentiles.any (fun p => decide (p < 0) || decide (100 < p)) then
    .error "dataframe::column_percentiles: percentiles must be in [0, 100]"
  else .ok
    { columns := df.columns,
      index := percentiles.map formatQ,
      index_name := "percentile".toList,
      data := percentiles.map (fun p =>
        (List.range df.cols).map (fun c =>
          let values := validCol df c
          if values = [] then none
          else
            let sorted := values.insertionSort (· ≤ ·)
            if p ≤ 0 then sorted.head?
            else if 100 ≤ p then sorted.getLast?
            else
              let rank := p / 100 * ((values.length : ℚ) - 1)
              let lower := ⌊rank⌋.toNat
              let upper := ⌈rank⌉.toNat
              let fraction := rank - (lower : ℚ)
              some (sorted.getD lower 0 +
                fraction * (sorted.getD upper 0 - sorted.getD lower 0)))) }

/-- Sum of the non-missing values of a list of cells. -/
def vsum (l : List Val) : ℚ := (l.filterMap id).sum

/-- Count of the non-missing values of a list of cells. -/
def vcnt (l : List Val) : ℕ := (l.filterMap id).length

/-- The `w` cells a rolling window at output position `k` covers. -/
def window (w : ℕ) (xs : List Val) (k : ℕ) : List Val :=
  (xs.drop k).take w

/-- The window-level description of one `rolling_mean` output cell: the mean
of the window when all `w` cells are present, NaN otherwise. -/
def rmCell (w : ℕ) (xs : List Val) (k : ℕ) : Val :=
  if vcnt (window w xs k) = w then some (vsum (window w xs k) / (w : ℚ))
  else none

/-- A 2×2 table with one missing cell, used by closed witnesses. -/
def wt2 : DataFrame ℤ :=
  { columns := [['a'], ['b']], index := [0, 1],
    data := [[some (1/2), none], [some 3, some (-2)]],
    index_name := "idx".toList }

/-- A string that survives the CSV field pipeline unchanged: it carries no
surrounding whitespace (so `detail::trim` keeps it), no separator comma and
no newline. -/
def CsvSafeStr (s : Str) : Prop :=
  trimC s = s ∧ ',' ∉ s ∧ '\n' ∉ s

instance (s : Str) : Decidable (CsvSafeStr s) :=
  show Decidable (trimC s = s ∧ ',' ∉ s ∧ '\n' ∉ s) from inferInstance

/-- A cell value that survives the CSV pipeline: NaN cells always do (they
are written as the empty field), a finite value must format to a non-empty
safe token that `std::stod` parses back to exactly the same value. -/
def CsvCellOk : Val → Prop
  | none => True
  | some q => CsvSafeStr (formatQ q) ∧ formatQ q ≠ [] ∧
      parse_double (formatQ q) = some (some q)

instance : DecidablePred CsvCellOk := fun v =>
  match v with
  | none => isTrue trivial
  | some q =>
    (show Decidable (CsvSafeStr (formatQ q) ∧ formatQ q ≠ [] ∧
      parse_double (formatQ q) = some (some q)) from inferInstance)

/-- A 1×1 table whose cell needs more than six significant digits. -/
def exDF : DataFrame ℤ :=
  { columns := [['a']], index := [0], data := [[some 1048576]],
    index_name := "index".toList }

/-- What the text codec turns `exDF` into: `1048576` is printed as
`1.04858e+06` and parses back as `1048580`. -/
def exDF2 : DataFrame ℤ :=
  { columns := [['a']], index := [0], data := [[some 1048580]],
    index_name := "index".toList }

/-- The table decoded by the `from_csv` witness input. -/
def wcsv : DataFrame ℤ :=
  { columns := [['a']], index := [0, 1],
    data := [[some (3/2)], [none]], index_name := "idx".toList }

/-- A 1×1 table, used by closed witnesses. -/
def wt1 : DataFrame ℤ :=
  { columns := [['a']], index := [5], data := [[some 4]],
    index_name := "idx".toList }

/-! ## Helper lemmas -/

theorem mapE_ok_iff {α β : Type _} {f : α → Except String β} :
    ∀ {l : List α} {ys : List β},
      mapE f l = .ok ys ↔ List.Forall₂ (fun x y => f x = .ok y) l ys := by
  intro l
  induction l with
  | nil => intro ys; cases ys <;> simp [mapE]
  | cons x xs ih =>
    intro ys
    constructor
    · intro h
      cases hfx : f x with
      | error e => rw [mapE, hfx] at h; cases h
      | ok y =>
        rw [mapE, hfx] at h
        cases hxs : mapE f xs with
        | error e => rw [hxs] at h; cases h
        | ok ys' =>
          rw [hxs] at h
          cases h
          exact List.Forall₂.cons hfx (ih.mp hxs)
    · intro h
      cases h with
      | cons hfy htail =>
        rw [mapE, hfy, ih.mpr htail]

theorem mapE_ok_length {α β : Type _} {f : α → Except String β} {l : List α}
    {ys : List β} (h : mapE f l = .ok ys) : ys.length = l.length :=
  (mapE_ok_iff.mp h).length_eq.symm

theorem mapE_ok_of_forall {α β : Type _} {f : α → Except String β}
    {l : List α} (h : ∀ x ∈ l, ∃ y, f x = .ok y) :
    ∃ ys, mapE f l = .ok ys := by
  induction l with
  | nil => exact ⟨[], rfl⟩
  | cons x xs ih =>
    obtain ⟨y, hy⟩ := h x (List.mem_cons_self x xs)
    obtain ⟨ys, hys⟩ := ih (fun z hz => h z (List.mem_cons_of_mem _ hz))
    exact ⟨y :: ys, by rw [mapE, hy, hys]⟩

theorem mapE_ok_or_error {α β : Type _} {f : α → Except String β} {E : String}
    {l : List α} (h : ∀ x ∈ l, (∃ y, f x = .ok y) ∨ f x = .error E) :
    (∃ ys, mapE f l = .ok ys) ∨ mapE f l = .error E := by
  induction l with
  | nil => exact .inl ⟨[], rfl⟩
  | cons x xs ih =>
    rcases h x (List.mem_cons_self x xs) with ⟨y, hy⟩ | hx
    · rcases ih (fun z hz => h z (List.mem_cons_of_mem _ hz)) with ⟨ys, hys⟩ | he
      · exact .inl ⟨y :: ys, by rw [mapE, hy, hys]⟩
      · exact .inr (by rw [mapE, hy, he])
    · exact .inr (by rw [mapE, hx])

theorem mapE_eq_error {α β : Type _} {f : α → Except String β} {E : String}
    {l : List α} (hall : ∀ x ∈ l, (∃ y, f x = .ok y) ∨ f x = .error E)
    (hex : ∃ x ∈ l, f x = .error E) : mapE f l = .error E := by
  induction l with
  | nil => simp at hex
  | cons x xs ih =>
    rcases hall x (List.mem_cons_self x xs) with ⟨y, hy⟩ | hx
    · have hxs : ∃ a ∈ xs, f a = .error E := by
        rcases hex with ⟨a, ha, hfa⟩
        rcases List.mem_cons.mp ha with rfl | hmem
        · rw [hy] at hfa; cases hfa
        · exact ⟨a, hmem, hfa⟩
      rw [mapE, hy, ih (fun z hz => hall z (List.mem_cons_of_mem _ hz)) hxs]
    · rw [mapE, hx]

theorem mem_zip_right {α β : Type _} {b : β} :
    ∀ {as : List α} {bs : List β}, as.length = bs.length → b ∈ bs →
      ∃ a, (a, b) ∈ as.zip bs := by
  intro as bs
  induction bs generalizing as with
  | nil => simp
  | cons y ys ih =>
    intro hlen hmem
    cases as with
    | nil => simp at hlen
    | cons a as' =>
      rcases List.mem_cons.mp hmem with rfl | hmem'
      · exact ⟨a, by simp⟩
      · rcases ih (by simpa using hlen) hmem' with ⟨a', ha'⟩
        exact ⟨a', List.mem_cons_of_mem _ ha'⟩

theorem getD_zipWith_snoc :
    ∀ (as : List (List Val)) (bs : List Val) (r : ℕ), r < as.length →
      r < bs.length →
      (as.zipWith (fun row v => row ++ [v]) bs).getD r [] =
        as.getD r [] ++ [bs.getD r none] := by
  intro as
  induction as with
  | nil => intro bs r h; simp at h
  | cons a as' ih =>
    intro bs r ha hb
    cases bs with
    | nil => simp at hb
    | cons b bs' =>
      cases r with
      | zero => simp
      | succ r' =>
        simp only [List.zipWith_cons_cons, List.getD_cons_succ]
        exact ih bs' r' (by simpa using ha) (by simpa using hb)

theorem getD_drop_one {α : Type _} (l : List α) (j : ℕ) (d : α) :
    (l.drop 1).getD j d = l.getD (j + 1) d := by
  cases l <;> simp

theorem getD_pair_mem_zip {α β : Type _} (dx : α) (dy : β) :
    ∀ (x : List α) (y : List β) (c : ℕ), c < x.length → c < y.length →
      (x.getD c dx, y.getD c dy) ∈ x.zip y := by
  intro x
  induction x with
  | nil => intro y c h; simp at h
  | cons a x' ih =>
    intro y c hx hy
    cases y with
    | nil => simp at hy
    | cons b y' =>
      cases c with
      | zero => simp
      | succ c' =>
        simp only [List.getD_cons_succ, List.zip_cons_cons]
        exact List.mem_cons_of_mem _ (ih y' c' (by simpa using hx)
          (by simpa using hy))

/-! ## Claim theorems -/

/-- C10: `add_column`, the sole in-place mutator: it rejects a duplicate
name; on a table with zero rows it succeeds exactly when the value vector
is empty (appending just the name) and fails otherwise; on a table with
rows it fails unless the value count matches the row count; and on success
the index, index label and existing column names are unchanged while the
column list and each row gain exactly one entry. -/
theorem c10_add_column (ι : Type) (df : DataFrame ι) (name : Str)
    (values : List Val) :
    (name ∈ df.columns →
      df.add_column name values =
        .error "dataframe::add_column: column already exists") ∧
    (name ∉ df.columns → df.rows = 0 → values ≠ [] →
      df.add_column name values =
        .error "dataframe::add_column: cannot add data to an empty dataframe") ∧
    (name ∉ df.columns → df.rows = 0 → values = [] →
      df.add_column name values = .ok { df with columns := df.columns ++ [name] }) ∧
    (name ∉ df.columns → 0 < df.rows → values.length ≠ df.rows →
      df.add_column name values =
        .error "dataframe::add_column: value count mismatch") ∧
    (∀ out, df.add_column name values = .ok out →
      out.index = df.index ∧ out.index_name = df.index_name ∧
      out.columns = df.columns ++ [name] ∧
      out.rows = df.rows ∧
      (0 < df.rows →
        values.length = df.rows ∧
        ∀ r < df.rows,
          out.data.getD r [] = df.data.getD r [] ++ [values.getD r none])) := by
  refine ⟨?_, ?_, ?_, ?_, ?_⟩
  · intro h; simp [DataFrame.add_column, h]
  · intro h h0 hv; simp [DataFrame.add_column, h, h0, hv]
  · intro h h0 hv; simp [DataFrame.add_column, h, h0, hv]
  · intro h h0 hv
    simp [DataFrame.add_column, h, Nat.pos_iff_ne_zero.mp h0, hv]
  · intro out hout
    by_cases h : name ∈ df.columns
    · simp [DataFrame.add_column, h] at hout
    · by_cases h0 : df.rows = 0
      · by_cases hv : values = []
        · have hv' : ¬values ≠ [] := not_not_intro hv
          simp only [DataFrame.add_column, if_neg h, h0, if_pos rfl,
            if_neg hv'] at hout
          cases hout
          refine ⟨rfl, rfl, rfl, rfl, ?_⟩
          intro hpos
          exact absurd h0 (by omega)
        · simp [DataFrame.add_column, h, h0, hv] at hout
      · by_cases hv : values.length = df.rows
        · have hv' : ¬values.length ≠ df.rows := not_not_intro hv
          simp only [DataFrame.add_column, if_neg h, if_neg h0,
            if_neg hv'] at hout
          cases hout
          refine ⟨rfl, rfl, rfl, ?_, ?_⟩
          · show (df.data.zipWith (fun row v => row ++ [v]) values).length = _
            rw [List.length_zipWith]
            simp only [DataFrame.rows] at hv ⊢
            omega
          · intro _
            refine ⟨hv, ?_⟩
            intro r hr
            exact getD_zipWith_snoc df.data values r hr (by
              simp only [DataFrame.rows] at hv hr; omega)
        · simp [DataFrame.add_column, h, h0, hv] at hout

/-- Closed witness for C10. -/
theorem c10_witness :
    (['a'] ∈ wt1.columns ∧
      wt1.add_column ['a'] [] =
        .error "dataframe::add_column: column already exists") ∧
    (['b'] ∉ wt1.columns ∧ 0 < wt1.rows ∧ [some 7, some 8].length ≠ wt1.rows ∧
      wt1.add_column ['b'] [some 7, some 8] =
        .error "dataframe::add_column: value count mismatch") :=
  ⟨⟨by decide, (c10_add_column ℤ wt1 ['a'] []).1 (by decide)⟩,
   ⟨by decide, by decide, by decide,
    (c10_add_column ℤ wt1 ['b'] [some 7, some 8]).2.2.2.1 (by decide) (by decide)
      (by decide)⟩⟩

/-- C5: elementwise binary operations check shape, then column sequence,
then index sequence, failing with the corresponding error (a shape mismatch
wins even if columns also differ); elementwise division fails when any
divisor cell is exactly zero; scalar division by zero fails for every
table, before any cell is processed. -/
theorem c5_binary_checks (ι : Type) [DecidableEq ι] :
    (∀ (df other : DataFrame ι) (f : Val → Val → Except String Val)
        (name : String), (df.rows ≠ other.rows ∨ df.cols ≠ other.cols) →
      df.apply_binary other f name =
        .error ("dataframe::" ++ name ++ ": shape mismatch")) ∧
    (∀ (df other : DataFrame ι) (f : Val → Val → Except String Val)
        (name : String), df.rows = other.rows → df.cols = other.cols →
      df.columns ≠ other.columns →
      df.apply_binary other f name =
        .error ("dataframe::" ++ name ++ ": column mismatch")) ∧
    (∀ (df other : DataFrame ι) (f : Val → Val → Except String Val)
        (name : String), df.rows = other.rows → df.cols = other.cols →
      df.columns = other.columns → df.index ≠ other.index →
      df.apply_binary other f name =
        .error ("dataframe::" ++ name ++ ": index mismatch")) ∧
    (∀ df other : DataFrame ι, WF df → WF other →
      df.rows = other.rows → df.cols = other.cols →
      df.columns = other.columns → df.index = other.index →
      (∃ row ∈ other.data, some 0 ∈ row) →
      df.divide other = .error "dataframe::divide: division by zero element") ∧
    (∀ df : DataFrame ι,
      df.divide_scalar 0 = .error "dataframe::divide: division by zero") := by
  refine ⟨?_, ?_, ?_, ?_, ?_⟩
  · intro df other f name h
    simp [DataFrame.apply_binary, h]
  · intro df other f name h1 h2 hc
    simp [DataFrame.apply_binary, h1, h2, hc]
  · intro df other f name h1 h2 hc hi
    simp [DataFrame.apply_binary, h1, h2, hc, hi]
  · intro df other hw hw' h1 h2 hc hi hz
    have h1' : ¬(df.rows ≠ other.rows ∨ df.cols ≠ other.cols) := by
      simp [h1, h2]
    rw [DataFrame.divide, DataFrame.apply_binary, if_neg h1',
      if_neg (not_not_intro hc), if_neg (not_not_intro hi)]
    have hcell : ∀ ab : Val × Val,
        (∃ y, divCell ab.1 ab.2 = .ok y) ∨
          divCell ab.1 ab.2 = .error "dataframe::divide: division by zero element" := by
      intro ab
      rcases ab with ⟨a, _ | y⟩
      · exact .inl ⟨none, rfl⟩
      · by_cases hy : y = 0
        · exact .inr (by simp [divCell, hy])
        · exact .inl ⟨a.map (· / y), by simp [divCell, hy]⟩
    obtain ⟨row, hrow, hzero⟩ := hz
    obtain ⟨dr, hdr⟩ := mem_zip_right (b := row)
      (by simpa [DataFrame.rows] using h1) hrow
    have hlen : dr.length = row.length := by
      have h3 := hw.2 dr (List.of_mem_zip hdr).1
      have h4 := hw'.2 row (List.of_mem_zip hdr).2
      simp only [DataFrame.cols] at h2
      omega
    obtain ⟨a, ha⟩ := mem_zip_right (b := (some 0 : Val)) hlen hzero
    have hinner : mapE (fun ab => divCell ab.1 ab.2) (dr.zip row) =
        .error "dataframe::divide: division by zero element" :=
      mapE_eq_error (fun ab _ => hcell ab)
        ⟨(a, some 0), ha, by simp [divCell]⟩
    rw [mapE_eq_error
      (f := fun rc => mapE (fun ab => divCell ab.1 ab.2) (rc.1.zip rc.2))
      (fun rc _ => mapE_ok_or_error (fun ab _ => hcell ab))
      ⟨(dr, row), hdr, hinner⟩]
  · intro df
    simp [DataFrame.divide_scalar]

/-- Closed witness for C5. -/
theorem c5_witness :
    wt2.add wt1 = .error "dataframe::add: shape mismatch" ∧
    wt2.divide_scalar 0 = .error "dataframe::divide: division by zero" :=
  ⟨(c5_binary_checks ℤ).1 wt2 wt1 _ "add" (by decide),
   (c5_binary_checks ℤ).2.2.2.2 wt2⟩

/-- C9: `log_elements` maps a NaN cell to NaN and fails exactly when some
non-NaN cell is non-positive; `log_changes`, by contrast, treats a missing
value like a non-positive one: on any table with at least two rows in which
some cell is NaN, it throws instead of propagating NaN. -/
theorem c9_log_nan (ι : Type) (logQ : ℚ → ℚ) :
    (∀ (df : DataFrame ι) out, df.log_elements logQ = .ok out →
      List.Forall₂ (List.Forall₂ (fun v w => v = none ↔ w = none))
        df.data out.data) ∧
    (∀ df : DataFrame ι,
      (∃ row ∈ df.data, ∃ q, some q ∈ row ∧ q ≤ 0) →
      df.log_elements logQ =
        .error "dataframe::log_elements: non-positive value encountered") ∧
    (∀ df : DataFrame ι,
      (∀ row ∈ df.data, ∀ q : ℚ, some q ∈ row → 0 < q) →
      ∃ out, df.log_elements logQ = .ok out) ∧
    (∀ df : DataFrame ι, WF df → 2 ≤ df.rows →
      (∃ row ∈ df.data, none ∈ row) →
      df.log_changes logQ =
        .error "dataframe::log_changes: non-positive value encountered") := by
  have hgcases : ∀ v : Val, (∃ y, logCell logQ v = .ok y) ∨
      logCell logQ v =
        .error "dataframe::log_elements: non-positive value encountered" := by
    intro v
    rcases v with _ | q
    · exact .inl ⟨none, rfl⟩
    · by_cases hq : 0 < q
      · exact .inl ⟨some (logQ q), by simp [logCell, hq]⟩
      · exact .inr (by simp [logCell, hq])
  refine ⟨?_, ?_, ?_, ?_⟩
  · intro df out hout
    rw [DataFrame.log_elements, DataFrame.apply_unaryE] at hout
    cases hdata : mapE (fun row => mapE (logCell logQ) row) df.data with
    | error e => rw [hdata] at hout; cases hout
    | ok data =>
      rw [hdata] at hout
      cases hout
      refine (mapE_ok_iff.mp hdata).imp ?_
      intro row orow hrow
      refine (mapE_ok_iff.mp hrow).imp ?_
      intro v w hv
      rcases v with _ | q
      · simp only [logCell] at hv
        cases hv
        simp
      · simp only [logCell] at hv
        by_cases hq : 0 < q
        · rw [if_pos hq] at hv
          cases hv
          simp
        · rw [if_neg hq] at hv; cases hv
  · intro df hbad
    rw [DataFrame.log_elements, DataFrame.apply_unaryE]
    obtain ⟨row, hrow, q, hq, hq0⟩ := hbad
    have hinner : mapE (logCell logQ) row =
        .error "dataframe::log_elements: non-positive value encountered" :=
      mapE_eq_error (fun v _ => hgcases v)
        ⟨some q, hq, by simp [logCell, not_lt.mpr hq0]⟩
    rw [mapE_eq_error (f := fun row => mapE (logCell logQ) row)
      (fun r _ => mapE_ok_or_error (fun v _ => hgcases v))
      ⟨row, hrow, hinner⟩]
  · intro df hpos
    rw [DataFrame.log_elements, DataFrame.apply_unaryE]
    obtain ⟨data, hdata⟩ := mapE_ok_of_forall (l := df.data)
      (f := fun row => mapE (logCell logQ) row) (fun row hrow =>
        mapE_ok_of_forall (fun v hv => by
          rcases v with _ | q
          · exact ⟨none, rfl⟩
          · exact ⟨some (logQ q), by simp [logCell, hpos row hrow q hv]⟩))
    rw [hdata]
    exact ⟨_, rfl⟩
  · intro df hw h2 hnan
    have hhcases : ∀ ab : Val × Val, (∃ y, logChangeCell logQ ab = .ok y) ∨
        logChangeCell logQ ab =
          .error "dataframe::log_changes: non-positive value encountered" := by
      intro ab
      rcases ab with ⟨_ | p, _ | c⟩
      · exact .inr rfl
      · exact .inr rfl
      · exact .inr rfl
      · by_cases hpc : 0 < p ∧ 0 < c
        · exact .inl ⟨some (logQ c - logQ p), by simp [logChangeCell, hpc]⟩
        · exact .inr (by simp [logChangeCell, hpc])
    have hlt : ¬df.data.length < 2 := by
      simp only [DataFrame.rows] at h2; omega
    rw [DataFrame.log_changes, if_neg hlt]
    obtain ⟨row, hrow, hcell⟩ := hnan
    obtain ⟨k, hk, hkrow⟩ := List.mem_iff_getElem.mp hrow
    obtain ⟨c, hc, hccell⟩ := List.mem_iff_getElem.mp hcell
    have hrowD : df.data.getD k [] = row := by
      rw [List.getD_eq_getElem _ _ hk, hkrow]
    have hcD : row.getD c none = none := by
      rw [List.getD_eq_getElem _ _ hc, hccell]
    have key : ∀ j, j < df.data.length - 1 →
        ((df.data.getD j []).getD c none = none ∨
          (df.data.getD (j + 1) []).getD c none = none) →
        c < (df.data.getD j []).length →
        c < (df.data.getD (j + 1) []).length →
        mapE (fun pr => mapE (logChangeCell logQ) (pr.1.zip pr.2))
          (df.data.zip (df.data.drop 1)) =
          .error "dataframe::log_changes: non-positive value encountered" := by
      intro j hj hnone hc1 hc2
      refine mapE_eq_error
        (fun pr _ => mapE_ok_or_error (fun ab _ => hhcases ab))
        ⟨(df.data.getD j [], df.data.getD (j + 1) []), ?_, ?_⟩
      · have := getD_pair_mem_zip ([] : List Val) ([] : List Val)
          df.data (df.data.drop 1) j (by omega)
          (by rw [List.length_drop]; omega)
        rwa [getD_drop_one] at this
      · refine mapE_eq_error (fun ab _ => hhcases ab)
          ⟨((df.data.getD j []).getD c none,
            (df.data.getD (j + 1) []).getD c none), ?_, ?_⟩
        · exact getD_pair_mem_zip none none _ _ c hc1 hc2
        · rcases hnone with h1 | h1 <;> rw [h1]
          · rcases (df.data.getD (j + 1) []).getD c none with _ | c2 <;> rfl
          · rcases (df.data.getD j []).getD c none with _ | c1 <;> rfl
    have hlenD : ∀ j, j < df.data.length →
        (df.data.getD j []).length = df.columns.length := by
      intro j hj
      apply hw.2
      rw [List.getD_eq_getElem _ _ hj]
      exact df.data.getElem_mem hj
    have hcc : c < df.columns.length := by
      have := hw.2 row hrow
      omega
    by_cases hcase : k < df.data.length - 1
    · rw [key k hcase (.inl (by rw [hrowD, hcD]))
        (by rw [hlenD k hk]; omega) (by rw [hlenD (k + 1) (by omega)]; omega)]
    · have hk1 : k - 1 < df.data.length - 1 := by omega
      have hkk : k - 1 + 1 = k := by
        simp only [DataFrame.rows] at h2
        omega
      rw [key (k - 1) hk1 (.inr (by rw [hkk, hrowD, hcD]))
        (by rw [hlenD (k - 1) (by omega)]; omega)
        (by rw [hkk, hlenD k hk]; omega)]

attribute [local semireducible] Rat.add Rat.mul Rat.sub Rat.inv in
/-- Closed witness for C9. -/
theorem c9_witness :
    (∃ row ∈ wt2.data, ∃ q, some q ∈ row ∧ q ≤ 0) ∧
    (WF wt2 ∧ 2 ≤ wt2.rows ∧ (∃ row ∈ wt2.data, none ∈ row)) ∧
    wt2.log_elements id =
      .error "dataframe::log_elements: non-positive value encountered" ∧
    wt2.log_changes id =
      .error "dataframe::log_changes: non-positive value encountered" :=
  ⟨⟨[some 3, some (-2)], by decide, -2, by decide, by norm_num⟩,
   ⟨by decide, by decide, ⟨[some (1/2), none], by decide, by decide⟩⟩,
   (c9_log_nan ℤ id).2.1 wt2
     ⟨[some 3, some (-2)], by decide, -2, by decide, by norm_num⟩,
   (c9_log_nan ℤ id).2.2.2 wt2 (by decide) (by decide)
     ⟨[some (1/2), none], by decide, by decide⟩⟩

theorem getD_map_of_lt {α β : Type _} (f : α → β) (l : List α) (i : ℕ)
    (h : i < l.length) (d : β) (d' : α) :
    (l.map f).getD i d = f (l.getD i d') := by
  rw [List.getD_eq_getElem _ _ (by simpa using h), List.getElem_map,
    List.getD_eq_getElem _ _ h]

theorem getD_map_range {β : Type _} (f : ℕ → β) (n i : ℕ) (h : i < n)
    (d : β) : ((List.range n).map f).getD i d = f i := by
  rw [getD_map_of_lt f _ i (by simpa using h) d 0]
  congr 1
  rw [List.getD_eq_getElem _ _ (by simpa using h), List.getElem_range]

theorem sorted_getLast?_ge :
    ∀ {l : List ℚ}, l.Sorted (· ≤ ·) → ∀ {v}, v ∈ l → ∀ {M},
      l.getLast? = some M → v ≤ M := by
  intro l
  induction l with
  | nil => intro _ v hv; simp at hv
  | cons a t ih =>
    intro hs v hv M hM
    cases t with
    | nil =>
      simp at hv hM
      rw [hv, ← hM]
    | cons b t' =>
      rw [List.getLast?_cons_cons] at hM
      have hMmem : M ∈ b :: t' := by
        have hlast := List.getLast?_eq_getLast (b :: t') (by simp)
        rw [hM] at hlast
        have : M = (b :: t').getLast (by simp) := by
          exact Option.some.inj hlast
        rw [this]
        exact List.getLast_mem _
      rcases List.mem_cons.mp hv with rfl | hv'
      · exact List.rel_of_sorted_cons hs M hMmem
      · exact ih hs.of_cons hv' hM

/-- C8: `column_percentiles`: a requested percentile outside [0, 100] is a
hard failure; on success, a column with no non-missing value yields NaN for
every requested percentile, percentile 0 yields the column's minimum
non-missing value, percentile 100 its maximum, and a percentile strictly
between 0 and 100 linearly interpolates between the floor and ceiling
order statistics of the sorted non-missing values at fractional rank
`p/100·(count−1)`. -/
theorem c8_column_percentiles (ι : Type) (df : DataFrame ι) (ps : List ℚ) :
    (df.columns ≠ [] → (∃ p ∈ ps, p < 0 ∨ 100 < p) →
      df.column_percentiles ps =
        .error "dataframe::column_percentiles: percentiles must be in [0, 100]") ∧
    (∀ out, df.column_percentiles ps = .ok out →
      ∀ pi, pi < ps.length → ∀ c, c < df.cols →
        (validCol df c = [] → (out.data.getD pi []).getD c none = none) ∧
        (validCol df c ≠ [] →
          (ps.getD pi 0 ≤ 0 → ∃ m, (out.data.getD pi []).getD c none = some m ∧
            m ∈ validCol df c ∧ ∀ v ∈ validCol df c, m ≤ v) ∧
          (100 ≤ ps.getD pi 0 →
            ∃ m, (out.data.getD pi []).getD c none = some m ∧
              m ∈ validCol df c ∧ ∀ v ∈ validCol df c, v ≤ m) ∧
          (0 < ps.getD pi 0 → ps.getD pi 0 < 100 →
            (out.data.getD pi []).getD c none =
              some (((validCol df c).insertionSort (· ≤ ·)).getD
                  ⌊ps.getD pi 0 / 100 * ((validCol df c).length - 1 : ℚ)⌋.toNat 0 +
                (ps.getD pi 0 / 100 * ((validCol df c).length - 1 : ℚ) -
                  (⌊ps.getD pi 0 / 100 * ((validCol df c).length - 1 : ℚ)⌋.toNat : ℚ)) *
                (((validCol df c).insertionSort (· ≤ ·)).getD
                    ⌈ps.getD pi 0 / 100 * ((validCol df c).length - 1 : ℚ)⌉.toNat 0 -
                  ((validCol df c).insertionSort (· ≤ ·)).getD
                    ⌊ps.getD pi 0 / 100 * ((validCol df c).length - 1 : ℚ)⌋.toNat 0))))) := by
  constructor
  · intro hcols hbad
    have h2 : ps ≠ [] := by
      rintro rfl
      rcases hbad with ⟨p, hp, _⟩
      simp at hp
    have h3 : ps.any (fun p => decide (p < 0) || decide (100 < p)) = true := by
      rcases hbad with ⟨p, hp, hout⟩
      refine List.any_eq_true.mpr ⟨p, hp, ?_⟩
      rcases hout with h | h <;> simp [h]
    rw [DataFrame.column_percentiles, if_neg hcols, if_neg h2, if_pos h3]
  · intro out hout pi hpi c hc
    rw [DataFrame.column_percentiles] at hout
    by_cases h1 : df.columns = []
    · rw [if_pos h1] at hout; cases hout
    rw [if_neg h1] at hout
    by_cases h2 : ps = []
    · rw [if_pos h2] at hout; cases hout
    rw [if_neg h2] at hout
    by_cases h3 : ps.any (fun p => decide (p < 0) || decide (100 < p)) = true
    · rw [if_pos h3] at hout; cases hout
    rw [if_neg h3] at hout
    cases hout
    have hcell : ((ps.map (fun p => (List.range df.cols).map (fun c =>
          let values := validCol df c
          if values = [] then none
          else
            let sorted := values.insertionSort (· ≤ ·)
            if p ≤ 0 then sorted.head?
            else if 100 ≤ p then sorted.getLast?
            else
              let rank := p / 100 * ((values.length : ℚ) - 1)
              let lower := ⌊rank⌋.toNat
              let upper := ⌈rank⌉.toNat
              let fraction := rank - (lower : ℚ)
              some (sorted.getD lower 0 +
                fraction * (sorted.getD upper 0 - sorted.getD lower 0))))).getD
            pi []).getD c none =
        (let values := validCol df c
          if values = [] then none
          else
            let sorted := values.insertionSort (· ≤ ·)
            if ps.getD pi 0 ≤ 0 then sorted.head?
            else if 100 ≤ ps.getD pi 0 then sorted.getLast?
            else
              let rank := ps.getD pi 0 / 100 * ((values.length : ℚ) - 1)
              let lower := ⌊rank⌋.toNat
              let upper := ⌈rank⌉.toNat
              let fraction := rank - (lower : ℚ)
              some (sorted.getD lower 0 +
                fraction * (sorted.getD upper 0 - sorted.getD lower 0))) := by
      rw [getD_map_of_lt _ ps pi hpi [] 0]
      rw [getD_map_range _ df.cols c hc none]
    refine ⟨?_, ?_⟩
    · intro hempty
      rw [hcell]
      simp [hempty]
    · intro hne
      have hslen : ((validCol df c).insertionSort (· ≤ ·)).length =
          (validCol df c).length := List.length_insertionSort _ _
      have hsne : (validCol df c).insertionSort (· ≤ ·) ≠ [] := by
        intro hnil
        rw [hnil] at hslen
        exact hne (List.length_eq_zero.mp hslen.symm)
      have hsorted : ((validCol df c).insertionSort (· ≤ ·)).Sorted (· ≤ ·) :=
        List.sorted_insertionSort _ _
      refine ⟨?_, ?_, ?_⟩
      · intro hp0
        rw [hcell]
        simp only [if_neg hne, if_pos hp0]
        cases hsort : (validCol df c).insertionSort (· ≤ ·) with
        | nil => exact absurd hsort hsne
        | cons m rest =>
          refine ⟨m, by simp, ?_, ?_⟩
          · rw [← List.mem_insertionSort (· ≤ ·), hsort]
            exact List.mem_cons_self m rest
          · intro v hv
            rw [← List.mem_insertionSort (· ≤ ·) (l := validCol df c),
              hsort] at hv
            rcases List.mem_cons.mp hv with rfl | hv'
            · exact le_refl v
            · rw [hsort] at hsorted
              exact List.rel_of_sorted_cons hsorted v hv'
      · intro hp100
        rw [hcell]
        have hnle : ¬ps.getD pi 0 ≤ 0 := by
          intro hle
          linarith
        simp only [if_neg hne, if_neg hnle, if_pos hp100]
        obtain ⟨M, hM⟩ : ∃ M, ((validCol df c).insertionSort (· ≤ ·)).getLast? =
            some M := ⟨_, List.getLast?_eq_getLast _ hsne⟩
        refine ⟨M, hM, ?_, ?_⟩
        · rw [← List.mem_insertionSort (· ≤ ·)]
          have := List.getLast?_eq_getLast ((validCol df c).insertionSort (· ≤ ·)) hsne
          rw [hM] at this
          rw [Option.some.inj this]
          exact List.getLast_mem _
        · intro v hv
          exact sorted_getLast?_ge hsorted
            ((List.mem_insertionSort (· ≤ ·)).mpr hv) hM
      · intro hp0 hp100
        rw [hcell]
        have hn0 : ¬ps.getD pi 0 ≤ 0 := not_le.mpr hp0
        have hn100 : ¬100 ≤ ps.getD pi 0 := not_le.mpr hp100
        simp only [if_neg hne, if_neg hn0, if_neg hn100]

attribute [local semireducible] Rat.add Rat.mul Rat.sub Rat.inv in
/-- Closed witness for C8. -/
theorem c8_witness :
    wt2.columns ≠ [] ∧ ((150 : ℚ) ∈ [(150 : ℚ)] ∧ ((150 : ℚ) < 0 ∨ 100 < (150 : ℚ))) ∧
    wt2.column_percentiles [150] =
      .error "dataframe::column_percentiles: percentiles must be in [0, 100]" :=
  ⟨by decide, ⟨by decide, .inr (by norm_num)⟩,
   (c8_column_percentiles ℤ wt2 [150]).1 (by decide)
     ⟨150, by decide, .inr (by norm_num)⟩⟩

theorem vsum_nil : vsum [] = 0 := rfl

theorem vcnt_nil : vcnt [] = 0 := rfl

theorem vsum_cons_some (q : ℚ) (l : List Val) :
    vsum (some q :: l) = q + vsum l := by
  simp [vsum, List.filterMap_cons]

theorem vsum_cons_none (l : List Val) : vsum (none :: l) = vsum l := by
  simp [vsum, List.filterMap_cons]

theorem vcnt_cons_some (q : ℚ) (l : List Val) :
    vcnt (some q :: l) = vcnt l + 1 := by
  simp [vcnt, List.filterMap_cons]

theorem vcnt_cons_none (l : List Val) : vcnt (none :: l) = vcnt l := by
  simp [vcnt, List.filterMap_cons]

theorem vsum_append_some (l : List Val) (q : ℚ) :
    vsum (l ++ [some q]) = vsum l + q := by
  simp [vsum, List.filterMap_append, List.filterMap_cons]

theorem vsum_append_none (l : List Val) : vsum (l ++ [none]) = vsum l := by
  simp [vsum, List.filterMap_append, List.filterMap_cons]

theorem vcnt_append_some (l : List Val) (q : ℚ) :
    vcnt (l ++ [some q]) = vcnt l + 1 := by
  simp [vcnt, List.filterMap_append, List.filterMap_cons]

theorem vcnt_append_none (l : List Val) : vcnt (l ++ [none]) = vcnt l := by
  simp [vcnt, List.filterMap_append, List.filterMap_cons]

theorem vcnt_le_length (l : List Val) : vcnt l ≤ l.length := by
  simpa [vcnt] using List.length_filterMap_le id l

theorem vcnt_eq_length_iff (l : List Val) :
    vcnt l = l.length ↔ none ∉ l := by
  induction l with
  | nil => simp [vcnt]
  | cons v t ih =>
    rcases v with _ | q
    · have h1 := vcnt_le_length t
      rw [vcnt_cons_none]
      simp only [List.length_cons, List.mem_cons]
      constructor
      · intro h; omega
      · intro h; exact absurd (Or.inl trivial) h
    · rw [vcnt_cons_some]
      simp only [List.length_cons, List.mem_cons]
      constructor
      · intro h hmem
        rcases hmem with h' | h'
        · exact Option.noConfusion h'
        · exact (ih.mp (by omega)) h'
      · intro h
        have hnt : none ∉ t := fun hm => h (Or.inr hm)
        have := ih.mpr hnt
        omega

theorem slice_succ_lt (xs : List Val) (r w : ℕ) (hr : r < xs.length)
    (hw : r < w) :
    (xs.take (r + 1)).drop (r + 1 - w) =
      (xs.take r).drop (r - w) ++ [xs.getD r none] := by
  have h1 : r + 1 - w = 0 := by omega
  have h2 : r - w = 0 := by omega
  rw [h1, h2]
  simp only [List.drop_zero]
  rw [List.take_succ, List.getElem?_eq_getElem hr,
    List.getD_eq_getElem _ _ hr]
  rfl

theorem slice_head_ge (xs : List Val) (r w : ℕ) (hr : r < xs.length)
    (hw : w ≤ r) (hw1 : 1 ≤ w) :
    (xs.take r).drop (r - w) =
      xs.getD (r - w) none :: ((xs.take r).drop (r - w)).tail := by
  have hlt : r - w < (xs.take r).length := by
    rw [List.length_take]
    have : min r xs.length = r := min_eq_left (le_of_lt hr)
    omega
  rw [List.drop_eq_getElem_cons hlt]
  simp only [List.tail_cons]
  congr 1
  rw [List.getElem_take, List.getD_eq_getElem _ _ (by omega)]

theorem slice_succ_ge (xs : List Val) (r w : ℕ) (hr : r < xs.length)
    (hw : w ≤ r) (hw1 : 1 ≤ w) :
    (xs.take (r + 1)).drop (r + 1 - w) =
      ((xs.take r).drop (r - w)).tail ++ [xs.getD r none] := by
  have h1 : r + 1 - w = (r - w) + 1 := by omega
  have h2 : r - w + 1 ≤ (xs.take r).length := by
    rw [List.length_take]
    have : min r xs.length = r := min_eq_left (le_of_lt hr)
    omega
  rw [h1, List.take_succ, List.getElem?_eq_getElem hr,
    List.drop_append_of_le_length h2, ← List.tail_drop,
    List.getD_eq_getElem _ _ hr]
  rfl

theorem slice_eq_window (xs : List Val) (r w : ℕ) (hw : w ≤ r + 1) :
    (xs.take (r + 1)).drop (r + 1 - w) = window w xs (r + 1 - w) := by
  rw [window, List.drop_take]
  congr 1
  omega

theorem filter_range'_ge (w : ℕ) :
    ∀ (m a : ℕ), (List.range' a m).filter (fun x => decide (w ≤ x + 1)) =
      List.range' (max a (w - 1)) (a + m - max a (w - 1)) := by
  intro m
  induction m with
  | zero =>
    intro a
    have : a + 0 - max a (w - 1) = 0 := by omega
    rw [this]
    rfl
  | succ m ih =>
    intro a
    show List.filter _ (a :: List.range' (a + 1) m) = _
    rw [List.filter_cons]
    by_cases hc : w ≤ a + 1
    · rw [if_pos (by simpa using hc), ih]
      have h1 : max (a + 1) (w - 1) = a + 1 := by omega
      have h2 : max a (w - 1) = a := by omega
      rw [h1, h2]
      have h3 : a + (m + 1) - a = m + 1 := by omega
      have h4 : a + 1 + m - (a + 1) = m := by omega
      rw [h3, h4]
      rfl
    · rw [if_neg (by simpa using hc), ih]
      have h1 : max (a + 1) (w - 1) = w - 1 := by omega
      have h2 : max a (w - 1) = w - 1 := by omega
      rw [h1, h2]
      congr 1
      omega

theorem rmUpdate_slice (w : ℕ) (hw : 1 ≤ w) (xs : List Val) (r : ℕ)
    (hr : r < xs.length) :
    rmUpdate w xs r (vsum ((xs.take r).drop (r - w)))
        ((vcnt ((xs.take r).drop (r - w)) : ℤ)) =
      (vsum ((xs.take (r + 1)).drop (r + 1 - w)),
        (vcnt ((xs.take (r + 1)).drop (r + 1 - w)) : ℤ)) := by
  by_cases hwr : w ≤ r
  · have hA := slice_head_ge xs r w hr hwr hw
    have hB := slice_succ_ge xs r w hr hwr hw
    rw [rmUpdate, if_pos hwr]
    rcases hv : xs.getD r none with _ | q <;>
      rcases hold : xs.getD (r - w) none with _ | p
    · have hsA := congrArg vsum hA
      have hcA := congrArg vcnt hA
      have hsB := congrArg vsum hB
      have hcB := congrArg vcnt hB
      rw [hold, vsum_cons_none] at hsA
      rw [hold, vcnt_cons_none] at hcA
      rw [hv, vsum_append_none] at hsB
      rw [hv, vcnt_append_none] at hcB
      rw [hsA, hcA, hsB, hcB]
    · have hsA := congrArg vsum hA
      have hcA := congrArg vcnt hA
      have hsB := congrArg vsum hB
      have hcB := congrArg vcnt hB
      rw [hold, vsum_cons_some] at hsA
      rw [hold, vcnt_cons_some] at hcA
      rw [hv, vsum_append_none] at hsB
      rw [hv, vcnt_append_none] at hcB
      rw [Prod.mk.injEq]
      constructor
      · rw [hsB, hsA]; ring
      · rw [hcB, hcA]; push_cast; ring
    · have hsA := congrArg vsum hA
      have hcA := congrArg vcnt hA
      have hsB := congrArg vsum hB
      have hcB := congrArg vcnt hB
      rw [hold, vsum_cons_none] at hsA
      rw [hold, vcnt_cons_none] at hcA
      rw [hv, vsum_append_some] at hsB
      rw [hv, vcnt_append_some] at hcB
      rw [Prod.mk.injEq]
      constructor
      · rw [hsB, hsA]
      · rw [hcB, hcA]; push_cast; ring
    · have hsA := congrArg vsum hA
      have hcA := congrArg vcnt hA
      have hsB := congrArg vsum hB
      have hcB := congrArg vcnt hB
      rw [hold, vsum_cons_some] at hsA
      rw [hold, vcnt_cons_some] at hcA
      rw [hv, vsum_append_some] at hsB
      rw [hv, vcnt_append_some] at hcB
      rw [Prod.mk.injEq]
      constructor
      · rw [hsB, hsA]; ring
      · rw [hcB, hcA]
  · have hwlt : r < w := by omega
    have hB := slice_succ_lt xs r w hr hwlt
    rw [rmUpdate, if_neg hwr]
    rcases hv : xs.getD r none with _ | q
    · have hsB := congrArg vsum hB
      have hcB := congrArg vcnt hB
      rw [hv, vsum_append_none] at hsB
      rw [hv, vcnt_append_none] at hcB
      rw [hsB, hcB]
    · have hsB := congrArg vsum hB
      have hcB := congrArg vcnt hB
      rw [hv, vsum_append_some] at hsB
      rw [hv, vcnt_append_some] at hcB
      rw [Prod.mk.injEq]
      constructor
      · rw [hsB]
      · rw [hcB]; push_cast; ring

theorem rmIter_spec (w : ℕ) (hw : 1 ≤ w) (xs : List Val) :
    ∀ d r, xs.length - r = d → r ≤ xs.length →
      rmIter w xs r (vsum ((xs.take r).drop (r - w)))
          ((vcnt ((xs.take r).drop (r - w)) : ℤ)) =
        ((List.range' r (xs.length - r)).filter
            (fun x => decide (w ≤ x + 1))).map
          (fun x => rmCell w xs (x + 1 - w)) := by
  intro d
  induction d with
  | zero =>
    intro r hd hr
    have hre : r = xs.length := by omega
    subst hre
    rw [rmIter]
    simp
  | succ d ih =>
    intro r hd hr
    have hrlt : r < xs.length := by omega
    have hnextS : ∀ S C,
        S = vsum ((xs.take (r + 1)).drop (r + 1 - w)) →
        C = (vcnt ((xs.take (r + 1)).drop (r + 1 - w)) : ℤ) →
        (if w ≤ r + 1 then
          [if C = (w : ℤ) then some (S / (w : ℚ)) else none] else []) ++
          rmIter w xs (r + 1) S C =
        ((List.range' r (xs.length - r)).filter
            (fun x => decide (w ≤ x + 1))).map
          (fun x => rmCell w xs (x + 1 - w)) := by
      intro S C hS hC
      subst hS hC
      rw [ih (r + 1) (by omega) (by omega)]
      have hrange : List.range' r (xs.length - r) =
          r :: List.range' (r + 1) (xs.length - (r + 1)) := by
        have he : xs.length - r = (xs.length - (r + 1)) + 1 := by omega
        rw [he]
        rfl
      rw [hrange]
      by_cases hwr1 : w ≤ r + 1
      · rw [List.filter_cons_of_pos (by simpa using hwr1), List.map_cons,
          if_pos hwr1]
        show _ :: _ = _ :: _
        congr 1
        rw [rmCell, ← slice_eq_window xs r w hwr1]
        by_cases hcnt : vcnt ((xs.take (r + 1)).drop (r + 1 - w)) = w
        · rw [if_pos (by exact_mod_cast hcnt), if_pos hcnt]
        · rw [if_neg (by exact_mod_cast hcnt), if_neg hcnt]
      · rw [List.filter_cons_of_neg (by simpa using hwr1), if_neg hwr1]
        rfl
    rw [rmIter, dif_pos hrlt, rmUpdate_slice w hw xs r hrlt]
    exact hnextS _ _ rfl rfl

theorem rmIter_eq_map (w : ℕ) (hw : 1 ≤ w) (xs : List Val)
    (hn : w ≤ xs.length) :
    rmIter w xs 0 0 0 =
      (List.range (xs.length - w + 1)).map (fun k => rmCell w xs k) := by
  have h0 := rmIter_spec w hw xs (xs.length - 0) 0 rfl (by omega)
  simp only [List.take_zero, List.drop_nil, Nat.zero_sub, vsum_nil, vcnt_nil,
    Nat.cast_zero, Nat.sub_zero] at h0
  rw [h0, filter_range'_ge w]
  have h1 : max 0 (w - 1) = w - 1 := by omega
  have h1' : 0 + xs.length - (w - 1) = xs.length - w + 1 := by omega
  rw [h1, h1', List.range'_eq_map_range, List.map_map]
  apply List.map_congr_left
  intro i _
  simp only [Function.comp_apply]
  congr 1
  omega

/-- **C4.** `rolling_mean`: window size 0 and window size greater than the
row count are hard failures; for `1 ≤ w ≤ n` the result has exactly
`n - w + 1` rows (the index loses its first `w - 1` entries), and an output
cell is NaN iff at least one of the `w` input cells its window covers is
NaN, and otherwise holds the mean of those `w` cells. -/
theorem c4_rolling_mean (ι : Type) (df : DataFrame ι) (w : ℕ) :
    (w = 0 → df.rolling_mean w =
      .error "dataframe::rolling_mean: window must be positive") ∧
    (1 ≤ w → df.rows < w → df.rolling_mean w =
      .error "dataframe::rolling_mean: window exceeds row count") ∧
    (1 ≤ w → w ≤ df.rows → ∃ out, df.rolling_mean w = .ok out ∧
      out.rows = df.rows - w + 1 ∧
      out.index = df.index.drop (w - 1) ∧
      ∀ k, k < df.rows - w + 1 → ∀ c, c < df.cols →
        ((out.data.getD k []).getD c none = none ↔
          none ∈ window w (colCells df c) k) ∧
        (none ∉ window w (colCells df c) k →
          (out.data.getD k []).getD c none =
            some (vsum (window w (colCells df c) k) / (w : ℚ)))) := by
  refine ⟨?_, ?_, ?_⟩
  · intro h0
    rw [DataFrame.rolling_mean, if_pos h0]
  · intro _ hlt
    rw [DataFrame.rolling_mean, if_neg (by omega), if_pos hlt]
  · intro hw hn
    have hok : df.rolling_mean w = .ok { df with
        index := df.index.drop (w - 1),
        data := (List.range (df.rows - w + 1)).map (fun k =>
          (List.range df.cols).map (fun c =>
            (rmIter w (colCells df c) 0 0 0).getD k none)) } := by
      rw [DataFrame.rolling_mean, if_neg (by omega), if_neg (by omega)]
    refine ⟨_, hok, ?_, rfl, ?_⟩
    · simp [DataFrame.rows]
    · intro k hk c hc
      have hxs : (colCells df c).length = df.rows := by
        rw [colCells, List.length_map]; rfl
      have hcell : ((((List.range (df.rows - w + 1)).map (fun k =>
            (List.range df.cols).map (fun c =>
              (rmIter w (colCells df c) 0 0 0).getD k none))).getD k
            []).getD c none) = rmCell w (colCells df c) k := by
        rw [getD_map_range _ _ _ hk, getD_map_range _ _ _ hc,
          rmIter_eq_map w hw (colCells df c)
            (show w ≤ (colCells df c).length by omega),
          getD_map_range (fun k => rmCell w (colCells df c) k) _ _
            (show k < (colCells df c).length - w + 1 by omega)]
      have hred : (DataFrame.data { df with
          index := df.index.drop (w - 1),
          data := (List.range (df.rows - w + 1)).map (fun k =>
            (List.range df.cols).map (fun c =>
              (rmIter w (colCells df c) 0 0 0).getD k none)) }) =
        (List.range (df.rows - w + 1)).map (fun k =>
          (List.range df.cols).map (fun c =>
            (rmIter w (colCells df c) 0 0 0).getD k none)) := rfl
      rw [hred, hcell]
      have hwin : (window w (colCells df c) k).length = w := by
        simp only [window, List.length_take, List.length_drop]
        omega
      have hiff := vcnt_eq_length_iff (window w (colCells df c) k)
      rw [hwin] at hiff
      rw [rmCell]
      refine ⟨⟨?_, ?_⟩, ?_⟩
      · intro hnone
        by_contra hmem
        rw [if_pos (hiff.mpr hmem)] at hnone
        exact Option.noConfusion hnone
      · intro hmem
        rw [if_neg (fun h => hiff.mp h hmem)]
      · intro hmem
        rw [if_pos (hiff.mpr hmem)]

attribute [local semireducible] Rat.add Rat.mul Rat.sub Rat.inv in
/-- Closed witness for `c4_rolling_mean`: a rolling mean of window 2 on the
2×2 table with one missing cell. -/
theorem c4_witness :
    1 ≤ 2 ∧ 2 ≤ wt2.rows ∧
    ∃ out, wt2.rolling_mean 2 = .ok out ∧ out.rows = wt2.rows - 2 + 1 ∧
      out.index = wt2.index.drop (2 - 1) ∧
      ∀ k, k < wt2.rows - 2 + 1 → ∀ c, c < wt2.cols →
        ((out.data.getD k []).getD c none = none ↔
          none ∈ window 2 (colCells wt2 c) k) ∧
        (none ∉ window 2 (colCells wt2 c) k →
          (out.data.getD k []).getD c none =
            some (vsum (window 2 (colCells wt2 c) k) / (2 : ℚ))) :=
  ⟨by decide, by decide,
    (c4_rolling_mean ℤ wt2 2).2.2 (by decide) (by decide)⟩

/-- **C3.** `correlation_matrix` and `covariance_matrix` compute over
exactly the fully non-missing rows: the qualifying-row set keeps a row iff
it is a data row without a NaN cell, both matrices agree with the matrices
of the table with NaN rows removed, fewer than two qualifying rows is a
failure, the correlation diagonal is exactly 1, and an off-diagonal
correlation cell is NaN precisely when either column has non-positive
sample variance over the qualifying rows. -/
theorem c3_correlation_rows (ι : Type) (sqrtQ : ℚ → ℚ) (df : DataFrame ι)
    (hsq : ∀ q : ℚ, 0 < q → 0 < sqrtQ q) :
    (∀ row, row ∈ validData df ↔
      row ∈ df.data ∧ rowHasNaN row = false) ∧
    (WF df → 2 ≤ (validData df).length →
      df.correlation_matrix sqrtQ =
        (df.remove_rows_with_nan).correlation_matrix sqrtQ ∧
      df.covariance_matrix = (df.remove_rows_with_nan).covariance_matrix) ∧
    ((validData df).length < 2 →
      (∀ out, df.correlation_matrix sqrtQ ≠ .ok out) ∧
      (∀ out, df.covariance_matrix ≠ .ok out)) ∧
    (∀ out, df.correlation_matrix sqrtQ = .ok out →
      ∀ i, i < df.cols → (out.data.getD i []).getD i none = some 1) ∧
    (∀ out, df.correlation_matrix sqrtQ = .ok out →
      ∀ i j, i < df.cols → j < df.cols → i ≠ j →
        ((out.data.getD i []).getD j none = none ↔
          colVarOn (validData df) i ≤ 0 ∨
          colVarOn (validData df) j ≤ 0)) := by
  have hsd : ∀ c, colSdOn sqrtQ (validData df) c ≤ 0 ↔
      colVarOn (validData df) c ≤ 0 := by
    intro c
    rw [colSdOn]
    by_cases h : 0 < colVarOn (validData df) c
    · rw [if_pos h]
      exact iff_of_false (not_le.mpr (hsq _ h)) (not_le.mpr h)
    · rw [if_neg h]
      exact iff_of_true le_rfl (not_lt.mp h)
  refine ⟨?_, ?_, ?_, ?_, ?_⟩
  · intro row
    simp [validData, List.mem_filter]
  · intro hwf hv
    have F1 : (df.remove_rows_with_nan).data = validData df := by
      show ((df.index.zip df.data).filter
        (fun p => !rowHasNaN p.2)).map Prod.snd = validData df
      rw [show (fun p : ι × List Val => !rowHasNaN p.2) =
        ((fun row => !rowHasNaN row) ∘ Prod.snd) from rfl]
      rw [← List.filter_map, List.map_snd_zip df.index df.data
        (le_of_eq hwf.1.symm), validData]
    have F2 : validData (df.remove_rows_with_nan) = validData df := by
      have h0 : validData (df.remove_rows_with_nan) =
          (validData df).filter (fun row => !rowHasNaN row) := by
        rw [validData, F1]
      rw [h0, validData, List.filter_filter]
      simp
    have h1 : (validData df).length ≤ df.data.length := by
      rw [validData]
      exact List.length_filter_le _ _
    have hvrows : ¬ df.rows < 2 := by
      rw [DataFrame.rows]
      omega
    have hrr : (df.remove_rows_with_nan).rows = (validData df).length := by
      rw [DataFrame.rows, F1]
    constructor
    · rw [DataFrame.correlation_matrix, DataFrame.correlation_matrix]
      by_cases hcols : df.columns = []
      · rw [if_pos hcols,
          if_pos (show (df.remove_rows_with_nan).columns = [] from hcols)]
      · rw [if_neg hcols,
          if_neg (show ¬(df.remove_rows_with_nan).columns = [] from hcols),
          if_neg hvrows,
          if_neg (show ¬(df.remove_rows_with_nan).rows < 2 by
            rw [hrr]; omega),
          if_neg (by omega),
          if_neg (show ¬(validData (df.remove_rows_with_nan)).length < 2 by
            rw [F2]; omega)]
        rw [corrData, corrData, F2]
        rfl
    · rw [DataFrame.covariance_matrix, DataFrame.covariance_matrix]
      by_cases hcols : df.columns = []
      · rw [if_pos hcols,
          if_pos (show (df.remove_rows_with_nan).columns = [] from hcols)]
      · rw [if_neg hcols,
          if_neg (show ¬(df.remove_rows_with_nan).columns = [] from hcols),
          if_neg hvrows,
          if_neg (show ¬(df.remove_rows_with_nan).rows < 2 by
            rw [hrr]; omega),
          if_neg (by omega),
          if_neg (show ¬(validData (df.remove_rows_with_nan)).length < 2 by
            rw [F2]; omega)]
        rw [covData, covData, F2]
        rfl
  · intro hv
    constructor
    · intro out hout
      rw [DataFrame.correlation_matrix] at hout
      by_cases h1 : df.columns = []
      · rw [if_pos h1] at hout; cases hout
      · rw [if_neg h1] at hout
        by_cases h2 : df.rows < 2
        · rw [if_pos h2] at hout; cases hout
        · rw [if_neg h2, if_pos hv] at hout; cases hout
    · intro out hout
      rw [DataFrame.covariance_matrix] at hout
      by_cases h1 : df.columns = []
      · rw [if_pos h1] at hout; cases hout
      · rw [if_neg h1] at hout
        by_cases h2 : df.rows < 2
        · rw [if_pos h2] at hout; cases hout
        · rw [if_neg h2, if_pos hv] at hout; cases hout
  · intro out hout i hi
    rw [DataFrame.correlation_matrix] at hout
    by_cases h1 : df.columns = []
    · rw [if_pos h1] at hout; cases hout
    rw [if_neg h1] at hout
    by_cases h2 : df.rows < 2
    · rw [if_pos h2] at hout; cases hout
    rw [if_neg h2] at hout
    by_cases h3 : (validData df).length < 2
    · rw [if_pos h3] at hout; cases hout
    rw [if_neg h3, Except.ok.injEq] at hout
    subst hout
    show ((corrData sqrtQ df).getD i []).getD i none = some 1
    rw [corrData, getD_map_range _ _ _ hi, getD_map_range _ _ _ hi,
      if_pos rfl]
  · intro out hout i j hi hj hij
    rw [DataFrame.correlation_matrix] at hout
    by_cases h1 : df.columns = []
    · rw [if_pos h1] at hout; cases hout
    rw [if_neg h1] at hout
    by_cases h2 : df.rows < 2
    · rw [if_pos h2] at hout; cases hout
    rw [if_neg h2] at hout
    by_cases h3 : (validData df).length < 2
    · rw [if_pos h3] at hout; cases hout
    rw [if_neg h3, Except.ok.injEq] at hout
    subst hout
    show ((corrData sqrtQ df).getD i []).getD j none = none ↔ _
    rw [corrData, getD_map_range _ _ _ hi, getD_map_range _ _ _ hj,
      if_neg hij]
    by_cases hc : colSdOn sqrtQ (validData df) i ≤ 0 ∨
        colSdOn sqrtQ (validData df) j ≤ 0
    · rw [if_pos hc]
      exact iff_of_true rfl (hc.imp (hsd i).mp (hsd j).mp)
    · rw [if_neg hc]
      refine iff_of_false (fun h => Option.noConfusion h) ?_
      exact fun h => hc (h.imp (hsd i).mpr (hsd j).mpr)

attribute [local semireducible] Rat.add Rat.mul Rat.sub Rat.inv in
/-- Closed witness for `c3_correlation_rows`: on the 2×2 table with one
missing cell only one fully non-missing row remains, so both matrices
fail. -/
theorem c3_witness :
    (validData wt2).length < 2 ∧
    (∀ out, wt2.correlation_matrix (fun q => q) ≠ .ok out) ∧
    (∀ out, wt2.covariance_matrix ≠ .ok out) :=
  ⟨by decide,
    (c3_correlation_rows ℤ (fun q => q) wt2 (fun _ h => h)).2.2.1
      (by decide)⟩

theorem sort_le_NN (keys : ℕ → Val) (asc : Bool) (p q : ℕ)
    (hp : keys p = none) (hq : keys q = none) :
    sort_le keys asc p q ↔ p ≤ q := by
  simp only [sort_le, sort_comp, hp, hq, decide_eq_true_eq,
    decide_eq_false_iff_not]
  omega

theorem sort_le_NS (keys : ℕ → Val) (asc : Bool) (p q : ℕ) (y : ℚ)
    (hp : keys p = none) (hq : keys q = some y) :
    sort_le keys asc p q ↔ asc = false := by
  cases asc <;> simp [sort_le, sort_comp, hp, hq]

theorem sort_le_SN (keys : ℕ → Val) (asc : Bool) (p q : ℕ) (x : ℚ)
    (hp : keys p = some x) (hq : keys q = none) :
    sort_le keys asc p q ↔ asc = true := by
  cases asc <;> simp [sort_le, sort_comp, hp, hq]

theorem sort_le_SS_asc (keys : ℕ → Val) (p q : ℕ) (x y : ℚ)
    (hp : keys p = some x) (hq : keys q = some y) :
    sort_le keys true p q ↔ x < y ∨ (x = y ∧ p ≤ q) := by
  simp only [sort_le, sort_comp, hp, hq, if_pos, decide_eq_true_eq,
    decide_eq_false_iff_not, if_true]
  constructor
  · rintro (h | ⟨h1, h2⟩)
    · exact .inl h
    · rcases lt_or_eq_of_le (not_lt.mp h1) with h | h
      · exact .inl h
      · exact .inr ⟨h, h2⟩
  · rintro (h | ⟨h1, h2⟩)
    · exact .inl h
    · exact .inr ⟨by rw [h1]; exact lt_irrefl y, h2⟩

theorem sort_le_SS_desc (keys : ℕ → Val) (p q : ℕ) (x y : ℚ)
    (hp : keys p = some x) (hq : keys q = some y) :
    sort_le keys false p q ↔ y < x ∨ (x = y ∧ p ≤ q) := by
  simp only [sort_le, sort_comp, hp, hq, decide_eq_true_eq,
    decide_eq_false_iff_not, Bool.false_eq_true, if_false]
  constructor
  · rintro (h | ⟨h1, h2⟩)
    · exact .inl h
    · rcases lt_or_eq_of_le (not_lt.mp h1) with h | h
      · exact .inl h
      · exact .inr ⟨h.symm, h2⟩
  · rintro (h | ⟨h1, h2⟩)
    · exact .inl h
    · exact .inr ⟨by rw [h1]; exact lt_irrefl y, h2⟩

theorem sort_le_total (keys : ℕ → Val) (asc : Bool) :
    ∀ p q, sort_le keys asc p q ∨ sort_le keys asc q p := by
  intro p q
  rcases hp : keys p with _ | x <;> rcases hq : keys q with _ | y
  · rw [sort_le_NN keys asc p q hp hq, sort_le_NN keys asc q p hq hp]
    omega
  · cases asc
    · exact .inl ((sort_le_NS keys false p q y hp hq).mpr rfl)
    · exact .inr ((sort_le_SN keys true q p y hq hp).mpr rfl)
  · cases asc
    · exact .inr ((sort_le_NS keys false q p x hq hp).mpr rfl)
    · exact .inl ((sort_le_SN keys true p q x hp hq).mpr rfl)
  · cases asc
    · rw [sort_le_SS_desc keys p q x y hp hq,
        sort_le_SS_desc keys q p y x hq hp]
      rcases lt_trichotomy x y with h | h | h
      · exact .inr (.inl h)
      · rcases Nat.le_total p q with hl | hl
        · exact .inl (.inr ⟨h, hl⟩)
        · exact .inr (.inr ⟨h.symm, hl⟩)
      · exact .inl (.inl h)
    · rw [sort_le_SS_asc keys p q x y hp hq,
        sort_le_SS_asc keys q p y x hq hp]
      rcases lt_trichotomy x y with h | h | h
      · exact .inl (.inl h)
      · rcases Nat.le_total p q with hl | hl
        · exact .inl (.inr ⟨h, hl⟩)
        · exact .inr (.inr ⟨h.symm, hl⟩)
      · exact .inr (.inl h)

theorem sort_le_trans (keys : ℕ → Val) (asc : Bool) (p q r : ℕ)
    (h1 : sort_le keys asc p q) (h2 : sort_le keys asc q r) :
    sort_le keys asc p r := by
  rcases hp : keys p with _ | x <;> rcases hq : keys q with _ | y <;>
    rcases hr : keys r with _ | z
  · rw [sort_le_NN keys asc p q hp hq] at h1
    rw [sort_le_NN keys asc q r hq hr] at h2
    rw [sort_le_NN keys asc p r hp hr]
    omega
  · rw [sort_le_NS keys asc q r z hq hr] at h2
    rw [sort_le_NS keys asc p r z hp hr]
    exact h2
  · rw [sort_le_NS keys asc p q y hp hq] at h1
    rw [sort_le_SN keys asc q r y hq hr] at h2
    rw [h1] at h2
    exact Bool.noConfusion h2
  · rw [sort_le_NS keys asc p q y hp hq] at h1
    rw [sort_le_NS keys asc p r z hp hr]
    exact h1
  · rw [sort_le_SN keys asc p q x hp hq] at h1
    rw [sort_le_SN keys asc p r x hp hr]
    exact h1
  · rw [sort_le_SN keys asc p q x hp hq] at h1
    rw [sort_le_NS keys asc q r z hq hr] at h2
    rw [h1] at h2
    exact Bool.noConfusion h2
  · rw [sort_le_SN keys asc q r y hq hr] at h2
    rw [sort_le_SN keys asc p r x hp hr]
    exact h2
  · cases asc
    · rw [sort_le_SS_desc keys p q x y hp hq] at h1
      rw [sort_le_SS_desc keys q r y z hq hr] at h2
      rw [sort_le_SS_desc keys p r x z hp hr]
      rcases h1 with h1 | ⟨h1, h1a⟩ <;> rcases h2 with h2 | ⟨h2, h2a⟩
      · exact .inl (lt_trans h2 h1)
      · exact .inl (by rw [← h2]; exact h1)
      · exact .inl (by rw [h1]; exact h2)
      · exact .inr ⟨h1.trans h2, h1a.trans h2a⟩
    · rw [sort_le_SS_asc keys p q x y hp hq] at h1
      rw [sort_le_SS_asc keys q r y z hq hr] at h2
      rw [sort_le_SS_asc keys p r x z hp hr]
      rcases h1 with h1 | ⟨h1, h1a⟩ <;> rcases h2 with h2 | ⟨h2, h2a⟩
      · exact .inl (lt_trans h1 h2)
      · exact .inl (by rw [← h2]; exact h1)
      · exact .inl (by rw [h1]; exact h2)
      · exact .inr ⟨h1.trans h2, h1a.trans h2a⟩

theorem sort_le_resolve (keys : ℕ → Val) (asc : Bool) (p q : ℕ)
    (h : sort_le keys asc p q) (hne : p ≠ q) :
    (asc = true → keys p = none → keys q = none) ∧
    (asc = false → keys q = none → keys p = none) ∧
    (∀ x y, asc = true → keys p = some x → keys q = some y → x ≤ y) ∧
    (∀ x y, asc = false → keys p = some x → keys q = some y → y ≤ x) ∧
    (keys p = keys q → p < q) := by
  rcases hp : keys p with _ | x <;> rcases hq : keys q with _ | y
  · refine ⟨fun _ _ => rfl, fun _ _ => rfl, ?_, ?_, ?_⟩
    · intro x y _ hx _; cases hx
    · intro x y _ hx _; cases hx
    · intro _
      have := (sort_le_NN keys asc p q hp hq).mp h
      omega
  · have ha := (sort_le_NS keys asc p q y hp hq).mp h
    refine ⟨?_, ?_, ?_, ?_, ?_⟩
    · intro ht _; rw [ha] at ht; exact Bool.noConfusion ht
    · intro _ hqn; cases hqn
    · intro x1 y1 _ hx _; cases hx
    · intro x1 y1 _ hx _; cases hx
    · intro hk; cases hk
  · have ha := (sort_le_SN keys asc p q x hp hq).mp h
    refine ⟨?_, ?_, ?_, ?_, ?_⟩
    · intro _ hpn; cases hpn
    · intro hf _; rw [ha] at hf; exact Bool.noConfusion hf
    · intro x1 y1 _ _ hy; cases hy
    · intro x1 y1 _ _ hy; cases hy
    · intro hk; cases hk
  · refine ⟨?_, ?_, ?_, ?_, ?_⟩
    · intro _ hpn; cases hpn
    · intro _ hqn; cases hqn
    · intro x1 y1 ha hx hy
      injection hx with hx; injection hy with hy
      subst hx; subst hy
      rw [ha] at h
      rcases (sort_le_SS_asc keys p q x y hp hq).mp h with h1 | ⟨h1, _⟩
      · exact le_of_lt h1
      · exact le_of_eq h1
    · intro x1 y1 ha hx hy
      injection hx with hx; injection hy with hy
      subst hx; subst hy
      rw [ha] at h
      rcases (sort_le_SS_desc keys p q x y hp hq).mp h with h1 | ⟨h1, _⟩
      · exact le_of_lt h1
      · exact le_of_eq h1.symm
    · intro hk
      injection hk with hk
      subst hk
      cases asc
      · rcases (sort_le_SS_desc keys p q x x hp hq).mp h with h1 | ⟨_, h1⟩
        · exact absurd h1 (lt_irrefl x)
        · omega
      · rcases (sort_le_SS_asc keys p q x x hp hq).mp h with h1 | ⟨_, h1⟩
        · exact absurd h1 (lt_irrefl x)
        · omega

theorem sort_positions_perm (keys : ℕ → Val) (asc : Bool) (n : ℕ) :
    (sort_positions keys asc n).Perm (List.range n) :=
  List.perm_insertionSort _ _

theorem sort_positions_pairwise (keys : ℕ → Val) (asc : Bool) (n : ℕ) :
    List.Pairwise (sort_le keys asc) (sort_positions keys asc n) :=
  @List.sorted_insertionSort ℕ (sort_le keys asc) _
    ⟨sort_le_total keys asc⟩
    ⟨fun a b c h1 h2 => sort_le_trans keys asc a b c h1 h2⟩ (List.range n)

theorem sort_positions_stable (keys : ℕ → Val) (asc : Bool) (n : ℕ) :
    stablePairwise keys asc (sort_positions keys asc n) := by
  have hs := sort_positions_pairwise keys asc n
  have hnd : (sort_positions keys asc n).Nodup :=
    (sort_positions_perm keys asc n).symm.nodup (List.nodup_range n)
  exact (hs.and hnd).imp
    (fun hab => sort_le_resolve keys asc _ _ hab.1 hab.2)

/-- **C7.** `sort_rows_by_column` and `sort_columns_by_row` reorder by the
stable-sort position permutation: on success the output gathers rows
(resp. columns) along a permutation of the original positions that is
pairwise ordered so that ascending places every NaN key after all non-NaN
keys, descending places every NaN key before them, non-NaN keys appear in
key order, and positions with equal keys — including two NaN keys — keep
their original relative order. -/
theorem c7_sort_stability (ι : Type) [DecidableEq ι] (df : DataFrame ι) :
    (∀ (column_name : Str) (asc : Bool) out,
      df.sort_rows_by_column column_name asc = .ok out →
      ∃ ci, df.find_column_index column_name = .ok ci ∧
        out.index =
          gather df.index (sort_positions (rowKeys df ci) asc df.rows) ∧
        out.data =
          gather df.data (sort_positions (rowKeys df ci) asc df.rows) ∧
        (sort_positions (rowKeys df ci) asc df.rows).Perm
          (List.range df.rows) ∧
        stablePairwise (rowKeys df ci) asc
          (sort_positions (rowKeys df ci) asc df.rows)) ∧
    (∀ (index_value : ι) (asc : Bool) out,
      df.sort_columns_by_row index_value asc = .ok out →
      ∃ rp, df.find_row_position index_value = .ok rp ∧
        out.columns =
          gather df.columns (sort_positions (colKeys df rp) asc df.cols) ∧
        out.data = df.data.map (fun row =>
          (sort_positions (colKeys df rp) asc df.cols).map
            (fun c => row.getD c none)) ∧
        (sort_positions (colKeys df rp) asc df.cols).Perm
          (List.range df.cols) ∧
        stablePairwise (colKeys df rp) asc
          (sort_positions (colKeys df rp) asc df.cols)) := by
  constructor
  · intro column_name asc out hout
    rw [DataFrame.sort_rows_by_column] at hout
    by_cases h0 : df.cols = 0
    · rw [if_pos h0] at hout; cases hout
    rw [if_neg h0] at hout
    cases hci : df.find_column_index column_name with
    | error e => rw [hci] at hout; cases hout
    | ok ci =>
      rw [hci] at hout
      have hout2 : (.ok { df with
          index := gather df.index
            (sort_positions (rowKeys df ci) asc df.rows),
          data := gather df.data
            (sort_positions (rowKeys df ci) asc df.rows) } :
          Except String (DataFrame ι)) = .ok out := hout
      rw [Except.ok.injEq] at hout2
      subst hout2
      exact ⟨ci, rfl, rfl, rfl, sort_positions_perm _ _ _,
        sort_positions_stable _ _ _⟩
  · intro index_value asc out hout
    rw [DataFrame.sort_columns_by_row] at hout
    by_cases h0 : df.cols = 0
    · rw [if_pos h0] at hout; cases hout
    rw [if_neg h0] at hout
    by_cases h1 : df.rows = 0
    · rw [if_pos h1] at hout; cases hout
    rw [if_neg h1] at hout
    cases hrp : df.find_row_position index_value with
    | error e => rw [hrp] at hout; cases hout
    | ok rp =>
      rw [hrp] at hout
      have hout2 : (.ok { df with
          columns := gather df.columns
            (sort_positions (colKeys df rp) asc df.cols),
          data := df.data.map (fun row =>
            (sort_positions (colKeys df rp) asc df.cols).map
              (fun c => row.getD c none)) } :
          Except String (DataFrame ι)) = .ok out := hout
      rw [Except.ok.injEq] at hout2
      subst hout2
      exact ⟨rp, rfl, rfl, rfl, sort_positions_perm _ _ _,
        sort_positions_stable _ _ _⟩

attribute [local semireducible] Rat.add Rat.mul Rat.sub Rat.inv in
/-- Closed witness for `c7_sort_stability`: sorting the 2×2 table by column
"a" ascending succeeds and keeps the already-sorted order. -/
theorem c7_witness :
    wt2.sort_rows_by_column ("a".toList) true = .ok wt2 ∧
    ∃ ci, wt2.find_column_index ("a".toList) = .ok ci ∧
      wt2.index =
        gather wt2.index (sort_positions (rowKeys wt2 ci) true wt2.rows) ∧
      wt2.data =
        gather wt2.data (sort_positions (rowKeys wt2 ci) true wt2.rows) ∧
      (sort_positions (rowKeys wt2 ci) true wt2.rows).Perm
        (List.range wt2.rows) ∧
      stablePairwise (rowKeys wt2 ci) true
        (sort_positions (rowKeys wt2 ci) true wt2.rows) :=
  ⟨by decide,
    (c7_sort_stability ℤ wt2).1 ("a".toList) true wt2 (by decide)⟩

theorem from_csv_rows_sound (ι : Type) (cdc : IndexCodec ι) (hi : Bool)
    (auto : Option (ℕ → ι)) (ncols : ℕ) :
    ∀ (lines : List Str) (df0 df : DataFrame ι),
      from_csv_rows cdc hi auto ncols lines df0 = .ok df →
      df.columns = df0.columns ∧
      ∃ newrows, df.data = df0.data ++ newrows ∧
        List.Forall₂ (fun line row =>
          (split_csv line).length = ncols + (if hi then 1 else 0) ∧
          List.Forall₂ (fun f v =>
            (f = [] → v = none) ∧ (f ≠ [] → parse_double f = some v))
            ((split_csv line).drop (if hi then 1 else 0)) row)
          (lines.filter (fun l => !decide (trimC l = []))) newrows := by
  intro lines
  induction lines with
  | nil =>
    intro df0 df hout
    have h0 : (.ok df0 : Except String (DataFrame ι)) = .ok df := hout
    rw [Except.ok.injEq] at h0
    subst h0
    exact ⟨rfl, [], by simp, List.Forall₂.nil⟩
  | cons line rest ih =>
    intro df0 df hout
    rw [from_csv_rows] at hout
    by_cases hb : trimC line = []
    · rw [if_pos hb] at hout
      have hfl : (line :: rest).filter (fun l => !decide (trimC l = [])) =
          rest.filter (fun l => !decide (trimC l = [])) := by
        rw [List.filter_cons_of_neg]
        simp [hb]
      rw [hfl]
      exact ih df0 df hout
    · rw [if_neg hb] at hout
      by_cases hlen : (split_csv line).length = ncols + (if hi then 1 else 0)
      · rw [if_neg (not_not_intro hlen)] at hout
        cases hpi : parse_index_field cdc hi auto (split_csv line)
            df0.index.length with
        | error e => rw [hpi] at hout; cases hout
        | ok idx =>
          rw [hpi] at hout
          cases hmr : mapE parse_cell_field
              ((split_csv line).drop (if hi then 1 else 0)) with
          | error e => rw [hmr] at hout; cases hout
          | ok row =>
            rw [hmr] at hout
            obtain ⟨hcols, newrows, hdata, hfa⟩ := ih _ _ hout
            have hfl : (line :: rest).filter (fun l => !decide (trimC l = [])) =
                line :: rest.filter (fun l => !decide (trimC l = [])) := by
              rw [List.filter_cons_of_pos]
              simp [hb]
            rw [hfl]
            refine ⟨by rw [hcols], row :: newrows, ?_, ?_⟩
            · rw [hdata]
              show df0.data ++ [row] ++ newrows = _
              simp
            · refine List.Forall₂.cons ⟨hlen, ?_⟩ hfa
              refine (mapE_ok_iff.mp hmr).imp ?_
              intro f v hfv
              constructor
              · intro hfe
                rw [parse_cell_field, if_pos hfe] at hfv
                injection hfv with h
                exact h.symm
              · intro hfe
                rw [parse_cell_field, if_neg hfe] at hfv
                cases hpd : parse_double f with
                | none => rw [hpd] at hfv; cases hfv
                | some v2 =>
                  rw [hpd] at hfv
                  injection hfv with h
                  rw [h]
      · rw [if_pos hlen] at hout
        cases hout

/-- **C6.** CSV decoding of the data lines: on a successful load, every
non-blank data line splits into exactly the column count plus one extra
field when an index is read (plus zero otherwise), its cell fields line up
with the decoded row, an empty field decodes to NaN, and a non-empty field
decodes to the double it parses as — so a wrong field count or a non-empty
field that does not parse makes the load fail. -/
theorem c6_csv_fields (ι : Type) (cdc : IndexCodec ι)
    (auto : Option (ℕ → ι)) (hi : Bool) (input : Str) (df : DataFrame ι)
    (hout : from_csv cdc auto input hi = .ok df) :
    List.Forall₂ (fun line row =>
      (split_csv line).length = df.cols + (if hi then 1 else 0) ∧
      List.Forall₂ (fun f v =>
        (f = [] → v = none) ∧ (f ≠ [] → parse_double f = some v))
        ((split_csv line).drop (if hi then 1 else 0)) row)
      (((getlines input).drop 1).filter (fun l => !decide (trimC l = [])))
      df.data := by
  rw [from_csv] at hout
  cases hgl : getlines input with
  | nil => rw [hgl] at hout; cases hout
  | cons header rest =>
    rw [hgl] at hout
    have hout2 : (if split_csv header = [] then
        (.error "dataframe::from_csv: header has no columns" :
          Except String (DataFrame ι))
      else if hi ∧ (split_csv header).length < 2 then
        .error "dataframe::from_csv: need at least one data column when reading indices"
      else if (if hi then (split_csv header).drop 1
          else split_csv header) = [] then
        .error "dataframe::from_csv: no data columns found"
      else from_csv_rows cdc hi auto
        (if hi then (split_csv header).drop 1
          else split_csv header).length rest
        { columns := if hi then (split_csv header).drop 1
            else split_csv header,
          index := [],
          data := [],
          index_name := if hi then (split_csv header).headD []
            else "index".toList }) = .ok df := hout
    by_cases h1 : split_csv header = []
    · rw [if_pos h1] at hout2; cases hout2
    rw [if_neg h1] at hout2
    by_cases h2 : hi ∧ (split_csv header).length < 2
    · rw [if_pos h2] at hout2; cases hout2
    rw [if_neg h2] at hout2
    by_cases h3 : (if hi then (split_csv header).drop 1
        else split_csv header) = []
    · rw [if_pos h3] at hout2; cases hout2
    rw [if_neg h3] at hout2
    obtain ⟨hcols, newrows, hdata, hfa⟩ :=
      from_csv_rows_sound ι cdc hi auto _ rest _ df hout2
    have hdf : df.data = newrows := by
      rw [hdata]
      rfl
    have hcols2 : df.cols = (if hi then (split_csv header).drop 1
        else split_csv header).length := by
      rw [DataFrame.cols, hcols]
    show List.Forall₂ _ ((List.drop 1 (header :: rest)).filter
      (fun l => !decide (trimC l = []))) df.data
    rw [hdf, hcols2]
    exact hfa

attribute [local semireducible] Rat.add Rat.mul Rat.sub Rat.inv in
/-- Closed witness for `c6_csv_fields`: a two-line CSV body with one parsed
value and one empty (NaN) cell. -/
theorem c6_witness :
    from_csv intCodec (some Int.ofNat) ("idx,a\n0,1.5\n1,\n".toList) true =
      .ok wcsv ∧
    List.Forall₂ (fun line row =>
      (split_csv line).length = wcsv.cols + (if true then 1 else 0) ∧
      List.Forall₂ (fun f v =>
        (f = [] → v = none) ∧ (f ≠ [] → parse_double f = some v))
        ((split_csv line).drop (if true then 1 else 0)) row)
      (((getlines ("idx,a\n0,1.5\n1,\n".toList)).drop 1).filter
        (fun l => !decide (trimC l = [])))
      wcsv.data :=
  ⟨by decide,
    c6_csv_fields ℤ intCodec (some Int.ofNat) true
      ("idx,a\n0,1.5\n1,\n".toList) wcsv (by decide)⟩

theorem readN_exact {α : Type _} (reader : List (BinItem ι) →
      Except String (α × List (BinItem ι))) (emb : α → BinItem ι)
    (hread : ∀ (x : α) (rest : List (BinItem ι)),
      reader (emb x :: rest) = .ok (x, rest)) :
    ∀ (l : List α) (rest : List (BinItem ι)),
      readN reader l.length (l.map emb ++ rest) = .ok (l, rest) := by
  intro l
  induction l with
  | nil => intro rest; rfl
  | cons x t ih =>
    intro rest
    simp only [List.length_cons, List.map_cons, List.cons_append, readN,
      hread, ih]
    rfl

theorem readN_rows (ι : Type) (c : ℕ) :
    ∀ (rows : List (List Val)) (rest : List (BinItem ι)),
      (∀ row ∈ rows, row.length = c) →
      readN (readN readF64 c) rows.length
        ((rows.map (fun row => row.map BinItem.f64)).flatten ++ rest) =
      .ok (rows, rest) := by
  intro rows
  induction rows with
  | nil => intro rest _; rfl
  | cons row rs ih =>
    intro rest hall
    rw [List.length_cons, List.map_cons, List.flatten_cons,
      List.append_assoc, readN]
    have hcl := hall row (List.mem_cons_self row rs)
    have hrow := readN_exact readF64 BinItem.f64 (fun x r2 => rfl) row
      ((rs.map (fun r => r.map BinItem.f64)).flatten ++ rest)
    rw [hcl] at hrow
    simp only [hrow, ih rest (fun r hr => hall r (List.mem_cons_of_mem row hr))]
    rfl

theorem to_binary_from_binary (ι : Type) (df : DataFrame ι) (hwf : WF df)
    (hr : df.rows < 2 ^ 64) (hc : df.cols < 2 ^ 64) :
    from_binary df.to_binary = .ok df := by
  obtain ⟨hlen, hrows⟩ := hwf
  have hshape : df.to_binary = BinItem.tag :: BinItem.u64 df.rows ::
      BinItem.u64 df.cols :: BinItem.str df.index_name ::
      BinItem.u64 df.cols ::
      (df.columns.map BinItem.str ++ (df.index.map BinItem.ival ++
        ((df.data.map (fun row => row.map BinItem.f64)).flatten ++ []))) := by
    rw [DataFrame.to_binary, Nat.mod_eq_of_lt hr, Nat.mod_eq_of_lt hc]
    simp [List.append_assoc]
  have hstep : from_binary df.to_binary =
      (if df.cols ≠ df.cols then
        .error "dataframe::from_binary: column metadata mismatch"
      else
        match readN readStr df.cols (df.columns.map BinItem.str ++
            (df.index.map BinItem.ival ++
              ((df.data.map (fun row => row.map BinItem.f64)).flatten ++
                []))) with
        | .error e => .error e
        | .ok (cols, s5) =>
          match readN readIval df.rows s5 with
          | .error e => .error e
          | .ok (idxs, s6) =>
            match readN (readN readF64 df.cols) df.rows s6 with
            | .error e => .error e
            | .ok (data, _) =>
              .ok { columns := cols, index := idxs, data := data,
                    index_name := df.index_name }) := by
    rw [hshape]
    rfl
  have h1 : readN readStr df.cols (df.columns.map BinItem.str ++
      (df.index.map BinItem.ival ++
        ((df.data.map (fun row => row.map BinItem.f64)).flatten ++ []))) =
      .ok (df.columns, df.index.map BinItem.ival ++
        ((df.data.map (fun row => row.map BinItem.f64)).flatten ++ [])) :=
    readN_exact readStr BinItem.str (fun x rest => rfl) df.columns _
  have h2 : readN readIval df.rows (df.index.map BinItem.ival ++
      ((df.data.map (fun row => row.map BinItem.f64)).flatten ++ [])) =
      .ok (df.index,
        (df.data.map (fun row => row.map BinItem.f64)).flatten ++ []) := by
    have h := readN_exact readIval BinItem.ival (fun x rest => rfl) df.index
      ((df.data.map (fun row => row.map BinItem.f64)).flatten ++ [])
    rw [hlen] at h
    exact h
  have h3 : readN (readN readF64 df.cols) df.rows
      ((df.data.map (fun row => row.map BinItem.f64)).flatten ++ []) =
      .ok (df.data, []) :=
    readN_rows ι df.cols df.data [] hrows
  rw [hstep, if_neg (fun h => h rfl)]
  simp only [h1, h2, h3]

theorem mapE_map {α β : Type _} {f : α → Except String β} {g : α → β} :
    ∀ {l : List α}, (∀ x ∈ l, f x = .ok (g x)) → mapE f l = .ok (l.map g) := by
  intro l
  induction l with
  | nil => intro _; rfl
  | cons x t ih =>
    intro h
    rw [List.map_cons, mapE, h x (List.mem_cons_self x t),
      ih (fun y hy => h y (List.mem_cons_of_mem x hy))]

theorem mapE_map_section {α β : Type _} {f : β → Except String α}
    {h : α → β} :
    ∀ {l : List α}, (∀ v ∈ l, f (h v) = .ok v) → mapE f (l.map h) = .ok l := by
  intro l
  induction l with
  | nil => intro _; rfl
  | cons x t ih =>
    intro hall
    rw [List.map_cons, mapE, hall x (List.mem_cons_self x t),
      ih (fun y hy => hall y (List.mem_cons_of_mem x hy))]

theorem mem_dropWhile {α : Type _} (p : α → Bool) (c : α) (hc : p c = false) :
    ∀ l : List α, c ∈ l → c ∈ l.dropWhile p := by
  intro l
  induction l with
  | nil => intro h; cases h
  | cons a t ih =>
    intro h
    rw [List.dropWhile_cons]
    by_cases hp : p a = true
    · rw [if_pos hp]
      rcases List.mem_cons.mp h with h1 | h1
      · subst h1; rw [hc] at hp; cases hp
      · exact ih h1
    · rw [if_neg hp]
      exact h

theorem trimC_ne_nil {c : Char} {s : Str} (hc : isWS c = false)
    (hm : c ∈ s) : trimC s ≠ [] := by
  intro h
  have h1 : c ∈ s.dropWhile isWS := mem_dropWhile isWS c hc s hm
  have h2 : c ∈ (s.dropWhile isWS).reverse := List.mem_reverse.mpr h1
  have h3 : c ∈ (s.dropWhile isWS).reverse.dropWhile isWS :=
    mem_dropWhile isWS c hc _ h2
  have h4 : c ∈ trimC s := by
    rw [trimC]
    exact List.mem_reverse.mpr h3
  rw [h] at h4
  cases h4

theorem splitSep_no_sep (sep : Char) :
    ∀ l : Str, sep ∉ l → splitSep sep l = [l] := by
  intro l
  induction l with
  | nil => intro _; rfl
  | cons c t ih =>
    intro h
    rw [splitSep,
      if_neg (fun hq => h (by rw [← hq]; exact List.mem_cons_self c t)),
      ih (fun hm => h (List.mem_cons_of_mem c hm))]

theorem splitSep_append (sep : Char) :
    ∀ (l rest : Str), sep ∉ l →
      splitSep sep (l ++ sep :: rest) = l :: splitSep sep rest := by
  intro l
  induction l with
  | nil =>
    intro rest _
    show splitSep sep (sep :: rest) = [] :: splitSep sep rest
    rw [splitSep, if_pos rfl]
  | cons c t ih =>
    intro rest h
    rw [List.cons_append, splitSep,
      if_neg (fun hq => h (by rw [← hq]; exact List.mem_cons_self c t)),
      ih rest (fun hm => h (List.mem_cons_of_mem c hm))]

theorem intercalate_single {α : Type _} (sep : List α) (a : List α) :
    List.intercalate sep [a] = a := by
  simp [List.intercalate]

theorem intercalate_cons_two {α : Type _} (sep : List α) (a b : List α)
    (t : List (List α)) :
    List.intercalate sep (a :: b :: t) =
      a ++ sep ++ List.intercalate sep (b :: t) := by
  show (a :: sep :: List.intersperse sep (b :: t)).flatten =
    a ++ sep ++ (List.intersperse sep (b :: t)).flatten
  rw [List.flatten_cons, List.flatten_cons, List.append_assoc]

theorem splitSep_intercalate (sep : Char) :
    ∀ fields : List Str, fields ≠ [] → (∀ f ∈ fields, sep ∉ f) →
      splitSep sep (List.intercalate [sep] fields) = fields := by
  intro fields
  induction fields with
  | nil => intro h; cases h rfl
  | cons f fs ih =>
    intro _ hsafe
    cases fs with
    | nil =>
      rw [intercalate_single, splitSep_no_sep sep f (hsafe f (by simp))]
    | cons g gs =>
      rw [intercalate_cons_two, List.append_assoc, List.singleton_append,
        splitSep_append sep f _ (hsafe f (by simp)),
        ih (by simp) (fun x hx => hsafe x (List.mem_cons_of_mem f hx))]

theorem mem_intercalate_single {α : Type _} (sep c : α) :
    ∀ fields : List (List α), c ∈ List.intercalate [sep] fields →
      c = sep ∨ ∃ f ∈ fields, c ∈ f := by
  intro fields
  induction fields with
  | nil => intro h; exact absurd h (List.not_mem_nil c)
  | cons f fs ih =>
    cases fs with
    | nil =>
      intro h
      rw [intercalate_single] at h
      exact .inr ⟨f, by simp, h⟩
    | cons g gs =>
      intro h
      rw [intercalate_cons_two, List.append_assoc,
        List.singleton_append] at h
      rcases List.mem_append.mp h with h1 | h1
      · exact .inr ⟨f, by simp, h1⟩
      · rcases List.mem_cons.mp h1 with h2 | h2
        · exact .inl h2
        · rcases ih h2 with h3 | ⟨x, hx, hcx⟩
          · exact .inl h3
          · exact .inr ⟨x, List.mem_cons_of_mem f hx, hcx⟩

theorem map_trimC_fixed :
    ∀ fields : List Str, (∀ f ∈ fields, trimC f = f) →
      fields.map trimC = fields := by
  intro fields h
  exact (List.map_congr_left h).trans (List.map_id fields)

theorem split_csv_joinFields (fields : List Str) (h2 : 2 ≤ fields.length)
    (hsafe : ∀ f ∈ fields, trimC f = f ∧ ',' ∉ f) :
    split_csv (joinFields fields) = fields := by
  cases fields with
  | nil => simp at h2
  | cons f fs =>
    cases fs with
    | nil => simp at h2
    | cons g gs =>
      have hcomma : ',' ∈ joinFields (f :: g :: gs) := by
        rw [joinFields, intercalate_cons_two, List.append_assoc,
          List.singleton_append]
        exact List.mem_append_right f (List.mem_cons_self _ _)
      have hnn : joinFields (f :: g :: gs) ≠ [] := by
        intro h
        rw [h] at hcomma
        cases hcomma
      rw [split_csv, if_neg hnn, joinFields,
        splitSep_intercalate ',' _ (by simp)
          (fun x hx => (hsafe x hx).2)]
      exact map_trimC_fixed _ (fun x hx => (hsafe x hx).1)

theorem joinLines_eq (l : Str) (rest : List Str) :
    joinLines (l :: rest) = l ++ '\n' :: joinLines rest := by
  rw [joinLines, List.map_cons, List.flatten_cons, List.append_assoc,
    List.singleton_append, joinLines]

theorem joinLines_ne_nil (l : Str) (rest : List Str) :
    joinLines (l :: rest) ≠ [] := by
  rw [joinLines_eq]
  intro h
  simp at h

theorem splitSep_joinLines :
    ∀ lines : List Str, (∀ l ∈ lines, '\n' ∉ l) →
      splitSep '\n' (joinLines lines) = lines ++ [[]] := by
  intro lines
  induction lines with
  | nil => intro _; rfl
  | cons l rest ih =>
    intro h
    rw [joinLines_eq, splitSep_append '\n' l _ (h l (by simp)),
      ih (fun x hx => h x (List.mem_cons_of_mem l hx))]
    rfl

theorem joinLines_getLast (lines : List Str) (h : lines ≠ []) :
    (joinLines lines).getLast? = some '\n' := by
  induction lines with
  | nil => cases h rfl
  | cons l rest ih =>
    by_cases hr : rest = []
    · subst hr
      rw [joinLines_eq]
      show (l ++ ['\n']).getLast? = some '\n'
      exact List.getLast?_concat l
    · rw [joinLines_eq, ← List.singleton_append, List.getLast?_append,
        List.getLast?_append, ih hr]
      rfl

theorem getlines_joinLines (lines : List Str)
    (h : ∀ l ∈ lines, '\n' ∉ l) : getlines (joinLines lines) = lines := by
  cases lines with
  | nil => rfl
  | cons l rest =>
    rw [getlines, if_neg (joinLines_ne_nil l rest),
      if_pos (joinLines_getLast (l :: rest) (by simp)),
      splitSep_joinLines (l :: rest) h, List.dropLast_concat]

theorem parse_cell_field_section (v : Val) (hv : CsvCellOk v) :
    parse_cell_field (fieldOfVal v) = .ok v := by
  rcases v with _ | q
  · rfl
  · obtain ⟨hs, hne, hpd⟩ := hv
    show parse_cell_field (formatQ q) = .ok (some q)
    rw [parse_cell_field, if_neg hne, hpd]

theorem from_csv_rows_reconstruct (ι : Type) (cdc : IndexCodec ι)
    (auto : Option (ℕ → ι)) (ncols : ℕ) (hn : 1 ≤ ncols) :
    ∀ (pairs : List (ι × List Val)) (df0 : DataFrame ι),
      (∀ p ∈ pairs, p.2.length = ncols ∧
        CsvSafeStr (cdc.toChars p.1) ∧
        cdc.parseToken (cdc.toChars p.1) = .ok p.1 ∧
        ∀ v ∈ p.2, CsvCellOk v) →
      from_csv_rows cdc true auto ncols
        (pairs.map (fun ir =>
          joinFields (cdc.toChars ir.1 :: ir.2.map fieldOfVal))) df0 =
      .ok { df0 with
        index := df0.index ++ pairs.map Prod.fst,
        data := df0.data ++ pairs.map Prod.snd } := by
  intro pairs
  induction pairs with
  | nil =>
    intro df0 _
    simp [from_csv_rows]
  | cons p rest ih =>
    intro df0 hall
    obtain ⟨hplen, hpsafe, hppt, hpcells⟩ := hall p (List.mem_cons_self p rest)
    have hfields_safe : ∀ f ∈ (cdc.toChars p.1 :: p.2.map fieldOfVal),
        trimC f = f ∧ ',' ∉ f := by
      intro f hf
      rcases List.mem_cons.mp hf with h1 | h1
      · subst h1; exact ⟨hpsafe.1, hpsafe.2.1⟩
      · obtain ⟨v, hv, rfl⟩ := List.mem_map.mp h1
        rcases v with _ | q
        · exact ⟨rfl, fun hmem => absurd hmem (List.not_mem_nil ',')⟩
        · obtain ⟨hs, _, _⟩ := hpcells (some q) hv
          exact ⟨hs.1, hs.2.1⟩
    have h2len : 2 ≤ (cdc.toChars p.1 :: p.2.map fieldOfVal).length := by
      simp only [List.length_cons, List.length_map, hplen]
      omega
    have hsplit : split_csv (joinFields (cdc.toChars p.1 ::
        p.2.map fieldOfVal)) = cdc.toChars p.1 :: p.2.map fieldOfVal :=
      split_csv_joinFields _ h2len hfields_safe
    have hcomma : ',' ∈ joinFields (cdc.toChars p.1 :: p.2.map fieldOfVal) := by
      cases hm : p.2.map fieldOfVal with
      | nil =>
        exfalso
        have := congrArg List.length hm
        simp only [List.length_map, hplen, List.length_nil] at this
        omega
      | cons f0 ft =>
        rw [joinFields, intercalate_cons_two, List.append_assoc,
          List.singleton_append]
        exact List.mem_append_right _ (List.mem_cons_self _ _)
    have hblank : ¬ trimC (joinFields (cdc.toChars p.1 ::
        p.2.map fieldOfVal)) = [] :=
      trimC_ne_nil (by decide) hcomma
    rw [List.map_cons, from_csv_rows, if_neg hblank]
    have hlen2 : ¬ ((split_csv (joinFields (cdc.toChars p.1 ::
        p.2.map fieldOfVal))).length ≠
        ncols + (if (true : Bool) then 1 else 0)) := by
      rw [hsplit]
      simp only [List.length_cons, List.length_map, hplen]
      simp
    rw [if_neg hlen2]
    have hpif : parse_index_field cdc true auto
        (split_csv (joinFields (cdc.toChars p.1 :: p.2.map fieldOfVal)))
        df0.index.length = .ok p.1 := by
      rw [hsplit]
      show (match cdc.parseToken (cdc.toChars p.1) with
        | .ok i => (.ok i : Except String ι)
        | .error _ => .error "dataframe::from_csv: invalid index value") =
        .ok p.1
      rw [hppt]
    have hmapE : mapE parse_cell_field ((split_csv (joinFields
        (cdc.toChars p.1 :: p.2.map fieldOfVal))).drop
        (if (true : Bool) then 1 else 0)) = .ok p.2 := by
      rw [hsplit]
      show mapE parse_cell_field (p.2.map fieldOfVal) = .ok p.2
      exact mapE_map_section (fun v hv => parse_cell_field_section v
        (hpcells v hv))
    have key : from_csv_rows cdc true auto ncols
        (rest.map (fun ir =>
          joinFields (cdc.toChars ir.1 :: ir.2.map fieldOfVal)))
        { df0 with
          index := df0.index ++ [p.1],
          data := df0.data ++ [p.2] } =
        .ok { df0 with
          index := df0.index ++ (p :: rest).map Prod.fst,
          data := df0.data ++ (p :: rest).map Prod.snd } := by
      rw [ih _ (fun r hr => hall r (List.mem_cons_of_mem p hr))]
      simp [List.append_assoc]
    rw [hmapE, hpif]
    exact key

/-- **C1 (amended).** The binary codec round-trips every well-formed table
whose dimensions fit `uint64_t`.  The text codec round-trips a table only
when every participating string and value survives the stream formatting:
the index label and column names must be trim-stable and free of separator
characters, every index value must print safely and parse back, and every
finite cell must print (at the stream's six-significant-digit default) to a
token that `std::stod` parses back to exactly the same value; NaN cells
always survive as empty fields. -/
theorem c1_round_trip (ι : Type) (cdc : IndexCodec ι)
    (auto : Option (ℕ → ι)) :
    (∀ df : DataFrame ι, WF df → df.rows < 2 ^ 64 → df.cols < 2 ^ 64 →
      from_binary df.to_binary = .ok df) ∧
    (∀ (df : DataFrame ι) (out : Str), WF df → 1 ≤ df.cols →
      CsvSafeStr df.index_name →
      (∀ name ∈ df.columns, CsvSafeStr name) →
      (∀ i ∈ df.index, CsvSafeStr (cdc.toChars i) ∧
        cdc.parseToken (cdc.toChars i) = .ok i) →
      (∀ row ∈ df.data, ∀ v ∈ row, CsvCellOk v) →
      df.to_csv cdc = .ok out →
      from_csv cdc auto out true = .ok df) := by
  refine ⟨fun df hwf hr hc => to_binary_from_binary ι df hwf hr hc, ?_⟩
  intro df out hwf hcols hsafeI hsafeC hsafeX hsafeV hout
  obtain ⟨hlen, hrows⟩ := hwf
  have hmap : mapE (fun ir =>
      if ir.2.length ≠ df.columns.length then
        (.error "dataframe::to_csv: row has unexpected number of columns" :
          Except String Str)
      else .ok (joinFields (cdc.toChars ir.1 :: ir.2.map fieldOfVal)))
      (df.index.zip df.data) =
      .ok ((df.index.zip df.data).map (fun ir =>
        joinFields (cdc.toChars ir.1 :: ir.2.map fieldOfVal))) :=
    mapE_map (fun ir hir =>
      if_neg (not_not_intro (hrows ir.2 (List.of_mem_zip hir).2)))
  have hout2 : out = joinLines (joinFields (df.index_name :: df.columns) ::
      (df.index.zip df.data).map (fun ir =>
        joinFields (cdc.toChars ir.1 :: ir.2.map fieldOfVal))) := by
    rw [DataFrame.to_csv, if_neg (not_not_intro hlen)] at hout
    rw [hmap] at hout
    have hout3 : Except.ok (joinLines (joinFields (df.index_name ::
        df.columns) :: (df.index.zip df.data).map (fun ir =>
          joinFields (cdc.toChars ir.1 :: ir.2.map fieldOfVal)))) =
        Except.ok (ε := String) out := hout
    rw [Except.ok.injEq] at hout3
    exact hout3.symm
  subst hout2
  have hlinesafe : ∀ l ∈ (joinFields (df.index_name :: df.columns) ::
      (df.index.zip df.data).map (fun ir =>
        joinFields (cdc.toChars ir.1 :: ir.2.map fieldOfVal))),
      '\n' ∉ l := by
    intro l hl hnl
    rcases List.mem_cons.mp hl with h1 | h1
    · subst h1
      rcases mem_intercalate_single ',' '\n' _ hnl with h2 | ⟨f, hf, hcf⟩
      · exact absurd h2 (by decide)
      · rcases List.mem_cons.mp hf with h3 | h3
        · subst h3; exact hsafeI.2.2 hcf
        · exact (hsafeC f h3).2.2 hcf
    · obtain ⟨ir, hir, rfl⟩ := List.mem_map.mp h1
      rcases mem_intercalate_single ',' '\n' _ hnl with h2 | ⟨f, hf, hcf⟩
      · exact absurd h2 (by decide)
      · rcases List.mem_cons.mp hf with h3 | h3
        · subst h3
          exact (hsafeX ir.1 (List.of_mem_zip hir).1).1.2.2 hcf
        · obtain ⟨v, hv, rfl⟩ := List.mem_map.mp h3
          rcases v with _ | q
          · exact absurd hcf (List.not_mem_nil _)
          · exact (hsafeV ir.2 (List.of_mem_zip hir).2 (some q) hv).1.2.2 hcf
  have hglines : getlines (joinLines (joinFields (df.index_name ::
      df.columns) :: (df.index.zip df.data).map (fun ir =>
        joinFields (cdc.toChars ir.1 :: ir.2.map fieldOfVal)))) =
      joinFields (df.index_name :: df.columns) ::
      (df.index.zip df.data).map (fun ir =>
        joinFields (cdc.toChars ir.1 :: ir.2.map fieldOfVal)) :=
    getlines_joinLines _ hlinesafe
  have hc2 : 1 ≤ df.columns.length := hcols
  have hsplitH : split_csv (joinFields (df.index_name :: df.columns)) =
      df.index_name :: df.columns := by
    apply split_csv_joinFields
    · simp only [List.length_cons]
      omega
    · intro f hf
      rcases List.mem_cons.mp hf with h1 | h1
      · subst h1; exact ⟨hsafeI.1, hsafeI.2.1⟩
      · exact ⟨(hsafeC f h1).1, (hsafeC f h1).2.1⟩
  rw [from_csv, hglines]
  show (if split_csv (joinFields (df.index_name :: df.columns)) = [] then
      (.error "dataframe::from_csv: header has no columns" :
        Except String (DataFrame ι))
    else if (true : Bool) ∧ (split_csv (joinFields (df.index_name ::
        df.columns))).length < 2 then
      .error "dataframe::from_csv: need at least one data column when reading indices"
    else if (split_csv (joinFields (df.index_name ::
        df.columns))).drop 1 = [] then
      .error "dataframe::from_csv: no data columns found"
    else from_csv_rows cdc true auto
      ((split_csv (joinFields (df.index_name :: df.columns))).drop 1).length
      ((df.index.zip df.data).map (fun ir =>
        joinFields (cdc.toChars ir.1 :: ir.2.map fieldOfVal)))
      { columns := (split_csv (joinFields (df.index_name ::
          df.columns))).drop 1,
        index := [], data := [],
        index_name := (split_csv (joinFields (df.index_name ::
          df.columns))).headD [] }) = .ok df
  rw [hsplitH]
  simp only [List.drop_succ_cons, List.drop_zero, List.headD_cons]
  rw [if_neg (List.cons_ne_nil df.index_name df.columns),
    if_neg (fun h => by
      have h2 := h.2
      simp only [List.length_cons] at h2
      omega),
    if_neg (fun h => by rw [h] at hc2; simp at hc2),
    from_csv_rows_reconstruct ι cdc auto df.columns.length hc2
      (df.index.zip df.data) _ (fun p hp =>
        ⟨hrows p.2 (List.of_mem_zip hp).2,
         (hsafeX p.1 (List.of_mem_zip hp).1).1,
         (hsafeX p.1 (List.of_mem_zip hp).1).2,
         fun v hv => hsafeV p.2 (List.of_mem_zip hp).2 v hv⟩),
    List.map_fst_zip df.index df.data hlen.le,
    List.map_snd_zip df.index df.data hlen.ge]
  simp

attribute [local semireducible] Rat.add Rat.mul Rat.sub Rat.inv in
/-- Counterexample to C1 as stated: the text codec does not round-trip
every table.  `1048576` is printed by the stream's default six-significant-
digit formatting as `1.04858e+06`, which parses back as `1048580`, so
decoding the encoding of `exDF` yields a different table. -/
theorem c1_counterexample :
    exDF.to_csv intCodec = .ok ("index,a\n0,1.04858e+06\n".toList) ∧
    from_csv intCodec (some Int.ofNat)
      ("index,a\n0,1.04858e+06\n".toList) true = .ok exDF2 ∧
    exDF2 ≠ exDF :=
  ⟨by decide, by decide, by decide⟩

attribute [local semireducible] Rat.add Rat.mul Rat.sub Rat.inv in
/-- Closed witness for `c1_round_trip`: both codecs round-trip the 2×2
table with a missing cell. -/
theorem c1_witness :
    from_binary wt2.to_binary = .ok wt2 ∧
    from_csv intCodec (some Int.ofNat)
      ("idx,a,b\n0,0.5,\n1,3,-2\n".toList) true = .ok wt2 :=
  ⟨(c1_round_trip ℤ intCodec (some Int.ofNat)).1 wt2 (by decide) (by decide)
     (by decide),
   (c1_round_trip ℤ intCodec (some Int.ofNat)).2 wt2
     ("idx,a,b\n0,0.5,\n1,3,-2\n".toList) (by decide) (by decide)
     (by decide) (by decide) (by decide) (by decide) (by decide)⟩

theorem mapE_mem {α β : Type _} {f : α → Except String β} :
    ∀ {l : List α} {ys : List β}, mapE f l = .ok ys →
      ∀ y ∈ ys, ∃ x ∈ l, f x = .ok y := by
  intro l
  induction l with
  | nil =>
    intro ys h y hy
    have h2 : (.ok [] : Except String (List β)) = .ok ys := h
    rw [Except.ok.injEq] at h2
    subst h2
    cases hy
  | cons x t ih =>
    intro ys h y hy
    rw [mapE] at h
    cases h1 : f x with
    | error e => rw [h1] at h; cases h
    | ok b =>
      rw [h1] at h
      cases h2 : mapE f t with
      | error e => rw [h2] at h; cases h
      | ok bs =>
        rw [h2] at h
        have h3 : (.ok (b :: bs) : Except String (List β)) = .ok ys := h
        rw [Except.ok.injEq] at h3
        subst h3
        rcases List.mem_cons.mp hy with h4 | h4
        · exact ⟨x, List.mem_cons_self x t, by rw [h4]; exact h1⟩
        · obtain ⟨x1, hx1, hfx⟩ := ih h2 y h4
          exact ⟨x1, List.mem_cons_of_mem x hx1, hfx⟩

theorem gather_length {α : Type _} (l : List α) :
    ∀ order : List ℕ, (∀ p ∈ order, p < l.length) →
      (gather l order).length = order.length := by
  intro order
  induction order with
  | nil => intro _; rfl
  | cons p t ih =>
    intro h
    have hp := h p (List.mem_cons_self p t)
    have ht := ih (fun q hq => h q (List.mem_cons_of_mem p hq))
    rw [gather, List.filterMap_cons, List.get?_eq_get hp]
    rw [gather] at ht
    simp [ht]
    intro a ha
    simp [List.getElem?_eq_getElem (h a (List.mem_cons_of_mem p ha))]

theorem gather_mem {α : Type _} {l : List α} {order : List ℕ} {x : α}
    (hx : x ∈ gather l order) : x ∈ l := by
  rw [gather] at hx
  obtain ⟨p, hp, hgx⟩ := List.mem_filterMap.mp hx
  exact List.get?_mem hgx

theorem mem_zipWith_struct {α β γ : Type _} {f : α → β → γ} :
    ∀ {l1 : List α} {l2 : List β} {x : γ}, x ∈ List.zipWith f l1 l2 →
      ∃ a ∈ l1, ∃ b ∈ l2, x = f a b := by
  intro l1
  induction l1 with
  | nil => intro l2 x h; simp at h
  | cons a t ih =>
    intro l2 x h
    cases l2 with
    | nil => simp at h
    | cons b t2 =>
      rw [List.zipWith_cons_cons] at h
      rcases List.mem_cons.mp h with h1 | h1
      · exact ⟨a, by simp, b, by simp, h1⟩
      · obtain ⟨a1, ha, b1, hb, hx⟩ := ih h1
        exact ⟨a1, List.mem_cons_of_mem a ha, b1,
          List.mem_cons_of_mem b hb, hx⟩

theorem readN_length {α : Type _}
    (reader : List (BinItem ι) → Except String (α × List (BinItem ι))) :
    ∀ (n : ℕ) (s : List (BinItem ι)) (xs : List α) (s2 : List (BinItem ι)),
      readN reader n s = .ok (xs, s2) → xs.length = n := by
  intro n
  induction n with
  | zero =>
    intro s xs s2 h
    have h2 : (.ok ([], s) :
        Except String (List α × List (BinItem ι))) = .ok (xs, s2) := h
    rw [Except.ok.injEq, Prod.mk.injEq] at h2
    rw [← h2.1]
    rfl
  | succ n ih =>
    intro s xs s2 h
    rw [readN] at h
    cases h1 : reader s with
    | error e => rw [h1] at h; cases h
    | ok p =>
      obtain ⟨x, s1⟩ := p
      rw [h1] at h
      have hc : readNCons x (readN reader n s1) = .ok (xs, s2) := h
      cases h2 : readN reader n s1 with
      | error e => rw [h2] at hc; cases hc
      | ok q =>
        obtain ⟨xs1, s3⟩ := q
        rw [h2] at hc
        have h3 : (.ok (x :: xs1, s3) :
            Except String (List α × List (BinItem ι))) = .ok (xs, s2) := hc
        rw [Except.ok.injEq, Prod.mk.injEq] at h3
        rw [← h3.1]
        simp [ih s1 xs1 s3 h2]

theorem readN_pred {α : Type _}
    (reader : List (BinItem ι) → Except String (α × List (BinItem ι)))
    (P : α → Prop)
    (hP : ∀ s x s2, reader s = .ok (x, s2) → P x) :
    ∀ (n : ℕ) (s : List (BinItem ι)) (xs : List α) (s2 : List (BinItem ι)),
      readN reader n s = .ok (xs, s2) → ∀ x ∈ xs, P x := by
  intro n
  induction n with
  | zero =>
    intro s xs s2 h
    have h2 : (.ok ([], s) :
        Except String (List α × List (BinItem ι))) = .ok (xs, s2) := h
    rw [Except.ok.injEq, Prod.mk.injEq] at h2
    rw [← h2.1]
    intro x hx
    cases hx
  | succ n ih =>
    intro s xs s2 h
    rw [readN] at h
    cases h1 : reader s with
    | error e => rw [h1] at h; cases h
    | ok p =>
      obtain ⟨x, s1⟩ := p
      rw [h1] at h
      have hc : readNCons x (readN reader n s1) = .ok (xs, s2) := h
      cases h2 : readN reader n s1 with
      | error e => rw [h2] at hc; cases hc
      | ok q =>
        obtain ⟨xs1, s3⟩ := q
        rw [h2] at hc
        have h3 : (.ok (x :: xs1, s3) :
            Except String (List α × List (BinItem ι))) = .ok (xs, s2) := hc
        rw [Except.ok.injEq, Prod.mk.injEq] at h3
        rw [← h3.1]
        intro y hy
        rcases List.mem_cons.mp hy with h4 | h4
        · rw [h4]; exact hP s x s1 h1
        · exact ih s1 xs1 s3 h2 y h4

theorem wf_from_binary (ι : Type) (s : List (BinItem ι))
    (out : DataFrame ι) (hout : from_binary s = .ok out) : WF out := by
  cases s with
  | nil =>
    have h0 : (.error "dataframe::from_binary: invalid file header" :
        Except String (DataFrame ι)) = .ok out := hout
    cases h0
  | cons b s0 =>
    cases b with
    | u64 n =>
      have h0 : (.error "dataframe::from_binary: invalid file header" :
          Except String (DataFrame ι)) = .ok out := hout
      cases h0
    | str t =>
      have h0 : (.error "dataframe::from_binary: invalid file header" :
          Except String (DataFrame ι)) = .ok out := hout
      cases h0
    | f64 v =>
      have h0 : (.error "dataframe::from_binary: invalid file header" :
          Except String (DataFrame ι)) = .ok out := hout
      cases h0
    | ival i =>
      have h0 : (.error "dataframe::from_binary: invalid file header" :
          Except String (DataFrame ι)) = .ok out := hout
      cases h0
    | tag =>
      rw [from_binary] at hout
      cases h1 : readU64 s0 with
      | error e => rw [h1] at hout; cases hout
      | ok p =>
        obtain ⟨row_count, s1⟩ := p
        rw [h1] at hout
        have h2 : fb_cols row_count s1 = .ok out := hout
        rw [fb_cols] at h2
        cases h3 : readU64 s1 with
        | error e => rw [h3] at h2; cases h2
        | ok p =>
          obtain ⟨col_count, s2⟩ := p
          rw [h3] at h2
          have h4 : fb_label col_count row_count s2 = .ok out := h2
          rw [fb_label] at h4
          cases h5 : readStr s2 with
          | error e => rw [h5] at h4; cases h4
          | ok p =>
            obtain ⟨iname, s3⟩ := p
            rw [h5] at h4
            have h6 : fb_count col_count row_count iname s3 = .ok out := h4
            rw [fb_count] at h6
            cases h7 : readU64 s3 with
            | error e => rw [h7] at h6; cases h6
            | ok p =>
              obtain ⟨column_names, s4⟩ := p
              rw [h7] at h6
              have h8 : fb_check col_count row_count iname column_names s4 =
                  .ok out := h6
              rw [fb_check] at h8
              by_cases hcn : column_names ≠ col_count
              · rw [if_pos hcn] at h8; cases h8
              rw [if_neg hcn, fb_names] at h8
              cases h9 : readN readStr col_count s4 with
              | error e => rw [h9] at h8; cases h8
              | ok p =>
                obtain ⟨cols, s5⟩ := p
                rw [h9] at h8
                have h10 : fb_index col_count row_count cols iname s5 =
                    .ok out := h8
                rw [fb_index] at h10
                cases h11 : readN readIval row_count s5 with
                | error e => rw [h11] at h10; cases h10
                | ok p =>
                  obtain ⟨idxs, s6⟩ := p
                  rw [h11] at h10
                  have h12 : fb_cells col_count row_count cols iname idxs s6 =
                      .ok out := h10
                  rw [fb_cells] at h12
                  cases h13 : readN (readN readF64 col_count) row_count s6 with
                  | error e => rw [h13] at h12; cases h12
                  | ok p =>
                    obtain ⟨data, s7⟩ := p
                    rw [h13] at h12
                    have h14 : (.ok {
                        columns := cols,
                        index := idxs,
                        data := data,
                        index_name := iname } :
                        Except String (DataFrame ι)) = .ok out := h12
                    rw [Except.ok.injEq] at h14
                    subst h14
                    constructor
                    · show idxs.length = data.length
                      rw [readN_length readIval row_count s5 idxs s6 h11,
                        readN_length _ row_count s6 data s7 h13]
                    · intro row hrow
                      show row.length = cols.length
                      rw [readN_length readStr col_count s4 cols s5 h9]
                      exact readN_pred (readN readF64 col_count)
                        (fun r => r.length = col_count)
                        (fun st x s9 hx =>
                          readN_length readF64 col_count st x s9 hx)
                        row_count s6 data s7 h13 row hrow

theorem from_csv_rows_wf (ι : Type) (cdc : IndexCodec ι) (hi : Bool)
    (auto : Option (ℕ → ι)) (ncols : ℕ) :
    ∀ (lines : List Str) (df0 df : DataFrame ι),
      WF df0 → df0.columns.length = ncols →
      from_csv_rows cdc hi auto ncols lines df0 = .ok df → WF df := by
  intro lines
  induction lines with
  | nil =>
    intro df0 df hwf _ h
    have h2 : (.ok df0 : Except String (DataFrame ι)) = .ok df := h
    rw [Except.ok.injEq] at h2
    subst h2
    exact hwf
  | cons line rest ih =>
    intro df0 df hwf hc hout
    rw [from_csv_rows] at hout
    by_cases hb : trimC line = []
    · rw [if_pos hb] at hout
      exact ih df0 df hwf hc hout
    · rw [if_neg hb] at hout
      by_cases hlen : (split_csv line).length =
          ncols + (if hi then 1 else 0)
      · rw [if_neg (not_not_intro hlen)] at hout
        cases hpi : parse_index_field cdc hi auto (split_csv line)
            df0.index.length with
        | error e => rw [hpi] at hout; cases hout
        | ok idx =>
          rw [hpi] at hout
          cases hmr : mapE parse_cell_field
              ((split_csv line).drop (if hi then 1 else 0)) with
          | error e => rw [hmr] at hout; cases hout
          | ok row =>
            rw [hmr] at hout
            refine ih { df0 with
              index := df0.index ++ [idx],
              data := df0.data ++ [row] } df ⟨?_, ?_⟩ hc hout
            · show (df0.index ++ [idx]).length = (df0.data ++ [row]).length
              simp [hwf.1]
            · intro r hr
              show r.length = df0.columns.length
              rcases List.mem_append.mp hr with h1 | h1
              · exact hwf.2 r h1
              · have h2 : r = row := List.mem_singleton.mp h1
                subst h2
                have hrl := mapE_ok_length hmr
                rw [List.length_drop, hlen] at hrl
                rw [hrl, hc]
                cases hi <;> simp
      · rw [if_pos hlen] at hout
        cases hout

theorem wf_from_csv (ι : Type) (cdc : IndexCodec ι)
    (auto : Option (ℕ → ι)) (input : Str) (hi : Bool) (out : DataFrame ι)
    (hout : from_csv cdc auto input hi = .ok out) : WF out := by
  rw [from_csv] at hout
  cases hgl : getlines input with
  | nil => rw [hgl] at hout; cases hout
  | cons header rest =>
    rw [hgl] at hout
    have hout2 : (if split_csv header = [] then
        (.error "dataframe::from_csv: header has no columns" :
          Except String (DataFrame ι))
      else if hi ∧ (split_csv header).length < 2 then
        .error "dataframe::from_csv: need at least one data column when reading indices"
      else if (if hi then (split_csv header).drop 1
          else split_csv header) = [] then
        .error "dataframe::from_csv: no data columns found"
      else from_csv_rows cdc hi auto
        (if hi then (split_csv header).drop 1
          else split_csv header).length rest
        { columns := if hi then (split_csv header).drop 1
            else split_csv header,
          index := [],
          data := [],
          index_name := if hi then (split_csv header).headD []
            else "index".toList }) = .ok out := hout
    by_cases h1 : split_csv header = []
    · rw [if_pos h1] at hout2; cases hout2
    rw [if_neg h1] at hout2
    by_cases h2 : hi ∧ (split_csv header).length < 2
    · rw [if_pos h2] at hout2; cases hout2
    rw [if_neg h2] at hout2
    by_cases h3 : (if hi then (split_csv header).drop 1
        else split_csv header) = []
    · rw [if_pos h3] at hout2; cases hout2
    rw [if_neg h3] at hout2
    exact from_csv_rows_wf ι cdc hi auto
      (if hi then (split_csv header).drop 1 else split_csv header).length
      rest
      { columns := if hi then (split_csv header).drop 1
          else split_csv header,
        index := [],
        data := [],
        index_name := if hi then (split_csv header).headD []
          else "index".toList }
      out ⟨rfl, fun r hr => absurd hr (List.not_mem_nil r)⟩ rfl hout2

theorem wf_from_vectors (ι : Type) (indices : List ι) (columns : List Str)
    (data : List (List Val)) (out : DataFrame ι)
    (hout : DataFrame.from_vectors indices columns data = .ok out) :
    WF out := by
  rw [DataFrame.from_vectors] at hout
  by_cases h1 : columns = []
  · rw [if_pos h1] at hout; cases hout
  rw [if_neg h1] at hout
  by_cases h2 : indices.length ≠ data.length
  · rw [if_pos h2] at hout; cases hout
  rw [if_neg h2] at hout
  by_cases h3 : columns.any (· = []) = true
  · rw [if_pos h3] at hout; cases hout
  rw [if_neg h3] at hout
  by_cases h4 : data.any (fun row => row.length ≠ columns.length) = true
  · rw [if_pos h4] at hout; cases hout
  rw [if_neg h4] at hout
  have h5 : (.ok {
      columns := columns,
      index := indices,
      data := data,
      index_name := "index".toList } :
      Except String (DataFrame ι)) = .ok out := hout
  rw [Except.ok.injEq] at h5
  subst h5
  refine ⟨not_not.mp h2, ?_⟩
  intro row hrow
  show row.length = columns.length
  by_contra hne
  exact h4 (List.any_eq_true.mpr ⟨row, hrow, by simpa using hne⟩)

theorem wf_apply_scalar (ι : Type) (df : DataFrame ι) (f : Val → Val)
    (hwf : WF df) : WF (df.apply_scalar f) := by
  obtain ⟨h1, h2⟩ := hwf
  constructor
  · show df.index.length = (df.data.map (fun row => row.map f)).length
    rw [List.length_map]
    exact h1
  · intro row hrow
    obtain ⟨r0, hr0, hr⟩ := List.mem_map.mp hrow
    subst hr
    show (r0.map f).length = df.columns.length
    rw [List.length_map]
    exact h2 r0 hr0

theorem wf_apply_unaryE (ι : Type) (df out : DataFrame ι)
    (f : Val → Except String Val) (hwf : WF df)
    (hout : df.apply_unaryE f = .ok out) : WF out := by
  obtain ⟨h1, h2⟩ := hwf
  rw [DataFrame.apply_unaryE] at hout
  cases hm : mapE (fun row => mapE f row) df.data with
  | error e => rw [hm] at hout; cases hout
  | ok data =>
    rw [hm] at hout
    have h3 : (.ok { df with data := data } :
        Except String (DataFrame ι)) = .ok out := hout
    rw [Except.ok.injEq] at h3
    subst h3
    constructor
    · show df.index.length = data.length
      rw [mapE_ok_length hm]
      exact h1
    · intro row hrow
      obtain ⟨r0, hr0, hr⟩ := mapE_mem hm row hrow
      show row.length = df.columns.length
      rw [mapE_ok_length hr]
      exact h2 r0 hr0

theorem wf_apply_binary (ι : Type) [DecidableEq ι] (df other out : DataFrame ι)
    (f : Val → Val → Except String Val) (name : String) (hwf : WF df)
    (hwf2 : WF other) (hout : df.apply_binary other f name = .ok out) :
    WF out := by
  obtain ⟨h1, h2⟩ := hwf
  obtain ⟨g1, g2⟩ := hwf2
  rw [DataFrame.apply_binary] at hout
  by_cases hs : df.rows ≠ other.rows ∨ df.cols ≠ other.cols
  · rw [if_pos hs] at hout; cases hout
  rw [if_neg hs] at hout
  push_neg at hs
  by_cases hcol : df.columns ≠ other.columns
  · rw [if_pos hcol] at hout; cases hout
  rw [if_neg hcol] at hout
  by_cases hx : df.index ≠ other.index
  · rw [if_pos hx] at hout; cases hout
  rw [if_neg hx] at hout
  cases hm : mapE (fun rc => mapE (fun ab => f ab.1 ab.2) (rc.1.zip rc.2))
      (df.data.zip other.data) with
  | error e => rw [hm] at hout; cases hout
  | ok data =>
    rw [hm] at hout
    have h3 : (.ok { df with data := data } :
        Except String (DataFrame ι)) = .ok out := hout
    rw [Except.ok.injEq] at h3
    subst h3
    have heq : df.data.length = other.data.length := hs.1
    constructor
    · show df.index.length = data.length
      rw [mapE_ok_length hm, List.length_zip, ← heq, Nat.min_self]
      exact h1
    · intro row hrow
      obtain ⟨rc, hrc, hr⟩ := mapE_mem hm row hrow
      show row.length = df.columns.length
      have e1 := h2 rc.1 (List.of_mem_zip hrc).1
      have e2 := g2 rc.2 (List.of_mem_zip hrc).2
      have hceq : df.columns = other.columns := not_not.mp hcol
      rw [mapE_ok_length hr, List.length_zip, e1, e2, hceq, Nat.min_self]

theorem wf_differences (ι : Type) (df out : DataFrame ι) (hwf : WF df)
    (hout : df.differences = .ok out) : WF out := by
  obtain ⟨h1, h2⟩ := hwf
  rw [DataFrame.differences] at hout
  by_cases hr : df.data.length < 2
  · rw [if_pos hr] at hout; cases hout
  rw [if_neg hr] at hout
  have h3 : (.ok { df with
      index := df.index.drop 1,
      data := (df.data.zip (df.data.drop 1)).map
        (fun pr => (pr.1.zip pr.2).map (fun ab => subV ab.2 ab.1)) } :
      Except String (DataFrame ι)) = .ok out := hout
  rw [Except.ok.injEq] at h3
  subst h3
  constructor
  · show (df.index.drop 1).length = _
    rw [List.length_drop, List.length_map, List.length_zip,
      List.length_drop, h1]
    omega
  · intro row hrow
    obtain ⟨pr, hpr, hrw⟩ := List.mem_map.mp hrow
    subst hrw
    show ((pr.1.zip pr.2).map _).length = df.columns.length
    rw [List.length_map, List.length_zip]
    have e1 := h2 pr.1 (List.of_mem_zip hpr).1
    have e2 := h2 pr.2 (List.drop_subset 1 df.data (List.of_mem_zip hpr).2)
    rw [e1, e2, Nat.min_self]

theorem wf_log_changes (ι : Type) (logQ : ℚ → ℚ) (df out : DataFrame ι)
    (hwf : WF df) (hout : df.log_changes logQ = .ok out) : WF out := by
  obtain ⟨h1, h2⟩ := hwf
  rw [DataFrame.log_changes] at hout
  by_cases hr : df.data.length < 2
  · rw [if_pos hr] at hout; cases hout
  rw [if_neg hr] at hout
  cases hm : mapE (fun pr => mapE (logChangeCell logQ) (pr.1.zip pr.2))
      (df.data.zip (df.data.drop 1)) with
  | error e => rw [hm] at hout; cases hout
  | ok data =>
    rw [hm] at hout
    have h3 : (.ok { df with index := df.index.drop 1, data := data } :
        Except String (DataFrame ι)) = .ok out := hout
    rw [Except.ok.injEq] at h3
    subst h3
    constructor
    · show (df.index.drop 1).length = data.length
      rw [List.length_drop, mapE_ok_length hm, List.length_zip,
        List.length_drop, h1]
      omega
    · intro row hrow
      obtain ⟨pr, hpr, hr2⟩ := mapE_mem hm row hrow
      show row.length = df.columns.length
      have e1 := h2 pr.1 (List.of_mem_zip hpr).1
      have e2 := h2 pr.2 (List.drop_subset 1 df.data (List.of_mem_zip hpr).2)
      rw [mapE_ok_length hr2, List.length_zip, e1, e2, Nat.min_self]

theorem wf_proportional_changes (ι : Type) (df out : DataFrame ι)
    (hwf : WF df) (hout : df.proportional_changes = .ok out) : WF out := by
  obtain ⟨h1, h2⟩ := hwf
  rw [DataFrame.proportional_changes] at hout
  by_cases hr : df.data.length < 2
  · rw [if_pos hr] at hout; cases hout
  rw [if_neg hr] at hout
  cases hm : mapE (fun pr => mapE (fun ab =>
      match ab.1 with
      | some p =>
          if p = 0 then
            .error "dataframe::proportional_changes: zero value encountered"
          else .ok (ab.2.map (fun c => (c - p) / p))
      | none => .ok none)
      (pr.1.zip pr.2))
      (df.data.zip (df.data.drop 1)) with
  | error e => rw [hm] at hout; cases hout
  | ok data =>
    rw [hm] at hout
    have h3 : (.ok { df with index := df.index.drop 1, data := data } :
        Except String (DataFrame ι)) = .ok out := hout
    rw [Except.ok.injEq] at h3
    subst h3
    constructor
    · show (df.index.drop 1).length = data.length
      rw [List.length_drop, mapE_ok_length hm, List.length_zip,
        List.length_drop, h1]
      omega
    · intro row hrow
      obtain ⟨pr, hpr, hr2⟩ := mapE_mem hm row hrow
      show row.length = df.columns.length
      have e1 := h2 pr.1 (List.of_mem_zip hpr).1
      have e2 := h2 pr.2 (List.drop_subset 1 df.data (List.of_mem_zip hpr).2)
      rw [mapE_ok_length hr2, List.length_zip, e1, e2, Nat.min_self]

theorem wf_select_columns_by_positions (ι : Type) (df out : DataFrame ι)
    (positions : List ℕ) (hwf : WF df)
    (hout : df.select_columns_by_positions positions = .ok out) : WF out := by
  obtain ⟨h1, h2⟩ := hwf
  rw [DataFrame.select_columns_by_positions] at hout
  by_cases hall : positions.all (· < df.cols) = true
  · rw [if_pos hall] at hout
    have h3 : (.ok { df with
        columns := positions.filterMap (df.columns.get? ·),
        data := df.data.map (fun row =>
          positions.map (fun p => row.getD p none)) } :
        Except String (DataFrame ι)) = .ok out := hout
    rw [Except.ok.injEq] at h3
    subst h3
    have hbound : ∀ p ∈ positions, p < df.columns.length := by
      intro p hp
      exact of_decide_eq_true (List.all_eq_true.mp hall p hp)
    have hclen : (gather df.columns positions).length =
        positions.length := gather_length df.columns positions hbound
    constructor
    · show df.index.length = (df.data.map _).length
      rw [List.length_map]
      exact h1
    · intro row hrow
      obtain ⟨r0, hr0, hrw⟩ := List.mem_map.mp hrow
      subst hrw
      show (positions.map (fun p => r0.getD p none)).length =
        (gather df.columns positions).length
      rw [List.length_map, hclen]
  · rw [if_neg hall] at hout
    cases hout

theorem wf_select_rows_by_positions (ι : Type) (df out : DataFrame ι)
    (positions : List ℕ) (hwf : WF df)
    (hout : df.select_rows_by_positions positions = .ok out) : WF out := by
  obtain ⟨h1, h2⟩ := hwf
  rw [DataFrame.select_rows_by_positions] at hout
  by_cases hall : positions.all (· < df.rows) = true
  · rw [if_pos hall] at hout
    have h3 : (.ok { df with
        index := positions.filterMap (df.index.get? ·),
        data := positions.filterMap (df.data.get? ·) } :
        Except String (DataFrame ι)) = .ok out := hout
    rw [Except.ok.injEq] at h3
    subst h3
    have hbd : ∀ p ∈ positions, p < df.data.length := by
      intro p hp
      exact of_decide_eq_true (List.all_eq_true.mp hall p hp)
    have hbi : ∀ p ∈ positions, p < df.index.length := by
      intro p hp
      rw [h1]
      exact hbd p hp
    constructor
    · show (gather df.index positions).length =
        (gather df.data positions).length
      rw [gather_length df.index positions hbi,
        gather_length df.data positions hbd]
    · intro row hrow
      show row.length = df.columns.length
      exact h2 row (gather_mem hrow)
  · rw [if_neg hall] at hout
    cases hout

theorem wf_head_rows (ι : Type) (df : DataFrame ι) (count : ℕ)
    (hwf : WF df) : WF (df.head_rows count) := by
  obtain ⟨h1, h2⟩ := hwf
  rw [DataFrame.head_rows]
  by_cases hc : count = 0
  · rw [if_pos hc]
    exact ⟨rfl, fun r hr => absurd hr (List.not_mem_nil r)⟩
  rw [if_neg hc]
  by_cases hn : df.rows ≤ count
  · rw [if_pos hn]
    exact ⟨h1, h2⟩
  rw [if_neg hn]
  constructor
  · show (df.index.take count).length = (df.data.take count).length
    rw [List.length_take, List.length_take, h1]
  · intro row hrow
    exact h2 row (List.take_subset count df.data hrow)

theorem wf_tail_rows (ι : Type) (df : DataFrame ι) (count : ℕ)
    (hwf : WF df) : WF (df.tail_rows count) := by
  obtain ⟨h1, h2⟩ := hwf
  rw [DataFrame.tail_rows]
  by_cases hc : count = 0
  · rw [if_pos hc]
    exact ⟨rfl, fun r hr => absurd hr (List.not_mem_nil r)⟩
  rw [if_neg hc]
  by_cases hn : df.rows ≤ count
  · rw [if_pos hn]
    exact ⟨h1, h2⟩
  rw [if_neg hn]
  constructor
  · show (df.index.drop (df.rows - count)).length =
      (df.data.drop (df.rows - count)).length
    rw [List.length_drop, List.length_drop, h1]
  · intro row hrow
    exact h2 row (List.drop_subset (df.rows - count) df.data hrow)

theorem wf_head_columns (ι : Type) (df : DataFrame ι) (count : ℕ)
    (hwf : WF df) : WF (df.head_columns count) := by
  obtain ⟨h1, h2⟩ := hwf
  rw [DataFrame.head_columns]
  by_cases hc : count = 0
  · rw [if_pos hc]
    constructor
    · show df.index.length = (df.data.map _).length
      rw [List.length_map]
      exact h1
    · intro row hrow
      obtain ⟨r0, _, hrw⟩ := List.mem_map.mp hrow
      subst hrw
      rfl
  rw [if_neg hc]
  by_cases hn : df.cols ≤ count
  · rw [if_pos hn]
    exact ⟨h1, h2⟩
  rw [if_neg hn]
  constructor
  · show df.index.length = (df.data.map _).length
    rw [List.length_map]
    exact h1
  · intro row hrow
    obtain ⟨r0, hr0, hrw⟩ := List.mem_map.mp hrow
    subst hrw
    show (r0.take count).length = (df.columns.take count).length
    rw [List.length_take, List.length_take, h2 r0 hr0]

theorem wf_tail_columns (ι : Type) (df : DataFrame ι) (count : ℕ)
    (hwf : WF df) : WF (df.tail_columns count) := by
  obtain ⟨h1, h2⟩ := hwf
  rw [DataFrame.tail_columns]
  by_cases hc : count = 0
  · rw [if_pos hc]
    constructor
    · show df.index.length = (df.data.map _).length
      rw [List.length_map]
      exact h1
    · intro row hrow
      obtain ⟨r0, _, hrw⟩ := List.mem_map.mp hrow
      subst hrw
      rfl
  rw [if_neg hc]
  by_cases hn : df.cols ≤ count
  · rw [if_pos hn]
    exact ⟨h1, h2⟩
  rw [if_neg hn]
  constructor
  · show df.index.length = (df.data.map _).length
    rw [List.length_map]
    exact h1
  · intro row hrow
    obtain ⟨r0, hr0, hrw⟩ := List.mem_map.mp hrow
    subst hrw
    show (r0.drop (df.cols - count)).length =
      (df.columns.drop (df.cols - count)).length
    rw [List.length_drop, List.length_drop, h2 r0 hr0]

theorem wf_slice_rows_range (ι : Type) [LinearOrder ι] (df : DataFrame ι)
    (start end_ : ι) (inclusive_end : Bool) (hwf : WF df) :
    WF (df.slice_rows_range start end_ inclusive_end) := by
  obtain ⟨h1, h2⟩ := hwf
  constructor
  · show (List.map Prod.fst _).length = (List.map Prod.snd _).length
    rw [List.length_map, List.length_map]
  · intro row hrow
    obtain ⟨pr, hpr, hrw⟩ := List.mem_map.mp hrow
    subst hrw
    exact h2 pr.2 (List.of_mem_zip (List.mem_of_mem_filter hpr)).2

theorem wf_remove_rows_with_nan (ι : Type) (df : DataFrame ι)
    (hwf : WF df) : WF df.remove_rows_with_nan := by
  obtain ⟨h1, h2⟩ := hwf
  constructor
  · show (List.map Prod.fst _).length = (List.map Prod.snd _).length
    rw [List.length_map, List.length_map]
  · intro row hrow
    obtain ⟨pr, hpr, hrw⟩ := List.mem_map.mp hrow
    subst hrw
    exact h2 pr.2 (List.of_mem_zip (List.mem_of_mem_filter hpr)).2

theorem wf_sort_rows_by_column (ι : Type) [DecidableEq ι]
    (df out : DataFrame ι) (column_name : Str) (asc : Bool) (hwf : WF df)
    (hout : df.sort_rows_by_column column_name asc = .ok out) : WF out := by
  obtain ⟨h1, h2⟩ := hwf
  rw [DataFrame.sort_rows_by_column] at hout
  by_cases h0 : df.cols = 0
  · rw [if_pos h0] at hout; cases hout
  rw [if_neg h0] at hout
  cases hci : df.find_column_index column_name with
  | error e => rw [hci] at hout; cases hout
  | ok ci =>
    rw [hci] at hout
    have hout2 : (.ok { df with
        index := gather df.index
          (sort_positions (rowKeys df ci) asc df.rows),
        data := gather df.data
          (sort_positions (rowKeys df ci) asc df.rows) } :
        Except String (DataFrame ι)) = .ok out := hout
    rw [Except.ok.injEq] at hout2
    subst hout2
    have hbd : ∀ p ∈ sort_positions (rowKeys df ci) asc df.rows,
        p < df.data.length := by
      intro p hp
      have := (sort_positions_perm (rowKeys df ci) asc df.rows).mem_iff.mp hp
      exact List.mem_range.mp this
    have hbi : ∀ p ∈ sort_positions (rowKeys df ci) asc df.rows,
        p < df.index.length := by
      intro p hp
      rw [h1]
      exact hbd p hp
    constructor
    · show (gather df.index _).length = (gather df.data _).length
      rw [gather_length df.index _ hbi, gather_length df.data _ hbd]
    · intro row hrow
      exact h2 row (gather_mem hrow)

theorem wf_sort_columns_by_row (ι : Type) [DecidableEq ι]
    (df out : DataFrame ι) (index_value : ι) (asc : Bool) (hwf : WF df)
    (hout : df.sort_columns_by_row index_value asc = .ok out) : WF out := by
  obtain ⟨h1, h2⟩ := hwf
  rw [DataFrame.sort_columns_by_row] at hout
  by_cases h0 : df.cols = 0
  · rw [if_pos h0] at hout; cases hout
  rw [if_neg h0] at hout
  by_cases hr0 : df.rows = 0
  · rw [if_pos hr0] at hout; cases hout
  rw [if_neg hr0] at hout
  cases hrp : df.find_row_position index_value with
  | error e => rw [hrp] at hout; cases hout
  | ok rp =>
    rw [hrp] at hout
    have hout2 : (.ok { df with
        columns := gather df.columns
          (sort_positions (colKeys df rp) asc df.cols),
        data := df.data.map (fun row =>
          (sort_positions (colKeys df rp) asc df.cols).map
            (fun c => row.getD c none)) } :
        Except String (DataFrame ι)) = .ok out := hout
    rw [Except.ok.injEq] at hout2
    subst hout2
    have hbc : ∀ p ∈ sort_positions (colKeys df rp) asc df.cols,
        p < df.columns.length := by
      intro p hp
      have := (sort_positions_perm (colKeys df rp) asc df.cols).mem_iff.mp hp
      exact List.mem_range.mp this
    constructor
    · show df.index.length = (df.data.map _).length
      rw [List.length_map]
      exact h1
    · intro row hrow
      obtain ⟨r0, hr0m, hrw⟩ := List.mem_map.mp hrow
      subst hrw
      show ((sort_positions (colKeys df rp) asc df.cols).map _).length =
        (gather df.columns (sort_positions (colKeys df rp) asc df.cols)).length
      rw [List.length_map, gather_length df.columns _ hbc]

theorem wf_rolling_mean (ι : Type) (df out : DataFrame ι) (w : ℕ)
    (hwf : WF df) (hout : df.rolling_mean w = .ok out) : WF out := by
  obtain ⟨h1, _⟩ := hwf
  rw [DataFrame.rolling_mean] at hout
  by_cases h0 : w = 0
  · rw [if_pos h0] at hout; cases hout
  rw [if_neg h0] at hout
  by_cases hn : df.rows < w
  · rw [if_pos hn] at hout; cases hout
  rw [if_neg hn] at hout
  rw [Except.ok.injEq] at hout
  subst hout
  constructor
  · show (df.index.drop (w - 1)).length = ((List.range _).map _).length
    rw [List.length_drop, List.length_map, List.length_range, h1]
    show df.data.length - (w - 1) = df.data.length - w + 1
    have hn2 : w ≤ df.data.length := not_lt.mp hn
    omega
  · intro row hrow
    obtain ⟨k, _, hrw⟩ := List.mem_map.mp hrow
    subst hrw
    show ((List.range df.cols).map _).length = df.columns.length
    rw [List.length_map, List.length_range]
    rfl

theorem wf_rolling_std (ι : Type) (sqrtQ : ℚ → ℚ) (df out : DataFrame ι)
    (w : ℕ) (hwf : WF df) (hout : df.rolling_std sqrtQ w = .ok out) :
    WF out := by
  obtain ⟨h1, _⟩ := hwf
  rw [DataFrame.rolling_std] at hout
  by_cases h0 : w = 0
  · rw [if_pos h0] at hout; cases hout
  rw [if_neg h0] at hout
  by_cases hn : df.rows < w
  · rw [if_pos hn] at hout; cases hout
  rw [if_neg hn] at hout
  rw [Except.ok.injEq] at hout
  subst hout
  constructor
  · show (df.index.drop (w - 1)).length = ((List.range _).map _).length
    rw [List.length_drop, List.length_map, List.length_range, h1]
    show df.data.length - (w - 1) = df.data.length - w + 1
    have hn2 : w ≤ df.data.length := not_lt.mp hn
    omega
  · intro row hrow
    obtain ⟨k, _, hrw⟩ := List.mem_map.mp hrow
    subst hrw
    show ((List.range df.cols).map _).length = df.columns.length
    rw [List.length_map, List.length_range]
    rfl

theorem wf_rolling_rms (ι : Type) (sqrtQ : ℚ → ℚ) (df out : DataFrame ι)
    (w : ℕ) (hwf : WF df) (hout : df.rolling_rms sqrtQ w = .ok out) :
    WF out := by
  obtain ⟨h1, _⟩ := hwf
  rw [DataFrame.rolling_rms] at hout
  by_cases h0 : w = 0
  · rw [if_pos h0] at hout; cases hout
  rw [if_neg h0] at hout
  by_cases hn : df.rows < w
  · rw [if_pos hn] at hout; cases hout
  rw [if_neg hn] at hout
  rw [Except.ok.injEq] at hout
  subst hout
  constructor
  · show (df.index.drop (w - 1)).length = ((List.range _).map _).length
    rw [List.length_drop, List.length_map, List.length_range, h1]
    show df.data.length - (w - 1) = df.data.length - w + 1
    have hn2 : w ≤ df.data.length := not_lt.mp hn
    omega
  · intro row hrow
    obtain ⟨k, _, hrw⟩ := List.mem_map.mp hrow
    subst hrw
    show ((List.range df.cols).map _).length = df.columns.length
    rw [List.length_map, List.length_range]
    rfl

theorem wf_ema (ι : Type) (df out : DataFrame ι) (alpha : ℚ) (hwf : WF df)
    (hout : df.exponential_moving_average alpha = .ok out) : WF out := by
  obtain ⟨h1, _⟩ := hwf
  rw [DataFrame.exponential_moving_average] at hout
  by_cases ha : ¬(0 < alpha ∧ alpha < 1)
  · rw [if_pos ha] at hout; cases hout
  rw [if_neg ha] at hout
  rw [Except.ok.injEq] at hout
  subst hout
  constructor
  · show df.index.length = ((List.range df.rows).map _).length
    rw [List.length_map, List.length_range]
    exact h1
  · intro row hrow
    obtain ⟨r, _, hrw⟩ := List.mem_map.mp hrow
    subst hrw
    show ((List.range df.cols).map _).length = df.columns.length
    rw [List.length_map, List.length_range]
    rfl

theorem wf_resample_rows (ι : Type) [Inhabited ι] (df out : DataFrame ι)
    (picks : ℕ → ℕ) (sample_size : ℕ) (reset_index : Bool)
    (int_cast : Option (ℕ → ι)) (hwf : WF df)
    (hout : df.resample_rows picks sample_size reset_index int_cast =
      .ok out) : WF out := by
  obtain ⟨h1, h2⟩ := hwf
  rw [DataFrame.resample_rows] at hout
  by_cases h0 : df.rows = 0
  · rw [if_pos h0] at hout; cases hout
  rw [if_neg h0] at hout
  rw [Except.ok.injEq] at hout
  subst hout
  constructor
  · show ((List.range _).map _).length = ((List.range _).map _).length
    rw [List.length_map, List.length_map]
  · intro row hrow
    obtain ⟨i, _, hrw⟩ := List.mem_map.mp hrow
    subst hrw
    show (df.data.getD (picks i % df.rows) []).length = df.columns.length
    have hlt : picks i % df.rows < df.data.length :=
      Nat.mod_lt _ (Nat.pos_of_ne_zero h0)
    rw [List.getD_eq_getElem df.data [] hlt]
    exact h2 _ (List.getElem_mem hlt)

theorem wf_add_column (ι : Type) (df out : DataFrame ι) (name : Str)
    (values : List Val) (hwf : WF df)
    (hout : df.add_column name values = .ok out) : WF out := by
  obtain ⟨h1, h2⟩ := hwf
  rw [DataFrame.add_column] at hout
  by_cases hn : name ∈ df.columns
  · rw [if_pos hn] at hout; cases hout
  rw [if_neg hn] at hout
  by_cases h0 : df.rows = 0
  · rw [if_pos h0] at hout
    by_cases hv : values ≠ []
    · rw [if_pos hv] at hout; cases hout
    · rw [if_neg hv] at hout
      rw [Except.ok.injEq] at hout
      subst hout
      have hdnil : df.data = [] := List.length_eq_zero.mp h0
      refine ⟨h1, ?_⟩
      intro row hrow
      rw [hdnil] at hrow
      cases hrow
  rw [if_neg h0] at hout
  by_cases hvl : values.length ≠ df.rows
  · rw [if_pos hvl] at hout; cases hout
  rw [if_neg hvl] at hout
  rw [Except.ok.injEq] at hout
  subst hout
  have hveq : values.length = df.data.length := not_not.mp hvl
  constructor
  · show df.index.length =
      (df.data.zipWith (fun row v => row ++ [v]) values).length
    rw [List.length_zipWith, ← hveq, Nat.min_self]
    rw [h1, hveq]
  · intro row hrow
    obtain ⟨r0, hr0, v, _, hrw⟩ := mem_zipWith_struct hrow
    subst hrw
    show (r0 ++ [v]).length = (df.columns ++ [name]).length
    rw [List.length_append, List.length_append, h2 r0 hr0]
    rfl

theorem wf_column_stats (ι : Type) (sqrtQ pow15 : ℚ → ℚ)
    (df : DataFrame ι) : WF (df.column_stats_dataframe sqrtQ pow15) := by
  constructor
  · rfl
  · intro row hrow
    simp only [DataFrame.column_stats_dataframe, List.mem_cons,
      List.not_mem_nil, or_false] at hrow
    have hlen : ∀ f : List ℚ → Val,
        (((List.range df.cols).map (fun c => validCol df c)).map f).length =
          df.columns.length := by
      intro f
      rw [List.length_map, List.length_map, List.length_range]
      rfl
    rcases hrow with h|h|h|h|h|h|h|h <;> (subst h; exact hlen _)

theorem wf_correlation (ι : Type) (sqrtQ : ℚ → ℚ) (df : DataFrame ι)
    (out : DataFrame Str) (hout : df.correlation_matrix sqrtQ = .ok out) :
    WF out := by
  rw [DataFrame.correlation_matrix] at hout
  by_cases h1 : df.columns = []
  · rw [if_pos h1] at hout; cases hout
  rw [if_neg h1] at hout
  by_cases h2 : df.rows < 2
  · rw [if_pos h2] at hout; cases hout
  rw [if_neg h2] at hout
  by_cases h3 : (validData df).length < 2
  · rw [if_pos h3] at hout; cases hout
  rw [if_neg h3, Except.ok.injEq] at hout
  subst hout
  constructor
  · show df.columns.length = (corrData sqrtQ df).length
    rw [corrData, List.length_map, List.length_range]
    rfl
  · intro row hrow
    have hrow2 : row ∈ corrData sqrtQ df := hrow
    rw [corrData] at hrow2
    obtain ⟨i, _, hrw⟩ := List.mem_map.mp hrow2
    subst hrw
    show ((List.range df.cols).map _).length = df.columns.length
    rw [List.length_map, List.length_range]
    rfl

theorem wf_covariance (ι : Type) (df : DataFrame ι) (out : DataFrame Str)
    (hout : df.covariance_matrix = .ok out) : WF out := by
  rw [DataFrame.covariance_matrix] at hout
  by_cases h1 : df.columns = []
  · rw [if_pos h1] at hout; cases hout
  rw [if_neg h1] at hout
  by_cases h2 : df.rows < 2
  · rw [if_pos h2] at hout; cases hout
  rw [if_neg h2] at hout
  by_cases h3 : (validData df).length < 2
  · rw [if_pos h3] at hout; cases hout
  rw [if_neg h3, Except.ok.injEq] at hout
  subst hout
  constructor
  · show df.columns.length = (covData df).length
    rw [covData, List.length_map, List.length_range]
    rfl
  · intro row hrow
    have hrow2 : row ∈ covData df := hrow
    rw [covData] at hrow2
    obtain ⟨i, _, hrw⟩ := List.mem_map.mp hrow2
    subst hrw
    show ((List.range df.cols).map _).length = df.columns.length
    rw [List.length_map, List.length_range]
    rfl

theorem wf_spearman (ι : Type) (sqrtQ : ℚ → ℚ) (df : DataFrame ι)
    (out : DataFrame Str)
    (hout : df.spearman_correlation_matrix sqrtQ = .ok out) : WF out := by
  rw [DataFrame.spearman_correlation_matrix] at hout
  by_cases h1 : df.columns = []
  · rw [if_pos h1] at hout; cases hout
  rw [if_neg h1] at hout
  by_cases h2 : df.rows < 2
  · rw [if_pos h2] at hout; cases hout
  rw [if_neg h2] at hout
  cases hf : (List.range df.cols).find? (fun c =>
      (validCol df c).length < 2) with
  | some c => rw [hf] at hout; cases hout
  | none =>
    rw [hf] at hout
    exact wf_correlation ι sqrtQ _ out hout

theorem wf_kendall (ι : Type) (df : DataFrame ι) (out : DataFrame Str)
    (hout : df.kendall_tau_matrix = .ok out) : WF out := by
  rw [DataFrame.kendall_tau_matrix] at hout
  by_cases h1 : df.columns = []
  · rw [if_pos h1] at hout; cases hout
  rw [if_neg h1] at hout
  by_cases h2 : df.rows < 2
  · rw [if_pos h2] at hout; cases hout
  rw [if_neg h2, Except.ok.injEq] at hout
  subst hout
  constructor
  · show df.columns.length = ((List.range df.cols).map _).length
    rw [List.length_map, List.length_range]
    rfl
  · intro row hrow
    obtain ⟨i, _, hrw⟩ := List.mem_map.mp hrow
    subst hrw
    show ((List.range df.cols).map _).length = df.columns.length
    rw [List.length_map, List.length_range]
    rfl

theorem wf_column_percentiles (ι : Type) (df : DataFrame ι)
    (percentiles : List ℚ) (out : DataFrame Str)
    (hout : df.column_percentiles percentiles = .ok out) : WF out := by
  rw [DataFrame.column_percentiles] at hout
  by_cases h1 : df.columns = []
  · rw [if_pos h1] at hout; cases hout
  rw [if_neg h1] at hout
  by_cases h2 : percentiles = []
  · rw [if_pos h2] at hout; cases hout
  rw [if_neg h2] at hout
  by_cases h3 : percentiles.any (fun p =>
      decide (p < 0) || decide (100 < p)) = true
  · rw [if_pos h3] at hout; cases hout
  rw [if_neg h3, Except.ok.injEq] at hout
  subst hout
  constructor
  · show (percentiles.map formatQ).length = (percentiles.map _).length
    rw [List.length_map, List.length_map]
  · intro row hrow
    obtain ⟨p, _, hrw⟩ := List.mem_map.mp hrow
    subst hrw
    show ((List.range df.cols).map _).length = df.columns.length
    rw [List.length_map, List.length_range]
    rfl

theorem wf_random_normal (ι : Type) (cast : ℕ → ι) (capacity rows : ℕ)
    (columns : List Str) (stddev : ℚ) (draws : ℕ → ℚ) (sqrtQ : ℚ → ℚ)
    (target_corr : ℚ) (out : DataFrame ι)
    (hout : DataFrame.random_normal cast capacity rows columns stddev draws
      sqrtQ target_corr = .ok out) : WF out := by
  rw [DataFrame.random_normal] at hout
  by_cases h1 : columns = []
  · rw [if_pos h1] at hout; cases hout
  rw [if_neg h1] at hout
  by_cases h2 : stddev ≤ 0
  · rw [if_pos h2] at hout; cases hout
  rw [if_neg h2] at hout
  by_cases h3 : target_corr < 0 ∨ 1 < target_corr
  · rw [if_pos h3] at hout; cases hout
  rw [if_neg h3] at hout
  by_cases h4 : capacity < rows
  · rw [if_pos h4] at hout; cases hout
  rw [if_neg h4] at hout
  simp only [] at hout
  by_cases hd : columns.length ≤ 1 ∨ target_corr = 0
  · rw [if_pos hd, Except.ok.injEq] at hout
    subst hout
    constructor
    · show ((List.range rows).map cast).length =
        ((List.range rows).map _).length
      rw [List.length_map, List.length_map]
    · intro row hrow
      obtain ⟨r, _, hrw⟩ := List.mem_map.mp hrow
      subst hrw
      show ((List.range columns.length).map _).length = columns.length
      rw [List.length_map, List.length_range]
  · rw [if_neg hd, Except.ok.injEq] at hout
    subst hout
    constructor
    · show ((List.range rows).map cast).length =
        ((List.range rows).map _).length
      rw [List.length_map, List.length_map]
    · intro row hrow
      obtain ⟨r, _, hrw⟩ := List.mem_map.mp hrow
      subst hrw
      show ((List.range columns.length).map _).length = columns.length
      rw [List.length_map, List.length_range]

theorem wf_random_uniform (ι : Type) (cast : ℕ → ι) (capacity rows : ℕ)
    (columns : List Str) (mn mx : ℚ) (draws : ℕ → ℚ) (out : DataFrame ι)
    (hout : DataFrame.random_uniform cast capacity rows columns mn mx
      draws = .ok out) : WF out := by
  rw [DataFrame.random_uniform] at hout
  by_cases h1 : columns = []
  · rw [if_pos h1] at hout; cases hout
  rw [if_neg h1] at hout
  by_cases h2 : mx ≤ mn
  · rw [if_pos h2] at hout; cases hout
  rw [if_neg h2] at hout
  by_cases h3 : capacity < rows
  · rw [if_pos h3] at hout; cases hout
  rw [if_neg h3, Except.ok.injEq] at hout
  subst hout
  constructor
  · show ((List.range rows).map cast).length =
      ((List.range rows).map _).length
    rw [List.length_map, List.length_map]
  · intro row hrow
    obtain ⟨r, _, hrw⟩ := List.mem_map.mp hrow
    subst hrw
    show ((List.range columns.length).map _).length = columns.length
    rw [List.length_map, List.length_range]

/-- **C2.** Structural invariant: every table produced by the constructors
(`from_vectors`, `from_csv`, `from_binary`, the random generators) or by
any transform, selection, sorting, rolling, resampling or aggregation
operation has an index exactly as long as its cell matrix and rows exactly
as wide as its column-name list, whenever the inputs satisfy the same
invariant (the constructors need nothing). -/
theorem c2_invariants (ι : Type) [LinearOrder ι] [Inhabited ι] :
    (∀ (indices : List ι) (columns : List Str) (data : List (List Val)) out,
      DataFrame.from_vectors indices columns data = .ok out → WF out) ∧
    (∀ (cdc : IndexCodec ι) (auto : Option (ℕ → ι)) (input : Str)
      (hi : Bool) out, from_csv cdc auto input hi = .ok out → WF out) ∧
    (∀ (s : List (BinItem ι)) out, from_binary s = .ok out → WF out) ∧
    (∀ (df : DataFrame ι) (f : Val → Val), WF df →
      WF (df.apply_scalar f)) ∧
    (∀ (df out : DataFrame ι) (f : Val → Except String Val), WF df →
      df.apply_unaryE f = .ok out → WF out) ∧
    (∀ (df other out : DataFrame ι) (f : Val → Val → Except String Val)
      (name : String), WF df → WF other →
      df.apply_binary other f name = .ok out → WF out) ∧
    (∀ df out : DataFrame ι, WF df → df.differences = .ok out → WF out) ∧
    (∀ (logQ : ℚ → ℚ) (df out : DataFrame ι), WF df →
      df.log_changes logQ = .ok out → WF out) ∧
    (∀ df out : DataFrame ι, WF df →
      df.proportional_changes = .ok out → WF out) ∧
    (∀ (df out : DataFrame ι) (positions : List ℕ), WF df →
      df.select_columns_by_positions positions = .ok out → WF out) ∧
    (∀ (df out : DataFrame ι) (positions : List ℕ), WF df →
      df.select_rows_by_positions positions = .ok out → WF out) ∧
    (∀ (df : DataFrame ι) (count : ℕ), WF df → WF (df.head_rows count)) ∧
    (∀ (df : DataFrame ι) (count : ℕ), WF df → WF (df.tail_rows count)) ∧
    (∀ (df : DataFrame ι) (count : ℕ), WF df →
      WF (df.head_columns count)) ∧
    (∀ (df : DataFrame ι) (count : ℕ), WF df →
      WF (df.tail_columns count)) ∧
    (∀ (df : DataFrame ι) (start end_ : ι) (inclusive_end : Bool), WF df →
      WF (df.slice_rows_range start end_ inclusive_end)) ∧
    (∀ (df out : DataFrame ι) (column_name : Str) (asc : Bool), WF df →
      df.sort_rows_by_column column_name asc = .ok out → WF out) ∧
    (∀ (df out : DataFrame ι) (index_value : ι) (asc : Bool), WF df →
      df.sort_columns_by_row index_value asc = .ok out → WF out) ∧
    (∀ (df out : DataFrame ι) (w : ℕ), WF df →
      df.rolling_mean w = .ok out → WF out) ∧
    (∀ (sqrtQ : ℚ → ℚ) (df out : DataFrame ι) (w : ℕ), WF df →
      df.rolling_std sqrtQ w = .ok out → WF out) ∧
    (∀ (sqrtQ : ℚ → ℚ) (df out : DataFrame ι) (w : ℕ), WF df →
      df.rolling_rms sqrtQ w = .ok out → WF out) ∧
    (∀ (df out : DataFrame ι) (alpha : ℚ), WF df →
      df.exponential_moving_average alpha = .ok out → WF out) ∧
    (∀ (df out : DataFrame ι) (picks : ℕ → ℕ) (sample_size : ℕ)
      (reset_index : Bool) (int_cast : Option (ℕ → ι)), WF df →
      df.resample_rows picks sample_size reset_index int_cast = .ok out →
      WF out) ∧
    (∀ df : DataFrame ι, WF df → WF df.remove_rows_with_nan) ∧
    (∀ (df out : DataFrame ι) (name : Str) (values : List Val), WF df →
      df.add_column name values = .ok out → WF out) ∧
    (∀ (sqrtQ pow15 : ℚ → ℚ) (df : DataFrame ι),
      WF (df.column_stats_dataframe sqrtQ pow15)) ∧
    (∀ (sqrtQ : ℚ → ℚ) (df : DataFrame ι) (out : DataFrame Str),
      df.correlation_matrix sqrtQ = .ok out → WF out) ∧
    (∀ (df : DataFrame ι) (out : DataFrame Str),
      df.covariance_matrix = .ok out → WF out) ∧
    (∀ (sqrtQ : ℚ → ℚ) (df : DataFrame ι) (out : DataFrame Str),
      df.spearman_correlation_matrix sqrtQ = .ok out → WF out) ∧
    (∀ (df : DataFrame ι) (out : DataFrame Str),
      df.kendall_tau_matrix = .ok out → WF out) ∧
    (∀ (df : DataFrame ι) (percentiles : List ℚ) (out : DataFrame Str),
      df.column_percentiles percentiles = .ok out → WF out) ∧
    (∀ (cast : ℕ → ι) (capacity rows : ℕ) (columns : List Str)
      (stddev : ℚ) (draws : ℕ → ℚ) (sqrtQ : ℚ → ℚ) (target_corr : ℚ)
      (out : DataFrame ι),
      DataFrame.random_normal cast capacity rows columns stddev draws
        sqrtQ target_corr = .ok out → WF out) ∧
    (∀ (cast : ℕ → ι) (capacity rows : ℕ) (columns : List Str)
      (mn mx : ℚ) (draws : ℕ → ℚ) (out : DataFrame ι),
      DataFrame.random_uniform cast capacity rows columns mn mx draws =
        .ok out → WF out) :=
  ⟨fun a b c d h => wf_from_vectors ι a b c d h,
   fun a b c d e h => wf_from_csv ι a b c d e h,
   fun a b h => wf_from_binary ι a b h,
   fun a b h => wf_apply_scalar ι a b h,
   fun a b c h1 h2 => wf_apply_unaryE ι a b c h1 h2,
   fun a b c d e h1 h2 h3 => wf_apply_binary ι a b c d e h1 h2 h3,
   fun a b h1 h2 => wf_differences ι a b h1 h2,
   fun a b c h1 h2 => wf_log_changes ι a b c h1 h2,
   fun a b h1 h2 => wf_proportional_changes ι a b h1 h2,
   fun a b c h1 h2 => wf_select_columns_by_positions ι a b c h1 h2,
   fun a b c h1 h2 => wf_select_rows_by_positions ι a b c h1 h2,
   fun a b h => wf_head_rows ι a b h,
   fun a b h => wf_tail_rows ι a b h,
   fun a b h => wf_head_columns ι a b h,
   fun a b h => wf_tail_columns ι a b h,
   fun a b c d h => wf_slice_rows_range ι a b c d h,
   fun a b c d h1 h2 => wf_sort_rows_by_column ι a b c d h1 h2,
   fun a b c d h1 h2 => wf_sort_columns_by_row ι a b c d h1 h2,
   fun a b c h1 h2 => wf_rolling_mean ι a b c h1 h2,
   fun a b c d h1 h2 => wf_rolling_std ι a b c d h1 h2,
   fun a b c d h1 h2 => wf_rolling_rms ι a b c d h1 h2,
   fun a b c h1 h2 => wf_ema ι a b c h1 h2,
   fun a b c d e f h1 h2 => wf_resample_rows ι a b c d e f h1 h2,
   fun a h => wf_remove_rows_with_nan ι a h,
   fun a b c d h1 h2 => wf_add_column ι a b c d h1 h2,
   fun a b c => wf_column_stats ι a b c,
   fun a b c h => wf_correlation ι a b c h,
   fun a b h => wf_covariance ι a b h,
   fun a b c h => wf_spearman ι a b c h,
   fun a b h => wf_kendall ι a b h,
   fun a b c h => wf_column_percentiles ι a b c h,
   fun a b c d e f g i j h => wf_random_normal ι a b c d e f g i j h,
   fun a b c d e f g j h => wf_random_uniform ι a b c d e f g j h⟩

attribute [local semireducible] Rat.add Rat.mul Rat.sub Rat.inv in
/-- Closed witness for `c2_invariants`: the invariant holds for the 2×2
table and is preserved by `apply_scalar` and `head_rows`. -/
theorem c2_witness :
    WF (wt2.apply_scalar (fun v => v)) ∧ WF (wt2.head_rows 1) :=
  ⟨(c2_invariants ℤ).2.2.2.1 wt2 (fun v => v) (by decide),
   (c2_invariants ℤ).2.2.2.2.2.2.2.2.2.2.2.1 wt2 1 (by decide)⟩

end df
